import Mathlib

/-!
# intel-secl: host verification service, shallow embedding

Embedding of
* `pkg/model/hvs/trust_report.go` (trust report model),
* `pkg/hvs/services/hosttrust/verifier.go` (host-trust verifier),
* `pkg/hvs/controllers/certify_host_aiks_controller.go` (privacy-CA identity protocol),
* `pkg/lib/host-connector/intel_host_connector_factory.go` (host connector factory),
* `pkg/hvs/postgres/flavorgroup_store.go` (flavor-group search),
* `CreateAssetTag` of `pkg/lib/asset-tag`, modelled from the specification and the
  package test (its source is not among the embedded files).

Conventions.
* A Go slice is a `List`; the nil slice and the zero-length slice are both `[]`
  (the embedded code never distinguishes them: it only takes `len`, ranges, or appends).
* A Go `error` is `Option GoError` (`none` is the nil error); a call returning
  `(value, error)` is an `Except GoError value`.
* Interfaces injected into the code (stores, flavor verifier, file system, crypto
  library calls) are fields of an environment structure over a world state `σ`.
  Reads take the state, writes return the new state. The calls of the verifier to its
  collaborators and the effects of the controller (log entry, random bytes, directory and
  file writes, certification) are appended to a trace at their call sites.
-/

namespace IntelSecl

/-- A `uuid.UUID` (16 bytes) read as a natural number. -/
abbrev UUID := Nat

/-- The all-zero UUID, `uuid.Nil`. -/
def uuidNil : UUID := 0

/-- The message carried by a Go `error` value. -/
abbrev GoError := String

/-- A byte slice. -/
abbrev Bytes := List Nat

deriving instance DecidableEq for Except

/-! ## pkg/model/hvs -/

namespace hvs

/-- The `types.Pcr` record referenced by `RuleInfo.ExpectedPcr`. -/
structure Pcr where
  Index : Nat
  Value : String
  PcrBank : String
  deriving DecidableEq, Repr

/-- The `types.HostInfo` record; the verifier reads only `HardwareUUID`. -/
structure HostInfo where
  HardwareUUID : String
  deriving DecidableEq, Repr

/-- The `types.HostManifest` record. -/
structure HostManifest where
  HostInfo : HostInfo
  deriving DecidableEq, Repr

/-- The zero value of `types.HostManifest`. -/
def HostManifest.zero : HostManifest := ⟨⟨""⟩⟩

/-- The `Fault` record of trust_report.go (identifying fields). -/
structure Fault where
  Name : String
  Description : String
  deriving DecidableEq, Repr

/-- The `RuleInfo` record of trust_report.go; `Markers` holds the `String()` of each flavor part. -/
structure RuleInfo where
  Name : String
  Markers : List String
  ExpectedPcr : Option Pcr
  deriving DecidableEq, Repr

/-- The `RuleResult` record of trust_report.go. -/
structure RuleResult where
  Rule : RuleInfo
  FlavorId : UUID
  Faults : List Fault
  Trusted : Bool
  deriving DecidableEq, Repr

/-- The `TrustReport` record of trust_report.go. -/
structure TrustReport where
  PolicyName : String
  Results : List RuleResult
  Trusted : Bool
  HostManifest : HostManifest
  deriving DecidableEq, Repr

/-- The zero value of `TrustReport` (`var collectiveReport hvs.TrustReport`). -/
def TrustReport.zero : TrustReport := ⟨"", [], false, HostManifest.zero⟩

/-- Go `func (r *RuleResult) IsTrusted() bool`: no faults. -/
def RuleResult.IsTrusted (r : RuleResult) : Bool :=
  if r.Faults.length == 0 then true else false

/-- Go `func (t *TrustReport) isTrustedForResults(ruleResults []RuleResult) bool`. -/
def TrustReport.isTrustedForResults (_t : TrustReport) (ruleResults : List RuleResult) : Bool :=
  if ruleResults.length == 0 then
    false
  else
    ruleResults.foldl (fun trusted result => trusted && result.IsTrusted) true

/-- Go `func (t *TrustReport) IsTrusted() bool`. -/
def TrustReport.IsTrusted (t : TrustReport) : Bool :=
  t.isTrustedForResults t.Results

/-- The three rule-name constants of package `constants` (verifier-rules-and-faults) that
`CheckResultExists` lists in its `case`; their values are not part of the embedded sources. -/
structure RuleNames where
  RulePcrEventLogEqualsExcluding : String
  RulePcrEventLogIntegrity : String
  RulePcrMatchesConstant : String
  deriving DecidableEq, Repr

/-- Whether a rule name is one of the three listed in the `case` of `CheckResultExists`. -/
def RuleNames.isPcrRule (names : RuleNames) (name : String) : Bool :=
  name == names.RulePcrEventLogEqualsExcluding || name == names.RulePcrEventLogIntegrity ||
    name == names.RulePcrMatchesConstant

/-- Go `func find(slice []common.FlavorPart, val string) bool`; markers are held as their
`String()`. -/
def find (slice : List String) (val : String) : Bool :=
  match slice with
  | [] => false
  | item :: rest => if item == val then true else find rest val

/-- Go `func (t *TrustReport) GetResultsForMarker(marker string) []RuleResult`: the results
whose markers contain `marker`, in order. -/
def TrustReport.GetResultsForMarker (t : TrustReport) (marker : String) : List RuleResult :=
  t.Results.filter (fun result => find result.Rule.Markers marker)

/-- Go `func (r *RuleResult) equals(target RuleResult) bool`. -/
def RuleResult.equals (r target : RuleResult) : Bool :=
  if target.Rule.Name == r.Rule.Name && r.FlavorId == target.FlavorId then true else false

/-- The loop of `CheckResultExists` over the results that carry the target's first marker,
with its three `return`s and its `continue`. -/
def checkResultLoop (names : RuleNames) (targetRuleResult : RuleResult) :
    List RuleResult → Bool
  | [] => false
  | ruleResult :: rest =>
    if targetRuleResult.equals ruleResult then
      if names.isPcrRule ruleResult.Rule.Name then
        -- compare pcrs for only these rules
        match targetRuleResult.Rule.ExpectedPcr with
        | none => false
        | some pcr =>
          if some pcr == ruleResult.Rule.ExpectedPcr then true
          else checkResultLoop names targetRuleResult rest
      else
        if targetRuleResult.Faults.length > 0 then false else true
    else checkResultLoop names targetRuleResult rest

/-- Go `func (t *TrustReport) CheckResultExists(targetRuleResult RuleResult) bool`; `none` is
the run-time panic of `targetRuleResult.Rule.Markers[0]` on an empty marker list. -/
def TrustReport.CheckResultExists (names : RuleNames) (t : TrustReport)
    (targetRuleResult : RuleResult) : Option Bool :=
  match targetRuleResult.Rule.Markers with
  | [] => none
  | marker :: _ =>
    some (checkResultLoop names targetRuleResult (t.GetResultsForMarker marker))

/-- Go `func (t *TrustReport) AddResult(ruleResult RuleResult)`: the report after the call;
`none` is the panic of `CheckResultExists`. -/
def TrustReport.AddResult (names : RuleNames) (t : TrustReport) (ruleResult : RuleResult) :
    Option TrustReport :=
  match t.CheckResultExists names ruleResult with
  | none => none
  | some found =>
    if !found then some { t with Results := t.Results ++ [ruleResult] } else some t

/-- Modelled from the spec: the rule names of §4.3 stand for the three constants of package
`constants`, which is not part of the embedded sources. -/
def exRuleNames : RuleNames :=
  ⟨"PcrEventLogEqualsExcluding", "PcrEventLogIntegrity", "PcrMatchesConstant"⟩

/-- The `Meta` section of a flavor; the verifier reads only `ID`. -/
structure Meta where
  ID : UUID
  deriving DecidableEq, Repr

/-- The `hvs.Flavor` record. -/
structure Flavor where
  Meta : Meta
  deriving DecidableEq, Repr

/-- The `hvs.SignedFlavor` record. -/
structure SignedFlavor where
  Flavor : Flavor
  Signature : String
  deriving DecidableEq, Repr

/-- The `hvs.FlavorGroup` record (identity and name). -/
structure FlavorGroup where
  ID : UUID
  Name : String
  deriving DecidableEq, Repr

end hvs

/-- The function `errors.Wrap` of github.com/pkg/errors: wrapping the nil error gives nil,
wrapping a non-nil error prefixes the message. -/
def errorsWrap (err : Option GoError) (message : String) : Option GoError :=
  match err with
  | none => none
  | some e => some (message ++ ": " ++ e)

/-! ## pkg/hvs/services/hosttrust -/

namespace hosttrust

/-- Go `var ErrInvalidHostManiFest = errors.New("invalid host data")`. -/
def ErrInvalidHostManiFest : GoError := "invalid host data"

/-- Go `var ErrManifestMissingHwUUID = errors.New("host data missing hardware uuid")`. -/
def ErrManifestMissingHwUUID : GoError := "host data missing hardware uuid"

/-- The error built in `Verify` when the flavor-group search fails. -/
def ErrStoreAccess : GoError := "hosttrust/verifier:Verify() Store access error"

/-- The `hostTrustCache` record filled by `validateCachedFlavors`. -/
structure hostTrustCache where
  hostID : UUID
  trustedFlavors : List hvs.Flavor
  trustReport : hvs.TrustReport
  deriving DecidableEq, Repr

/-- The zero value `hostTrustCache{}`. -/
def hostTrustCache.zero : hostTrustCache := ⟨uuidNil, [], hvs.TrustReport.zero⟩

/-- The `saml.SamlAssertion` record returned by the report generator. -/
structure SamlAssertion where
  Assertion : String
  CreatedTime : Nat
  ExpiryTime : Nat
  deriving DecidableEq, Repr

/-- The `models.HVSReport` record built by `storeTrustReport`. -/
structure HVSReport where
  HostID : UUID
  TrustReport : hvs.TrustReport
  CreatedAt : Nat
  Expiration : Nat
  Saml : String
  deriving DecidableEq, Repr

/-- One call made by the verifier to an injected collaborator; `ρ` is the type of a
flavor group's trust requirements (`*FlvGrpHostTrustReqs`). -/
inductive Call (ρ : Type) where
  | flavorGroupSearch (hostId : UUID)
  | NewFlvGrpHostTrustReqs (hostId hwUuid : UUID) (fg : hvs.FlavorGroup)
  | RetrieveTrustCacheFlavors (hostId flavGrpId : UUID)
  | flavorRetrieve (flvId : UUID)
  | flavorVerify (cachedFlavor : hvs.SignedFlavor)
  | RemoveTrustCacheFlavors (hostId : UUID) (flavorIds : List UUID)
  | createFlavorGroupReport (hostId : UUID) (reqs : ρ) (fgTrustCache : hostTrustCache)
  | GenerateSamlReport (report : hvs.TrustReport)
  | reportCreate (report : HVSReport)
  deriving DecidableEq, Repr

/-- The collaborators of the verifier: the four stores, the flavor verifier, the SAML
report generator, `uuid.Parse`, and the functions of the package that live outside
verifier.go. Reads take the store state; writes return the new state. -/
structure Env (σ ρ : Type) where
  /-- The library function `uuid.Parse`. -/
  uuidParse : String → Except GoError UUID
  /-- Go `flavorGroupStore.Search` with filter `HostId: hostId.String()`. -/
  flavorGroupSearch : UUID → σ → Except GoError (List hvs.FlavorGroup)
  /-- Go `hostStore.RetrieveTrustCacheFlavors(hostId, flavGrpId)`. -/
  RetrieveTrustCacheFlavors : UUID → UUID → σ → Except GoError (List UUID)
  /-- Go `hostStore.RemoveTrustCacheFlavors(hostId, ids)`: the error and the new state. -/
  RemoveTrustCacheFlavors : UUID → List UUID → σ → Option GoError × σ
  /-- Go `flavorStore.Retrieve(flvId)`. -/
  flavorRetrieve : UUID → σ → Except GoError hvs.SignedFlavor
  /-- Go `reportStore.Create(report)`: the error and the new state. -/
  reportCreate : HVSReport → σ → Option GoError × σ
  /-- Go `flavorVerifier.Verify(hostData, flavor, flag)`; the verifier passes `true` as flag. -/
  flavorVerify : hvs.HostManifest → hvs.SignedFlavor → Bool → Except GoError hvs.TrustReport
  /-- Go `NewFlvGrpHostTrustReqs(hostId, hwUuid, fg, flavorStore)`: the requirements and the
  error that `Verify` discards. -/
  NewFlvGrpHostTrustReqs : UUID → UUID → hvs.FlavorGroup → σ → ρ × Option GoError
  /-- Go `fgTrustReqs.MeetsFlavorGroupReqs(fgTrustCache)`. -/
  MeetsFlavorGroupReqs : ρ → hostTrustCache → Bool
  /-- Go `createFlavorGroupReport(hostId, reqs, hostData, cache)`: the report, the error that
  `Verify` discards, and the new state. -/
  createFlavorGroupReport :
    UUID → ρ → hvs.HostManifest → hostTrustCache → σ → hvs.TrustReport × Option GoError × σ
  /-- Go `NewSamlReportGenerator(issuer).GenerateSamlReport(report)`. -/
  GenerateSamlReport : hvs.TrustReport → σ → SamlAssertion

/-- The store state together with the trace of calls made so far. -/
structure World (σ ρ : Type) where
  state : σ
  calls : List (Call ρ)

/-- Append one call to the trace. -/
def World.record {σ ρ : Type} (w : World σ ρ) (c : Call ρ) : World σ ρ :=
  { w with calls := w.calls ++ [c] }

/-- Go `func (v *verifier) getCachedFlavors(hostId, flavGrpId)`: the cached IDs are read from the
host store and each is looked up in the flavor store; an ID whose lookup fails is skipped. -/
def getCachedFlavors {σ ρ : Type} (env : Env σ ρ) (hostId flavGrpId : UUID) (w : World σ ρ) :
    Except GoError (List hvs.SignedFlavor) × World σ ρ :=
  let w1 := w.record (.RetrieveTrustCacheFlavors hostId flavGrpId)
  match env.RetrieveTrustCacheFlavors hostId flavGrpId w.state with
  | .error err =>
    (.error ("hosttrust/verifier:Verify() Error while retrieving TrustCacheFlavors" ++ ": " ++ err),
      w1)
  | .ok flIds =>
    let r := flIds.foldl
      (fun (acc : List hvs.SignedFlavor × World σ ρ) flvId =>
        match env.flavorRetrieve flvId acc.2.state with
        | .ok flv => (acc.1 ++ [flv], acc.2.record (.flavorRetrieve flvId))
        | .error _ => (acc.1, acc.2.record (.flavorRetrieve flvId)))
      ([], w1)
    (.ok r.1, r.2)

/-- The local variables of the loop of `validateCachedFlavors`. -/
structure ValidateVars where
  htc : hostTrustCache
  collectiveReport : hvs.TrustReport
  trustCachesToDelete : List UUID
  deriving DecidableEq, Repr

/-- The loop of `validateCachedFlavors` over the cached flavors; an error of the flavor
verifier leaves the loop (and the function) at once. -/
def validateLoop {σ ρ : Type} (env : Env σ ρ) (hostData : hvs.HostManifest) :
    List hvs.SignedFlavor → ValidateVars → List (Call ρ) →
    Except GoError ValidateVars × List (Call ρ)
  | [], vars, calls => (.ok vars, calls)
  | cachedFlavor :: rest, vars, calls =>
    match env.flavorVerify hostData cachedFlavor true with
    | .error err =>
      (.error ("hosttrust/verifier:validateCachedFlavors() Error from flavor verifier" ++ ": " ++ err),
        calls ++ [.flavorVerify cachedFlavor])
    | .ok report =>
      if report.Trusted then
        validateLoop env hostData rest
          { vars with
            htc := { vars.htc with
              trustedFlavors := vars.htc.trustedFlavors ++ [cachedFlavor.Flavor] }
            collectiveReport := { vars.collectiveReport with
              Results := vars.collectiveReport.Results ++ report.Results } }
          (calls ++ [.flavorVerify cachedFlavor])
      else
        validateLoop env hostData rest
          { vars with
            trustCachesToDelete := vars.trustCachesToDelete ++ [cachedFlavor.Flavor.Meta.ID] }
          (calls ++ [.flavorVerify cachedFlavor])

/-- Go `func (v *verifier) validateCachedFlavors(hostId, hostData, cachedFlavors)`. -/
def validateCachedFlavors {σ ρ : Type} (env : Env σ ρ) (hostId : UUID)
    (hostData : hvs.HostManifest) (cachedFlavors : List hvs.SignedFlavor) (w : World σ ρ) :
    Except GoError hostTrustCache × World σ ρ :=
  let r := validateLoop env hostData cachedFlavors
    ⟨{ hostTrustCache.zero with hostID := hostId }, hvs.TrustReport.zero, []⟩ w.calls
  match r.1 with
  | .error err => (.error err, { w with calls := r.2 })
  | .ok vars =>
    -- remove cache entries for flavors that could not be verified
    let rm := env.RemoveTrustCacheFlavors hostId vars.trustCachesToDelete w.state
    (.ok { vars.htc with trustReport := vars.collectiveReport },
      { state := rm.2,
        calls := r.2 ++ [.RemoveTrustCacheFlavors hostId vars.trustCachesToDelete] })

/-- Go `func (v *verifier) storeTrustReport(hostID, trustReport, samlReport)`: the error of
`reportStore.Create` is logged, not returned. -/
def storeTrustReport {σ ρ : Type} (env : Env σ ρ) (hostID : UUID) (trustReport : hvs.TrustReport)
    (samlReport : SamlAssertion) (w : World σ ρ) : World σ ρ :=
  let hvsReport : HVSReport :=
    { HostID := hostID
      TrustReport := trustReport
      CreatedAt := samlReport.CreatedTime
      Expiration := samlReport.ExpiryTime
      Saml := samlReport.Assertion }
  { state := (env.reportCreate hvsReport w.state).2
    calls := w.calls ++ [.reportCreate hvsReport] }

/-- The variables of `Verify` that live across the loop over the flavor groups. -/
structure VerifyVars (σ ρ : Type) where
  finalReportValid : Bool
  finalTrustReport : hvs.TrustReport
  world : World σ ρ

/-- The slice a discarded-error call leaves in its first result: nil on error. -/
def sliceOrNil {α : Type} (r : Except GoError (List α)) : List α :=
  match r with
  | .ok l => l
  | .error _ => []

/-- The cache `validateCachedFlavors` leaves in its first result: `hostTrustCache{}` on error. -/
def cacheOrZero (r : Except GoError hostTrustCache) : hostTrustCache :=
  match r with
  | .ok c => c
  | .error _ => hostTrustCache.zero

/-- The value of `fgTrustReqs` in the iteration of `Verify` for `fg` (the error of
`NewFlvGrpHostTrustReqs` is discarded). -/
def fgTrustReqs {σ ρ : Type} (env : Env σ ρ) (hostId hwUuid : UUID) (vars : VerifyVars σ ρ)
    (fg : hvs.FlavorGroup) : ρ :=
  (env.NewFlvGrpHostTrustReqs hostId hwUuid fg vars.world.state).1

/-- The call `v.getCachedFlavors(hostId, fg.ID)` in the iteration of `Verify` for `fg`. -/
def fgCached {σ ρ : Type} (env : Env σ ρ) (hostId hwUuid : UUID) (vars : VerifyVars σ ρ)
    (fg : hvs.FlavorGroup) : Except GoError (List hvs.SignedFlavor) × World σ ρ :=
  getCachedFlavors env hostId fg.ID
    (vars.world.record (.NewFlvGrpHostTrustReqs hostId hwUuid fg))

/-- The value of `fgCachedFlavors` in the iteration of `Verify` for `fg` (the error of
`getCachedFlavors` is discarded). -/
def fgCachedFlavors {σ ρ : Type} (env : Env σ ρ) (hostId hwUuid : UUID) (vars : VerifyVars σ ρ)
    (fg : hvs.FlavorGroup) : List hvs.SignedFlavor :=
  sliceOrNil (fgCached env hostId hwUuid vars fg).1

/-- The call `v.validateCachedFlavors(hostId, hostData, fgCachedFlavors)` in the iteration of
`Verify` for `fg`. -/
def fgValidated {σ ρ : Type} (env : Env σ ρ) (hostId hwUuid : UUID) (hostData : hvs.HostManifest)
    (vars : VerifyVars σ ρ) (fg : hvs.FlavorGroup) : Except GoError hostTrustCache × World σ ρ :=
  validateCachedFlavors env hostId hostData (fgCachedFlavors env hostId hwUuid vars fg)
    (fgCached env hostId hwUuid vars fg).2

/-- The value of `fgTrustCache` in the iteration of `Verify` for `fg` (the error of
`validateCachedFlavors` is discarded). -/
def fgTrustCache {σ ρ : Type} (env : Env σ ρ) (hostId hwUuid : UUID) (hostData : hvs.HostManifest)
    (vars : VerifyVars σ ρ) (fg : hvs.FlavorGroup) : hostTrustCache :=
  cacheOrZero (fgValidated env hostId hwUuid hostData vars fg).1

/-- The call `v.createFlavorGroupReport(hostId, *fgTrustReqs, hostData, fgTrustCache)` in the
iteration of `Verify` for `fg`. -/
def fgCreated {σ ρ : Type} (env : Env σ ρ) (hostId hwUuid : UUID) (hostData : hvs.HostManifest)
    (vars : VerifyVars σ ρ) (fg : hvs.FlavorGroup) : hvs.TrustReport × Option GoError × σ :=
  env.createFlavorGroupReport hostId (fgTrustReqs env hostId hwUuid vars fg) hostData
    (fgTrustCache env hostId hwUuid hostData vars fg)
    (fgValidated env hostId hwUuid hostData vars fg).2.state

/-- One iteration of `for _, fg := range flvGroups` in `Verify`. -/
def verifyGroup {σ ρ : Type} (env : Env σ ρ) (hostId hwUuid : UUID) (hostData : hvs.HostManifest)
    (vars : VerifyVars σ ρ) (fg : hvs.FlavorGroup) : VerifyVars σ ρ :=
  if (fgCachedFlavors env hostId hwUuid vars fg).length > 0 then
    if !env.MeetsFlavorGroupReqs (fgTrustReqs env hostId hwUuid vars fg)
        (fgTrustCache env hostId hwUuid hostData vars fg) then
      -- finalReportValid = false; fgTrustReport, _ = v.createFlavorGroupReport(...)
      { finalReportValid := false
        finalTrustReport := { vars.finalTrustReport with
          Results := vars.finalTrustReport.Results ++
            (fgCreated env hostId hwUuid hostData vars fg).1.Results }
        world :=
          { state := (fgCreated env hostId hwUuid hostData vars fg).2.2
            calls := (fgValidated env hostId hwUuid hostData vars fg).2.calls ++
              [.createFlavorGroupReport hostId (fgTrustReqs env hostId hwUuid vars fg)
                (fgTrustCache env hostId hwUuid hostData vars fg)] } }
    else
      -- fgTrustReport := fgTrustCache.trustReport
      { finalReportValid := vars.finalReportValid
        finalTrustReport := { vars.finalTrustReport with
          Results := vars.finalTrustReport.Results ++
            (fgTrustCache env hostId hwUuid hostData vars fg).trustReport.Results }
        world := (fgValidated env hostId hwUuid hostData vars fg).2 }
  else
    { vars with world := (fgCached env hostId hwUuid vars fg).2 }

/-- The state of `Verify` after the loop over `flvGroups`, started from
`finalReportValid = true` and an empty report holding the manifest. -/
def verifyLoop {σ ρ : Type} (env : Env σ ρ) (hostId hwUuid : UUID) (hostData : hvs.HostManifest)
    (flvGroups : List hvs.FlavorGroup) (w : World σ ρ) : VerifyVars σ ρ :=
  flvGroups.foldl (verifyGroup env hostId hwUuid hostData)
    { finalReportValid := true
      finalTrustReport := { hvs.TrustReport.zero with HostManifest := hostData }
      world := w }

/-- The condition of `Verify` under which a new report is generated and stored:
`len(finalTrustReport.Results) > 0 && !finalReportValid || newData`. -/
def needsNewReport {σ ρ : Type} (vars : VerifyVars σ ρ) (newData : Bool) : Bool :=
  (decide (vars.finalTrustReport.Results.length > 0) && !vars.finalReportValid) || newData

/-- Go `func (v *verifier) Verify(hostId, hostData, newData) error`; `hostData = none` is the nil
manifest. -/
def Verify {σ ρ : Type} (env : Env σ ρ) (hostId : UUID) (hostData : Option hvs.HostManifest)
    (newData : Bool) (w : World σ ρ) : Option GoError × World σ ρ :=
  match hostData with
  | none => (some ErrInvalidHostManiFest, w)
  | some hd =>
    match env.uuidParse hd.HostInfo.HardwareUUID with
    | .error _ => (some ErrManifestMissingHwUUID, w)
    | .ok hwUuid =>
      if hwUuid = uuidNil then
        (some ErrManifestMissingHwUUID, w)
      else
        match env.flavorGroupSearch hostId w.state with
        | .error _ => (some ErrStoreAccess, w.record (.flavorGroupSearch hostId))
        | .ok flvGroups =>
          let vars := verifyLoop env hostId hwUuid hd flvGroups (w.record (.flavorGroupSearch hostId))
          if needsNewReport vars newData then
            let samlReport := env.GenerateSamlReport vars.finalTrustReport vars.world.state
            (none, storeTrustReport env hostId vars.finalTrustReport samlReport
              (vars.world.record (.GenerateSamlReport vars.finalTrustReport)))
          else
            (none, vars.world)

/-- Whether the flavor verifier's report for `f` has `Trusted` set (false when it fails). -/
def reportTrusted {σ ρ : Type} (env : Env σ ρ) (hostData : hvs.HostManifest)
    (f : hvs.SignedFlavor) : Bool :=
  match env.flavorVerify hostData f true with
  | .ok report => report.Trusted
  | .error _ => false

/-- The rule results of the flavor verifier's report for `f` (none when it fails). -/
def reportResults {σ ρ : Type} (env : Env σ ρ) (hostData : hvs.HostManifest)
    (f : hvs.SignedFlavor) : List hvs.RuleResult :=
  match env.flavorVerify hostData f true with
  | .ok report => report.Results
  | .error _ => []

/-- Whether a call is the generation of a SAML report. -/
def Call.isGenerateSamlReport {ρ : Type} : Call ρ → Bool
  | .GenerateSamlReport _ => true
  | _ => false

/-- Whether a call is `reportStore.Create`. -/
def Call.isReportCreate {ρ : Type} : Call ρ → Bool
  | .reportCreate _ => true
  | _ => false

/-- Whether a call is `createFlavorGroupReport`. -/
def Call.isCreateFlavorGroupReport {ρ : Type} : Call ρ → Bool
  | .createFlavorGroupReport _ _ _ => true
  | _ => false

/-- Whether a call is one of those made inside the loop of `Verify` over the flavor groups. -/
def Call.isLoopCall {ρ : Type} : Call ρ → Bool
  | .NewFlvGrpHostTrustReqs _ _ _ => true
  | .RetrieveTrustCacheFlavors _ _ => true
  | .flavorRetrieve _ => true
  | .flavorVerify _ => true
  | .RemoveTrustCacheFlavors _ _ => true
  | .createFlavorGroupReport _ _ _ => true
  | _ => false

/-- The flavors `getCachedFlavors` returns for the cached IDs `flIds`: those whose
`flavorStore.Retrieve` succeeds, in order. -/
def retrievedFlavors {σ ρ : Type} (env : Env σ ρ) (flIds : List UUID) (s : σ) :
    List hvs.SignedFlavor :=
  flIds.filterMap (fun flvId => (env.flavorRetrieve flvId s).toOption)

/-! ### An in-memory instance of the verifier's collaborators -/

/-- Modelled from the spec: the implementations of the store abstractions of §6.1 used by the
verifier (flavor-group store, host store with its trust cache, flavor store, report store) are
not part of the embedded sources; they are in-memory tables here. `trustCache` holds
(host, flavor group, flavor ID) entries; each `fail` switch makes one operation return an
error. -/
structure MemStore where
  flavorGroups : List (UUID × hvs.FlavorGroup)
  trustCache : List (UUID × UUID × UUID)
  flavors : List hvs.SignedFlavor
  reports : List HVSReport
  failSearch : Bool
  failRetrieveCache : Bool
  failRemove : Bool
  failCreate : Bool
  deriving DecidableEq, Repr

/-- Modelled from the spec: the trust requirements of a flavor group (§4.4 step 2a), whose
type `FlvGrpHostTrustReqs` is not part of the embedded sources: the group and the number of
trusted flavors it asks for. -/
structure MemReqs where
  group : hvs.FlavorGroup
  required : Nat
  deriving DecidableEq, Repr

/-- Modelled from the spec: `search` of the flavor-group store with a host filter (§6.1). -/
def MemStore.search (hostId : UUID) (s : MemStore) : Except GoError (List hvs.FlavorGroup) :=
  if s.failSearch then .error "flavor group store unavailable"
  else .ok ((s.flavorGroups.filter (fun e => e.1 == hostId)).map (fun e => e.2))

/-- Modelled from the spec: `retrieve_trust_cache_flavors(host_id, group_id)` (§6.1). -/
def MemStore.retrieveTrustCacheFlavors (hostId flavGrpId : UUID) (s : MemStore) :
    Except GoError (List UUID) :=
  if s.failRetrieveCache then .error "host store unavailable"
  else .ok ((s.trustCache.filter (fun e => e.1 == hostId && e.2.1 == flavGrpId)).map
    (fun e => e.2.2))

/-- Modelled from the spec: `remove_trust_cache_flavors(host_id, [flavor_id])` (§6.1). -/
def MemStore.removeTrustCacheFlavors (hostId : UUID) (ids : List UUID) (s : MemStore) :
    Option GoError × MemStore :=
  if s.failRemove then (some "host store unavailable", s)
  else (none,
    { s with trustCache := s.trustCache.filter (fun e => !(e.1 == hostId && ids.contains e.2.2)) })

/-- Modelled from the spec: `retrieve(id)` of the flavor store (§6.1). -/
def MemStore.retrieve (flvId : UUID) (s : MemStore) : Except GoError hvs.SignedFlavor :=
  match s.flavors.find? (fun f => f.Flavor.Meta.ID == flvId) with
  | some f => .ok f
  | none => .error "record not found"

/-- Modelled from the spec: `create(report)` of the report store (§6.1). -/
def MemStore.create (report : HVSReport) (s : MemStore) : Option GoError × MemStore :=
  if s.failCreate then (some "report store unavailable", s)
  else (none, { s with reports := s.reports ++ [report] })

/-- Modelled from the spec: the collaborators of §4.4 and §6.1 over the in-memory tables.
`uuids` is the table of strings `uuid.Parse` accepts; `verdicts` gives the flavor verifier's
report per flavor ID (an ID without entry makes it fail); a group asks for one trusted
flavor; `created` is the report `createFlavorGroupReport` returns per group ID (the report of
the cache when there is no entry), the stores left as they are. -/
def memEnv (uuids : List (String × UUID)) (verdicts : List (UUID × hvs.TrustReport))
    (created : List (UUID × hvs.TrustReport)) : Env MemStore MemReqs where
  uuidParse := fun s =>
    match uuids.lookup s with
    | some u => .ok u
    | none => .error "invalid UUID"
  flavorGroupSearch := MemStore.search
  RetrieveTrustCacheFlavors := MemStore.retrieveTrustCacheFlavors
  RemoveTrustCacheFlavors := MemStore.removeTrustCacheFlavors
  flavorRetrieve := MemStore.retrieve
  reportCreate := MemStore.create
  flavorVerify := fun _ f _ =>
    match verdicts.lookup f.Flavor.Meta.ID with
    | some r => .ok r
    | none => .error "flavor verifier failed"
  NewFlvGrpHostTrustReqs := fun _ _ fg _ => (⟨fg, 1⟩, none)
  MeetsFlavorGroupReqs := fun reqs cache => decide (reqs.required ≤ cache.trustedFlavors.length)
  createFlavorGroupReport := fun _ reqs _ cache s =>
    match created.lookup reqs.group.ID with
    | some r => (r, none, s)
    | none => (cache.trustReport, none, s)
  GenerateSamlReport := fun _ _ => ⟨"saml", 0, 1⟩

/-! ### Example data for the in-memory instance -/

/-- A host manifest with hardware UUID text "hw-1". -/
def exManifest : hvs.HostManifest := ⟨⟨"hw-1"⟩⟩

/-- A flavor group with ID 10. -/
def exGroup : hvs.FlavorGroup := ⟨10, "platform"⟩

/-- A flavor with ID 7, which the example verifier trusts. -/
def exFlavorA : hvs.SignedFlavor := ⟨⟨⟨7⟩⟩, "sigA"⟩

/-- A flavor with ID 8, which the example verifier does not trust. -/
def exFlavorB : hvs.SignedFlavor := ⟨⟨⟨8⟩⟩, "sigB"⟩

/-- The rule result of flavor 7: no fault. -/
def exResultA : hvs.RuleResult :=
  ⟨⟨"rule.PcrMatchesConstant", ["PLATFORM"], none⟩, 7, [], true⟩

/-- The rule result of flavor 8: one fault. -/
def exResultB : hvs.RuleResult :=
  ⟨⟨"rule.PcrMatchesConstant", ["PLATFORM"], none⟩, 8, [⟨"fault.PcrValueMismatch", "pcr 0"⟩], false⟩

/-- The example collaborators: "hw-1" parses to UUID 5 and "zero" to the all-zero UUID;
flavor 7 verifies, flavor 8 does not; `createFlavorGroupReport` finds no further flavor and
returns the report of the cache. -/
def exEnv : Env MemStore MemReqs :=
  memEnv [("hw-1", 5), ("zero", 0)]
    [(7, ⟨"", [exResultA], true, exManifest⟩), (8, ⟨"", [exResultB], false, exManifest⟩)] []

/-- The example stores: host 1 belongs to group 10, the flavor store holds flavors 7 and 8,
no report is stored, and the trust cache is as given. -/
def exStore (cache : List (UUID × UUID × UUID)) : MemStore :=
  { flavorGroups := [(1, exGroup)]
    trustCache := cache
    flavors := [exFlavorA, exFlavorB]
    reports := []
    failSearch := false
    failRetrieveCache := false
    failRemove := false
    failCreate := false }

end hosttrust

/-! ## pkg/hvs/controllers/certify_host_aiks_controller.go -/

namespace controllers

/-- Go `http.StatusOK`. -/
def StatusOK : Nat := 200

/-- Go `http.StatusBadRequest`. -/
def StatusBadRequest : Nat := 400

/-- Go `http.StatusInternalServerError`. -/
def StatusInternalServerError : Nat := 500

/-- A `pkix.Name`: the common name and the value of `Name.String()`. -/
structure Name where
  CommonName : String
  Str : String
  deriving DecidableEq, Repr

/-- An `rsa.PublicKey`. -/
structure rsaPublicKey where
  N : Nat
  E : Nat
  deriving DecidableEq, Repr

/-- A `pkix.Extension`. -/
structure Extension where
  Id : List Nat
  Critical : Bool
  Value : Bytes
  deriving DecidableEq, Repr

/-- A parsed `x509.Certificate` (the fields the controller reads). -/
structure Certificate where
  Raw : Bytes
  Issuer : Name
  Subject : Name
  PublicKey : rsaPublicKey
  deriving DecidableEq, Repr

/-- The zero value of `x509.Certificate` (`var endorsementCertsToVerify x509.Certificate`):
its `Raw` is nil. -/
def Certificate.zero : Certificate := ⟨[], ⟨"", ""⟩, ⟨"", ""⟩, ⟨0, 0⟩⟩

/-- The `x509.Certificate` template filled by `CertifyAik`. -/
structure CertTemplate where
  IssuerCommonName : String
  SerialNumber : Nat
  SubjectCommonName : String
  NotBefore : Nat
  NotAfter : Nat
  Extensions : List Extension
  ExtraExtensions : List Extension
  deriving DecidableEq, Repr

/-- The `taModel.IdentityRequest` record: the AIK modulus and name, and the remaining blobs. -/
structure IdentityRequest where
  AikModulus : Bytes
  AikName : Bytes
  Blobs : Bytes
  deriving DecidableEq, Repr

/-- The `taModel.IdentityChallengePayload` record. -/
structure IdentityChallengePayload where
  IdentityRequest : IdentityRequest
  SymmetricBlob : Bytes
  AsymmetricBlob : Bytes
  deriving DecidableEq, Repr

/-- The `taModel.IdentityProofRequest` record, as one blob. -/
structure IdentityProofRequest where
  Blob : Bytes
  deriving DecidableEq, Repr

/-- The zero value `taModel.IdentityProofRequest{}`. -/
def IdentityProofRequest.zero : IdentityProofRequest := ⟨[]⟩

/-- One entry returned by the EK store search; `Certificate` is base64 text. -/
structure TpmEndorsement where
  Certificate : String
  deriving DecidableEq, Repr

/-- The `PrivacyCAFileStore` record. -/
structure PrivacyCAFileStore where
  keyPath : String
  certPath : String
  eCACertPath : String
  aikRequestsDirPath : String
  deriving DecidableEq, Repr

/-- A private key read from a PKCS#8 file. -/
abbrev PrivateKey := Bytes

/-- One effect of the controller on its surroundings. -/
inductive PcaCall where
  | secLog (message : String)
  | GetRandomBytes (n : Nat)
  | MkdirAll (path : String) (perm : Nat)
  | WriteFile (path : String) (data : Bytes) (perm : Nat)
  | CertifyAik (aikPubKey : rsaPublicKey) (aikName : Bytes) (validity : Int)
  | CreateCertificate (template : CertTemplate) (pub : rsaPublicKey)
  | ProcessIdentityRequest (request : IdentityRequest) (pub : rsaPublicKey) (data : Bytes)
  deriving DecidableEq, Repr

/-- The surroundings of the controller: key and certificate files, the privacy-CA library,
the X.509 and encoding libraries, the EK store, the random source, the clock and the file
system, over a world state `σ`. Reads take the state; effects return the new state. -/
structure PcaEnv (σ : Type) where
  /-- Go `constants.AIKCertValidity`. -/
  AIKCertValidity : Int
  /-- Go `constants.EndorsementCACertFile`. -/
  EndorsementCACertFile : String
  /-- Go `crypt.GetPrivateKeyFromPKCS8File(path)`. -/
  GetPrivateKeyFromPKCS8File : String → σ → Except GoError PrivateKey
  /-- Go `crypt.GetCertFromPemFile(path)`. -/
  GetCertFromPemFile : String → σ → Except GoError Certificate
  /-- Go `crypt.GetSubjectCertsMapFromPemFile(path)`. -/
  GetSubjectCertsMapFromPemFile : String → σ → Except GoError (List Certificate)
  /-- Go `privacyca.NewPrivacyCA(identityRequest)`: its error; the object it builds is
  determined by the request. -/
  NewPrivacyCA : IdentityRequest → Option GoError
  /-- Go `privacycaTpm2.GetEkCert(payload, key)`: the decrypted bytes. -/
  GetEkCert : IdentityChallengePayload → PrivateKey → Except GoError Bytes
  /-- Go `privacycaTpm2.ProcessIdentityRequest(request, pubKey, data)`. -/
  ProcessIdentityRequest :
    IdentityRequest → rsaPublicKey → Bytes → σ → Except GoError IdentityProofRequest × σ
  /-- Go `x509.ParseCertificate(der)`. -/
  ParseCertificate : Bytes → Except GoError Certificate
  /-- Go `cert.CheckSignatureFrom(authority)`: its error. -/
  CheckSignatureFrom : Certificate → Certificate → Option GoError
  /-- Go `x509.CreateCertificate(rand.Reader, template, parent, pub, priv)`. -/
  CreateCertificate :
    CertTemplate → Certificate → rsaPublicKey → PrivateKey → σ → Except GoError Bytes × σ
  /-- Go `ECStore.Search` with `IssuerEqualTo: issuer`. -/
  ECStoreSearch : String → σ → Except GoError (List TpmEndorsement)
  /-- Go `base64.StdEncoding.DecodeString(s)`. -/
  base64Decode : String → Except GoError Bytes
  /-- Go `pem.Decode(data)`: the bytes of the first block, if there is one. -/
  pemDecode : Bytes → Option Bytes
  /-- Go `crypt.GetRandomBytes(n)`. -/
  GetRandomBytes : Nat → σ → Except GoError Bytes × σ
  /-- Go `rand.Int(rand.Reader, limit)`. -/
  randInt : Nat → σ → Except GoError Nat × σ
  /-- Go `time.Now()`. -/
  timeNow : σ → Nat × σ
  /-- Go `t.AddDate(years, 0, 0)`. -/
  AddDate : Nat → Int → Nat
  /-- Go `os.Stat(path)`: its error. -/
  Stat : String → σ → Option GoError
  /-- Go `os.IsNotExist(err)` on a non-nil error. -/
  IsNotExist : GoError → Bool
  /-- Go `os.MkdirAll(path, perm)`. -/
  MkdirAll : String → Nat → σ → Option GoError × σ
  /-- Go `ioutil.WriteFile(path, data, perm)`. -/
  WriteFile : String → Bytes → Nat → σ → Option GoError × σ
  /-- Go `ioutil.ReadFile(path)`. -/
  ReadFile : String → σ → Except GoError Bytes
  /-- Decoding the request body as JSON into an `IdentityChallengePayload`, unknown fields
  disallowed. -/
  jsonDecode : Bytes → Except GoError IdentityChallengePayload

/-- The world state together with the trace of effects so far. -/
structure PcaWorld (σ : Type) where
  state : σ
  calls : List PcaCall

/-- Append one effect to the trace. -/
def PcaWorld.record {σ : Type} (w : PcaWorld σ) (c : PcaCall) : PcaWorld σ :=
  { w with calls := w.calls ++ [c] }

/-- The `CertifyHostAiksController` record; the EK store is part of the environment. -/
structure CertifyHostAiksController where
  PcaStore : PrivacyCAFileStore
  deriving DecidableEq, Repr

/-- One lower-case hexadecimal digit. -/
def hexDigit (n : Nat) : Char :=
  if n < 10 then Char.ofNat (48 + n) else Char.ofNat (87 + n)

/-- Go `hex.EncodeToString(bytes)`: two lower-case digits per byte. -/
def hexEncodeToString (bytes : Bytes) : String :=
  String.mk (bytes.flatMap (fun b => [hexDigit (b / 16 % 16), hexDigit (b % 16)]))

/-- Go `new(big.Int).SetBytes(bytes)`: the bytes read as a big-endian unsigned integer. -/
def bigIntSetBytes (bytes : Bytes) : Nat :=
  bytes.foldl (fun acc b => acc * 256 + b) 0

/-- Whether `s` begins with `p`. -/
def startsWith : List Char → List Char → Bool
  | [], _ => true
  | _ :: _, [] => false
  | p :: ps, c :: cs => p == c && startsWith ps cs

/-- Remove the left-to-right non-overlapping occurrences of the non-empty `old` from `s`;
the first argument bounds the number of steps. -/
def removeAllAux (old : List Char) : Nat → List Char → List Char
  | 0, s => s
  | _ + 1, [] => []
  | fuel + 1, c :: cs =>
    if startsWith old (c :: cs) then
      removeAllAux old fuel ((c :: cs).drop old.length)
    else
      c :: removeAllAux old fuel cs

/-- Go `strings.ReplaceAll(s, old, "")` (also `strings.Replace(s, old, "", -1)`). -/
def stringsRemoveAll (s old : String) : String :=
  if old.data.isEmpty then s else String.mk (removeAllAux old.data s.data.length s.data)

/-- The Go string literal `"\\x00"`: the four characters backslash, x, 0, 0. -/
def nulEscape : String := String.mk ['\\', 'x', '0', '0']

/-- Go `isEkCertificateVerifiedByAuthority(cert, authority)`. -/
def isEkCertificateVerifiedByAuthority {σ : Type} (env : PcaEnv σ)
    (cert authority : Certificate) : Bool :=
  if authority.Raw.isEmpty then
    false
  else
    match env.CheckSignatureFrom cert authority with
    | some _ => false
    | none => true

/-- Go `isEkCertificateVerifiedByAnyAuthority(cert, certs)`. -/
def isEkCertificateVerifiedByAnyAuthority {σ : Type} (env : PcaEnv σ)
    (cert : Certificate) (certs : List Certificate) : Bool :=
  certs.any (fun authority => isEkCertificateVerifiedByAuthority env cert authority)

/-- The body of the loop of `isEkCertRegistered` for one registered entry: whether it decodes
(base64, PEM, X.509) to a certificate equal to `cert`. -/
def registeredCertMatches {σ : Type} (env : PcaEnv σ) (cert : Certificate)
    (registeredCert : TpmEndorsement) : Bool :=
  match env.base64Decode registeredCert.Certificate with
  | .error _ => false
  | .ok decodedCert =>
    match env.pemDecode decodedCert with
    | none => false
    | some blockBytes =>
      match env.ParseCertificate blockBytes with
      | .error _ => false
      | .ok regCert => cert.Raw == regCert.Raw

/-- Go `isEkCertRegistered(cert)`. -/
def isEkCertRegistered {σ : Type} (env : PcaEnv σ) (cert : Certificate) (s : σ) : Bool :=
  let issuer := stringsRemoveAll cert.Issuer.Str " "
  match env.ECStoreSearch issuer s with
  | .error _ => false
  | .ok registeredCerts =>
    if registeredCerts.length == 0 then
      false
    else
      registeredCerts.any (fun registeredCert => registeredCertMatches env cert registeredCert)

/-- The authority picked by the loop over `endorsementCerts` in `getIdentityProofRequest`:
the first pool certificate whose issuer common name equals the EK certificate's issuer common
name with every `\x00` escape removed; the zero certificate if there is none. -/
def endorsementCertsToVerify (ekCert : Certificate) (endorsementCerts : List Certificate) :
    Certificate :=
  match endorsementCerts.find?
      (fun cert => cert.Issuer.CommonName == stringsRemoveAll ekCert.Issuer.CommonName nulEscape) with
  | some cert => cert
  | none => Certificate.zero

/-- The condition of `getIdentityProofRequest` under which the EK certificate is refused:
none of the three checks accepts it. -/
def ekUntrusted {σ : Type} (env : PcaEnv σ) (ekCert : Certificate)
    (endorsementCerts : List Certificate) (s : σ) : Bool :=
  !isEkCertificateVerifiedByAuthority env ekCert (endorsementCertsToVerify ekCert endorsementCerts)
    && !isEkCertificateVerifiedByAnyAuthority env ekCert endorsementCerts
    && !isEkCertRegistered env ekCert s

/-- The block
`if _, err := os.Stat(dir); os.IsNotExist(err) { errDir := os.MkdirAll(dir, perm); if errDir != nil { return errors.Wrapf(err, message, dir) } }`
of `StoreEkCerts` (with `perm` 0700) and of `getIdentityProofRequestResponse` (with `perm`
0600): the error it returns with, if any, and the world after it. The error wrapped is the one
of `os.Stat`. -/
def mkdirIfNotExist {σ : Type} (env : PcaEnv σ) (dir : String) (perm : Nat) (message : String)
    (w : PcaWorld σ) : Option GoError × PcaWorld σ :=
  match env.Stat dir w.state with
  | none => (none, w)
  | some err =>
    if env.IsNotExist err then
      let errDir := env.MkdirAll dir perm w.state
      let w1 : PcaWorld σ := { state := errDir.2, calls := w.calls ++ [.MkdirAll dir perm] }
      match errDir.1 with
      | some _ => (errorsWrap (some err) (message ++ dir), w1)
      | none => (none, w1)
    else (none, w)

/-- Go `StoreEkCerts(identityRequestChallenge, ekCertBytes, identityChallengePayload)`. -/
def StoreEkCerts {σ : Type} (env : PcaEnv σ) (c : CertifyHostAiksController)
    (identityRequestChallenge ekCertBytes : Bytes)
    (identityChallengePayload : IdentityChallengePayload) (w : PcaWorld σ) :
    Option GoError × PcaWorld σ :=
  let dir := c.PcaStore.aikRequestsDirPath
  let mk := mkdirIfNotExist env dir 0o700
    "controllers/certify_host_aiks_controller:StoreEkCerts() could not create directory " w
  match mk.1 with
  | some e => (some e, mk.2)
  | none =>
    let idReqFileName := hexEncodeToString identityRequestChallenge
    let optionsFileName := idReqFileName ++ ".opt"
    let r1 := env.WriteFile (dir ++ idReqFileName)
      identityChallengePayload.IdentityRequest.AikModulus 0o400 mk.2.state
    let w1 : PcaWorld σ :=
      { state := r1.2
        calls := mk.2.calls ++
          [.WriteFile (dir ++ idReqFileName) identityChallengePayload.IdentityRequest.AikModulus 0o400] }
    match r1.1 with
    | some e => (some e, w1)
    | none =>
      let r2 := env.WriteFile (dir ++ optionsFileName)
        identityChallengePayload.IdentityRequest.AikName 0o400 w1.state
      let w2 : PcaWorld σ :=
        { state := r2.2
          calls := w1.calls ++
            [.WriteFile (dir ++ optionsFileName) identityChallengePayload.IdentityRequest.AikName 0o400] }
      match r2.1 with
      | some e => (some e, w2)
      | none =>
        let ekcertFilename := idReqFileName ++ ".ekcert"
        let r3 := env.WriteFile (dir ++ ekcertFilename) ekCertBytes 0o400 w2.state
        let w3 : PcaWorld σ :=
          { state := r3.2
            calls := w2.calls ++ [.WriteFile (dir ++ ekcertFilename) ekCertBytes 0o400] }
        match r3.1 with
        | some e => (some e, w3)
        | none => (none, w3)

/-- Go `GetEkCerts(decryptedIdentityRequestChallenge)`: on success the parsed EK certificate,
then the AIK name (content of the `.opt` file), then the modulus (content of the file named
by the challenge), in this order. -/
def GetEkCerts {σ : Type} (env : PcaEnv σ) (c : CertifyHostAiksController)
    (decryptedIdentityRequestChallenge : Bytes) (s : σ) :
    Except GoError (Certificate × Bytes × Bytes) :=
  let dir := c.PcaStore.aikRequestsDirPath
  let fileName := hexEncodeToString decryptedIdentityRequestChallenge
  let notExist :=
    match env.Stat (dir ++ fileName) s with
    | none => false
    | some err => env.IsNotExist err
  if notExist then
    .error "controllers/certify_host_aiks_controller:GetEkCerts() Invalid Challenge response"
  else
    let ekcertFile := dir ++ fileName ++ ".ekcert"
    match env.ReadFile ekcertFile s with
    | .error err =>
      .error ("controllers/certify_host_aiks_controller:GetEkCerts() Unable to read file "
        ++ ekcertFile ++ ": " ++ err)
    | .ok ekCert =>
      match env.ParseCertificate ekCert with
      | .error err =>
        .error ("controllers/certify_host_aiks_controller:GetEkCerts() Unable to parse certificate"
          ++ ": " ++ err)
      | .ok ekx509Cert =>
        let optionsFile := dir ++ fileName ++ ".opt"
        let challengeFile := dir ++ fileName
        match env.ReadFile challengeFile s with
        | .error err => .error err
        | .ok modulus =>
          match env.ReadFile optionsFile s with
          | .error err => .error err
          | .ok aikName => .ok (ekx509Cert, aikName, modulus)

/-- The contract of the file-system calls behind the challenge record: a successful
`ioutil.WriteFile` makes the path exist with the written content, and leaves what `os.Stat` and
`ioutil.ReadFile` report for every other path as it was. -/
structure FileSystemLaws {σ : Type} (env : PcaEnv σ) : Prop where
  read_written : ∀ (path : String) (data : Bytes) (perm : Nat) (s : σ),
    (env.WriteFile path data perm s).1 = none →
    env.ReadFile path (env.WriteFile path data perm s).2 = .ok data
  stat_written : ∀ (path : String) (data : Bytes) (perm : Nat) (s : σ),
    (env.WriteFile path data perm s).1 = none →
    env.Stat path (env.WriteFile path data perm s).2 = none
  read_other : ∀ (path other : String) (data : Bytes) (perm : Nat) (s : σ),
    other ≠ path → (env.WriteFile path data perm s).1 = none →
    env.ReadFile other (env.WriteFile path data perm s).2 = env.ReadFile other s
  stat_other : ∀ (path other : String) (data : Bytes) (perm : Nat) (s : σ),
    other ≠ path → (env.WriteFile path data perm s).1 = none →
    env.Stat other (env.WriteFile path data perm s).2 = env.Stat other s

/-- The message of the security log entry written when the EK certificate is refused. -/
def ecNotTrustedLog (endorsementCACertFile : String) : String :=
  "controllers/certify_host_aiks_controller:getIdentityProofRequest() EC is not trusted, Please verify Endorsement Authority certificate is present in "
    ++ endorsementCACertFile ++ " file or ekcert is not registered with hvs"

/-- Go `getIdentityProofRequest(identityChallengePayload)` (round 1): the proof request, the
HTTP status and the error. -/
def getIdentityProofRequest {σ : Type} (env : PcaEnv σ) (c : CertifyHostAiksController)
    (identityChallengePayload : IdentityChallengePayload) (w : PcaWorld σ) :
    (IdentityProofRequest × Nat × Option GoError) × PcaWorld σ :=
  match env.GetPrivateKeyFromPKCS8File c.PcaStore.keyPath w.state with
  | .error err =>
    ((IdentityProofRequest.zero, StatusInternalServerError,
      errorsWrap (some err)
        ("controllers/certify_host_aiks_controller:getIdentityProofRequest() unable to parse privacyca key from file "
          ++ c.PcaStore.keyPath)), w)
  | .ok privacycaKey =>
    match env.NewPrivacyCA identityChallengePayload.IdentityRequest with
    | some err => ((IdentityProofRequest.zero, StatusBadRequest, some err), w)
    | none =>
      match env.GetEkCert identityChallengePayload privacycaKey with
      | .error err =>
        ((IdentityProofRequest.zero, StatusBadRequest,
          errorsWrap (some err)
            "controllers/certify_host_aiks_controller:getIdentityProofRequest() unable to get ek cert bytes"),
          w)
      | .ok ekCertBytes =>
        match env.ParseCertificate ekCertBytes with
        | .error err => ((IdentityProofRequest.zero, StatusBadRequest, some err), w)
        | .ok ekCert =>
          match env.GetSubjectCertsMapFromPemFile c.PcaStore.eCACertPath w.state with
          | .error err =>
            ((IdentityProofRequest.zero, StatusInternalServerError,
              errorsWrap (some err)
                "controllers/certify_host_aiks_controller:getIdentityProofRequest() Error while getting endorsement certs"),
              w)
          | .ok endorsementCerts =>
            -- here the variable err holds nil: its last assignment was the successful read
            -- of the endorsement certificates
            let err : Option GoError := none
            if ekUntrusted env ekCert endorsementCerts w.state then
              ((IdentityProofRequest.zero, StatusBadRequest,
                errorsWrap err
                  "controllers/certify_host_aiks_controller:getIdentityProofRequest() EC is not trusted"),
                w.record (.secLog (ecNotTrustedLog env.EndorsementCACertFile)))
            else
              let rnd := env.GetRandomBytes 32 w.state
              let w1 : PcaWorld σ := { state := rnd.2, calls := w.calls ++ [.GetRandomBytes 32] }
              match rnd.1 with
              | .error err => ((IdentityProofRequest.zero, StatusInternalServerError, some err), w1)
              | .ok identityRequestChallenge =>
                let st := StoreEkCerts env c identityRequestChallenge ekCertBytes
                  identityChallengePayload w1
                match st.1 with
                | some err =>
                  ((IdentityProofRequest.zero, StatusInternalServerError, some err), st.2)
                | none =>
                  match env.NewPrivacyCA identityChallengePayload.IdentityRequest with
                  | some err => ((IdentityProofRequest.zero, StatusBadRequest, some err), st.2)
                  | none =>
                    let pr := env.ProcessIdentityRequest identityChallengePayload.IdentityRequest
                      ekCert.PublicKey identityRequestChallenge st.2.state
                    let w2 : PcaWorld σ :=
                      { state := pr.2
                        calls := st.2.calls ++
                          [.ProcessIdentityRequest identityChallengePayload.IdentityRequest
                            ekCert.PublicKey identityRequestChallenge] }
                    match pr.1 with
                    | .error err =>
                      ((IdentityProofRequest.zero, StatusInternalServerError, some err), w2)
                    | .ok proofReq => ((proofReq, StatusOK, none), w2)

/-- Go `IdentityRequestGetChallenge(w, r)`: `body` is the result of reading the request body;
the first result is nil (`none`) or the proof request. -/
def IdentityRequestGetChallenge {σ : Type} (env : PcaEnv σ) (c : CertifyHostAiksController)
    (body : Except GoError Bytes) (w : PcaWorld σ) :
    (Option IdentityProofRequest × Nat × Option GoError) × PcaWorld σ :=
  match body with
  | .error _ => ((none, StatusBadRequest, some "Error reading request body"), w)
  | .ok data =>
    match env.jsonDecode data with
    | .error _ => ((none, StatusBadRequest, some "Error marshaling json data"), w)
    | .ok identityChallengePayload =>
      let r := getIdentityProofRequest env c identityChallengePayload w
      match r.1.2.2 with
      | some _ => ((none, r.1.2.1, some "Error while getting IdentityProofRequest"), r.2)
      | none => ((some r.1.1, r.1.2.1, none), r.2)

/-- Go `CertifyAik(aikPubKey, aikName, privacycaKey, privacycaCert, validity)`. -/
def CertifyAik {σ : Type} (env : PcaEnv σ) (aikPubKey : rsaPublicKey) (aikName : Bytes)
    (privacycaKey : PrivateKey) (privacycaCert : Certificate) (validity : Int) (w : PcaWorld σ) :
    Except GoError Bytes × PcaWorld σ :=
  let serialNumberLimit := 1 <<< 128
  let sn := env.randInt serialNumberLimit w.state
  match sn.1 with
  | .error err =>
    (.error ("Failed to generate serial number" ++ ": " ++ err), { w with state := sn.2 })
  | .ok serialNumber =>
    let t1 := env.timeNow sn.2
    let t2 := env.timeNow t1.2
    let extSubjectAltName : Extension :=
      { Id := [2, 5, 29, 17], Critical := false, Value := aikName }
    let clientCRTTemplate : CertTemplate :=
      { IssuerCommonName := privacycaCert.Issuer.CommonName
        SerialNumber := serialNumber
        SubjectCommonName := ""
        NotBefore := t1.1
        NotAfter := env.AddDate t2.1 validity
        Extensions := [extSubjectAltName]
        ExtraExtensions := [] }
    let cc := env.CreateCertificate clientCRTTemplate privacycaCert aikPubKey privacycaKey t2.2
    let w1 : PcaWorld σ :=
      { state := cc.2, calls := w.calls ++ [.CreateCertificate clientCRTTemplate aikPubKey] }
    match cc.1 with
    | .error err =>
      (.error ("Error while Signing and generation Aik Certificate" ++ ": " ++ err), w1)
    | .ok aikCert => (.ok aikCert, w1)

/-- Go `getIdentityProofRequestResponse(identityChallengePayload)` (round 2). -/
def getIdentityProofRequestResponse {σ : Type} (env : PcaEnv σ) (c : CertifyHostAiksController)
    (identityChallengePayload : IdentityChallengePayload) (w : PcaWorld σ) :
    (IdentityProofRequest × Nat × Option GoError) × PcaWorld σ :=
  match env.GetPrivateKeyFromPKCS8File c.PcaStore.keyPath w.state with
  | .error err => ((IdentityProofRequest.zero, StatusInternalServerError, some err), w)
  | .ok privacycaKey =>
    match env.GetCertFromPemFile c.PcaStore.certPath w.state with
    | .error err => ((IdentityProofRequest.zero, StatusInternalServerError, some err), w)
    | .ok privacycaCert =>
      match env.NewPrivacyCA identityChallengePayload.IdentityRequest with
      | some err =>
        ((IdentityProofRequest.zero, StatusBadRequest,
          errorsWrap (some err)
            "controllers/certify_host_aiks_controller:getIdentityProofRequestResponse() Unable to get new privacyca instance"),
          w)
      | none =>
        match env.GetEkCert identityChallengePayload privacycaKey with
        | .error err =>
          ((IdentityProofRequest.zero, StatusBadRequest,
            errorsWrap (some err)
              "controllers/certify_host_aiks_controller:getIdentityProofRequestResponse() unable to get ek cert bytes"),
            w)
        | .ok decryptedIdentityRequestChallenge =>
          let dir := c.PcaStore.aikRequestsDirPath
          let mk := mkdirIfNotExist env dir 0o600
            "controllers/certify_host_aiks_controller:getIdentityProofRequestResponse() could not create directory "
            w
          match mk.1 with
          | some e => ((IdentityProofRequest.zero, StatusInternalServerError, some e), mk.2)
          | none =>
            -- ekx509Cert, modulus, aikName, err := GetEkCerts(...): the second result of
            -- GetEkCerts is bound to modulus, the third to aikName
            match GetEkCerts env c decryptedIdentityRequestChallenge mk.2.state with
            | .error err => ((IdentityProofRequest.zero, StatusBadRequest, some err), mk.2)
            | .ok (ekx509Cert, modulus, aikName) =>
              match env.NewPrivacyCA identityChallengePayload.IdentityRequest with
              | some err => ((IdentityProofRequest.zero, StatusBadRequest, some err), mk.2)
              | none =>
                let n := bigIntSetBytes modulus
                let aikPubKey : rsaPublicKey := { N := n, E := 65537 }
                let ca := CertifyAik env aikPubKey aikName privacycaKey privacycaCert
                  env.AIKCertValidity (mk.2.record (.CertifyAik aikPubKey aikName env.AIKCertValidity))
                match ca.1 with
                | .error err =>
                  ((IdentityProofRequest.zero, StatusInternalServerError,
                    some ("controllers/certify_host_aiks_controller:getIdentityProofRequestResponse() Unable to Certify Aik"
                      ++ ": " ++ err)), ca.2)
                | .ok aikCert =>
                  let pr := env.ProcessIdentityRequest identityChallengePayload.IdentityRequest
                    ekx509Cert.PublicKey aikCert ca.2.state
                  let w2 : PcaWorld σ :=
                    { state := pr.2
                      calls := ca.2.calls ++
                        [.ProcessIdentityRequest identityChallengePayload.IdentityRequest
                          ekx509Cert.PublicKey aikCert] }
                  match pr.1 with
                  | .error err =>
                    ((IdentityProofRequest.zero, StatusInternalServerError,
                      some ("controllers/certify_host_aiks_controller:getIdentityProofRequestResponse() Error while generating identityProofRequest"
                        ++ ": " ++ err)), w2)
                  | .ok proofReq => ((proofReq, StatusOK, none), w2)

/-! ### An in-memory instance of the controller's surroundings -/

/-- The state of the in-memory surroundings: directories and files with their modes, the
endorsement-authority pool, the registered EK certificates, the future outputs of the random
source, and the clock. -/
structure MemSys where
  dirs : List (String × Nat)
  files : List (String × Bytes × Nat)
  pool : List Certificate
  registered : List TpmEndorsement
  entropy : List Bytes
  clock : Nat
  deriving DecidableEq, Repr

/-- The error of a file-system call on a missing path. -/
def errNotExist : GoError := "no such file or directory"

/-- Reading a file of the in-memory file system. -/
def MemSys.readFile (path : String) (s : MemSys) : Except GoError Bytes :=
  match s.files.find? (fun f => f.1 == path) with
  | some f => .ok f.2.1
  | none => .error errNotExist

/-- Parsing in the in-memory surroundings: a non-empty DER parses to a certificate with that
`Raw`; issuer and subject names are looked up in `names` by the DER, the key modulus is the
DER read as an integer. -/
def memParse (names : List (Bytes × Name × Name)) (der : Bytes) : Except GoError Certificate :=
  if der.isEmpty then .error "x509: malformed certificate"
  else
    match names.lookup der with
    | some n => .ok ⟨der, n.1, n.2, ⟨bigIntSetBytes der, 65537⟩⟩
    | none => .ok ⟨der, ⟨"", ""⟩, ⟨"", ""⟩, ⟨bigIntSetBytes der, 65537⟩⟩

/-- Modelled from the spec: the privacy-CA library, the key and certificate file helpers
(§4.2, §6.2), the EK store (§6.1) and the challenge directory (§6.4) are not part of the
embedded sources; together with the X.509, encoding, random, clock and file-system calls they
are given here over `MemSys`. `names` drives certificate parsing, `signedBy` lists the
(certificate, authority) pairs of `Raw` bytes whose signature check succeeds, `payloads` is
the table of request bodies that decode. Decrypting a payload yields its symmetric blob. The
issued certificate is the list of the key modulus, the serial number and the values of the
template's `ExtraExtensions`: as crypto/x509 documents for `CreateCertificate`, the
`Extensions` field of the template is ignored. -/
def memPcaEnv (names : List (Bytes × Name × Name)) (signedBy : List (Bytes × Bytes))
    (payloads : List (Bytes × IdentityChallengePayload)) : PcaEnv MemSys where
  AIKCertValidity := 1
  EndorsementCACertFile := "EndorsementCA-external.pem"
  GetPrivateKeyFromPKCS8File := MemSys.readFile
  GetCertFromPemFile := fun path s =>
    match MemSys.readFile path s with
    | .ok der => memParse names der
    | .error e => .error e
  GetSubjectCertsMapFromPemFile := fun _ s => .ok s.pool
  NewPrivacyCA := fun _ => none
  GetEkCert := fun payload _ => .ok payload.SymmetricBlob
  ProcessIdentityRequest := fun _ _ data s => (.ok ⟨data⟩, s)
  ParseCertificate := memParse names
  CheckSignatureFrom := fun cert authority =>
    if signedBy.contains (cert.Raw, authority.Raw) then none
    else some "crypto/rsa: verification error"
  CreateCertificate := fun template _ pub _ s =>
    (.ok (pub.N :: template.SerialNumber :: template.ExtraExtensions.flatMap (fun e => e.Value)),
      s)
  ECStoreSearch := fun _ s => .ok s.registered
  base64Decode := fun str => .ok (str.data.map Char.toNat)
  pemDecode := fun data => if data.isEmpty then none else some data
  GetRandomBytes := fun _ s =>
    match s.entropy with
    | b :: rest => (.ok b, { s with entropy := rest })
    | [] => (.error "no entropy", s)
  randInt := fun limit s => (.ok (s.clock % limit), s)
  timeNow := fun s => (s.clock, { s with clock := s.clock + 1 })
  AddDate := fun t years => t + years.toNat * 31536000
  Stat := fun path s =>
    if s.dirs.any (fun d => d.1 == path) || s.files.any (fun f => f.1 == path) then none
    else some errNotExist
  IsNotExist := fun e => e == errNotExist
  MkdirAll := fun path perm s => (none, { s with dirs := s.dirs ++ [(path, perm)] })
  WriteFile := fun path data perm s =>
    (none, { s with files := s.files.filter (fun f => !(f.1 == path)) ++ [(path, data, perm)] })
  ReadFile := MemSys.readFile
  jsonDecode := fun data =>
    match payloads.lookup data with
    | some p => .ok p
    | none => .error "invalid character"

/-! ### Example data for the in-memory instance -/

/-- A controller with key, certificate and endorsement-authority files and the challenge
directory "/aik/". -/
def exController : CertifyHostAiksController := ⟨⟨"/key", "/cert", "/eca", "/aik/"⟩⟩

/-- An endorsement authority with DER bytes 7 and common name "EK CA". -/
def exAuthority : Certificate := ⟨[7], ⟨"EK CA", "CN=EK CA"⟩, ⟨"EK CA", "CN=EK CA"⟩, ⟨7, 65537⟩⟩

/-- The EK certificate of the example host: DER bytes 5 5, issued by "EK CA". -/
def exEkCert : Certificate := ⟨[5, 5], ⟨"EK CA", "CN=EK CA"⟩, ⟨"", ""⟩, ⟨1285, 65537⟩⟩

/-- The identity request of the example host: AIK modulus bytes 1 2, AIK name bytes 3. -/
def exIdentityRequest : IdentityRequest := ⟨[1, 2], [3], []⟩

/-- The round-1 payload: it decrypts to the EK certificate DER. -/
def exPayload1 : IdentityChallengePayload := ⟨exIdentityRequest, [5, 5], []⟩

/-- The round-2 payload: it decrypts to the challenge nonce 171 (hex "ab"). -/
def exPayload2 : IdentityChallengePayload := ⟨exIdentityRequest, [171], []⟩

/-- The example surroundings: the EK certificate is signed by the authority with DER 7; the
request body 0 decodes to the round-1 payload and the body 1 to the round-2 payload. -/
def exPcaEnv : PcaEnv MemSys :=
  memPcaEnv [([5, 5], ⟨"EK CA", "CN=EK CA"⟩, ⟨"", ""⟩), ([7], ⟨"EK CA", "CN=EK CA"⟩, ⟨"EK CA", "CN=EK CA"⟩)]
    [([5, 5], [7])] [([0], exPayload1), ([1], exPayload2)]

/-- The example state: key and privacy-CA certificate files, no challenge directory yet,
the given endorsement pool and EK registry, and 171 as the next random output. -/
def exSys (pool : List Certificate) (registered : List TpmEndorsement) : MemSys :=
  { dirs := []
    files := [("/key", [9], 0o400), ("/cert", [8], 0o400)]
    pool := pool
    registered := registered
    entropy := [[171]]
    clock := 0 }

/-- An intermediate endorsement authority: its subject is "EK CA", its issuer "Root CA". -/
def exIntermediate : Certificate :=
  ⟨[6], ⟨"Root CA", "CN=Root CA"⟩, ⟨"EK CA", "CN=EK CA"⟩, ⟨6, 65537⟩⟩

/-- A certificate issued by "EK CA" to another subject. -/
def exSibling : Certificate :=
  ⟨[4], ⟨"EK CA", "CN=EK CA"⟩, ⟨"Other TPM", "CN=Other TPM"⟩, ⟨4, 65537⟩⟩

/-- An EK certificate whose issuer common name is "EK CA" followed by a NUL character. -/
def exEkCertNul : Certificate :=
  ⟨[5, 5], ⟨String.mk ['E', 'K', ' ', 'C', 'A', Char.ofNat 0], "CN=EK CA"⟩, ⟨"", ""⟩, ⟨1285, 65537⟩⟩

/-- An EK certificate whose issuer common name is "EK CA" followed by the four characters
backslash, x, 0, 0. -/
def exEkCertEscaped : Certificate :=
  ⟨[5, 5], ⟨String.mk ['E', 'K', ' ', 'C', 'A', '\\', 'x', '0', '0'], "CN=EK CA"⟩, ⟨"", ""⟩,
    ⟨1285, 65537⟩⟩

/-- An EK certificate whose issuer string holds a tab. -/
def exEkCertTab : Certificate := ⟨[5, 5], ⟨"EK\tCA", "CN=EK\tCA"⟩, ⟨"", ""⟩, ⟨1285, 65537⟩⟩

/-- The registry entry of the example EK certificate: the text whose decoding gives the DER
bytes 5 5. -/
def exRegistered : TpmEndorsement := ⟨String.mk [Char.ofNat 5, Char.ofNat 5]⟩

/-- The example surroundings with an EK store that files its entries under the issuer string
"CN=EK", tab, "CA" and returns them only for that issuer. -/
def exPcaEnvTab : PcaEnv MemSys :=
  { exPcaEnv with
    ECStoreSearch := fun issuer s => if issuer == "CN=EK\tCA" then .ok s.registered else .ok [] }

/-- The example surroundings with a file system that refuses to create directories. -/
def exPcaEnvNoMkdir : PcaEnv MemSys :=
  { exPcaEnv with MkdirAll := fun _ _ s => (some "permission denied", s) }

/-- A round-1 payload with an empty AIK modulus and an empty AIK name. -/
def exPayloadEmpty : IdentityChallengePayload := ⟨⟨[], [], []⟩, [5, 5], []⟩

/-- A state whose challenge directory holds the record files "ab" and "ab.ekcert" but no
"ab.opt". -/
def exSysPartial : MemSys :=
  { dirs := [("/aik/", 0o700)]
    files := [("/key", [9], 0o400), ("/cert", [8], 0o400), ("/aik/ab", [1, 2], 0o400),
      ("/aik/ab.ekcert", [5, 5], 0o400)]
    pool := []
    registered := []
    entropy := []
    clock := 0 }

/-- The string `s` with all whitespace removed (space, tab, carriage return, line feed). -/
def removeWhitespace (s : String) : String :=
  String.mk (s.data.filter (fun ch => !ch.isWhitespace))

/-- A round returns a failure with the given status: the empty proof request, the status,
and a non-nil error. -/
def failsWith {σ : Type} (r : (IdentityProofRequest × Nat × Option GoError) × PcaWorld σ)
    (status : Nat) : Prop :=
  r.1.1 = IdentityProofRequest.zero ∧ r.1.2.1 = status ∧ r.1.2.2 ≠ none

end controllers

/-! ## pkg/lib/host-connector/intel_host_connector_factory.go -/

namespace host_connector

/-- Whether `sub` starts at some position of the character list (the scan behind
`strings.Contains`). -/
def containsAux (sub : List Char) : List Char → Bool
  | [] => controllers.startsWith sub []
  | c :: cs => controllers.startsWith sub (c :: cs) || containsAux sub cs

/-- Go `strings.Contains(s, substr)`. -/
def stringsContains (s substr : String) : Bool :=
  containsAux substr.data s.data

/-- The `Configuration` of a `types.VendorConnector`, as far as the factory reads it. -/
structure VendorConfiguration where
  Username : String
  Password : String
  deriving DecidableEq, Repr

/-- The `types.VendorConnector` record, as far as the factory reads it. -/
structure VendorConnector where
  Url : String
  Configuration : VendorConfiguration
  deriving DecidableEq, Repr

/-- One library call made by the factory, with its arguments. -/
inductive FactoryCall where
  | urlParse (rawurl : String)
  | NewTAClient (aasApiUrl taApiUrl username password trustedCaCerts : String)
  deriving DecidableEq, Repr

/-- The library calls of the factory: `url.Parse` (the parsed URL is held as text) and
`client.NewTAClient`, whose client type is `τ`. -/
structure FactoryEnv (τ : Type) where
  /-- Go `url.Parse(rawurl)`. -/
  urlParse : String → Except GoError String
  /-- Go `client.NewTAClient(aasApiUrl, taApiUrl, username, password, trustedCaCerts)`. -/
  NewTAClient : String → String → String → String → String → Except GoError τ

/-- The `IntelConnector` record built around the client. -/
structure IntelConnector (τ : Type) where
  client : τ

/-- The value of the local variable `baseURL` of `GetHostConnector` when `url.Parse` is
called:
`baseURL := vendorConnector.Url; if !strings.Contains(baseURL, "/v2") { baseURL = baseURL + "/v2" }`. -/
def baseURL (url : String) : String :=
  if !stringsContains url "/v2" then url ++ "/v2" else url

/-- Go `GetHostConnector(vendorConnector, aasApiUrl, trustedCaCerts)`: the connector or the
error, and the library calls made. -/
def GetHostConnector {τ : Type} (env : FactoryEnv τ) (vendorConnector : VendorConnector)
    (aasApiUrl trustedCaCerts : String) :
    Except GoError (IntelConnector τ) × List FactoryCall :=
  let baseURL := baseURL vendorConnector.Url
  match env.urlParse baseURL with
  | .error _ =>
    (.error "intel_host_connector_factory:GetHostConnector() error retrieving TA API URL",
      [.urlParse baseURL])
  | .ok taApiURL =>
    let calls := [FactoryCall.urlParse baseURL,
      .NewTAClient aasApiUrl taApiURL vendorConnector.Configuration.Username
        vendorConnector.Configuration.Password trustedCaCerts]
    match env.NewTAClient aasApiUrl taApiURL vendorConnector.Configuration.Username
        vendorConnector.Configuration.Password trustedCaCerts with
    | .error err =>
      (.error ("intel_host_connector_factory:GetHostConnector() Could not create Trust Agent client"
        ++ ": " ++ err), calls)
    | .ok taClient => (.ok ⟨taClient⟩, calls)

/-- An instance of the library calls: every text parses to itself, and the client is the
URL it was created for. -/
def exFactoryEnv : FactoryEnv String where
  urlParse := fun rawurl => .ok rawurl
  NewTAClient := fun _ taApiUrl _ _ _ => .ok taApiUrl

end host_connector

/-! ## pkg/hvs/postgres/flavorgroup_store.go -/

namespace postgres

/-- The `hvs.FlavorGroupFilterCriteria` record, with the four fields that
`buildFlavorGroupSearchQuery` and `Verify` name. -/
structure FlavorGroupFilterCriteria where
  Id : String
  NameEqualTo : String
  NameContains : String
  HostId : String
  deriving DecidableEq, Repr

/-- The row type `flavorGroup` of the store; `FlavorTypeMatchPolicy` is a pointer to the
JSON column (`none` is nil). -/
structure flavorGroup where
  ID : UUID
  Name : String
  FlavorTypeMatchPolicy : Option Bytes
  deriving DecidableEq, Repr

/-- The zero value `flavorGroup{}`. -/
def flavorGroup.zero : flavorGroup := ⟨uuidNil, "", none⟩

/-- The arguments of one `Where` call on a `*gorm.DB`: a query text with its argument, or a
model value. -/
inductive Condition where
  | query (sql : String) (arg : String)
  | model (value : flavorGroup)
  deriving DecidableEq, Repr

/-- A non-nil `*gorm.DB` query object: the `Where` calls made on it so far, in order. -/
structure DB where
  conditions : List Condition
  deriving DecidableEq, Repr

/-- Go `tx.Where(...)`: the query object with one more condition. -/
def DB.Where (tx : DB) (c : Condition) : DB :=
  ⟨tx.conditions ++ [c]⟩

/-- Go `buildFlavorGroupSearchQuery(tx, fgFilter)`; `none` is the nil query object or the nil
filter. The field `HostId` of the filter is not read. -/
def buildFlavorGroupSearchQuery (tx : Option DB) (fgFilter : Option FlavorGroupFilterCriteria) :
    Option DB :=
  match tx with
  | none => none
  | some tx =>
    match fgFilter with
    | none => some (tx.Where (.model flavorGroup.zero))
    | some fgFilter =>
      if fgFilter.Id != "" then
        some (tx.Where (.query "id = ?" fgFilter.Id))
      else if fgFilter.NameEqualTo != "" then
        some (tx.Where (.query "name = ?" fgFilter.NameEqualTo))
      else if fgFilter.NameContains != "" then
        some (tx.Where (.query "name like ? " ("%" ++ fgFilter.NameContains ++ "%")))
      else
        -- TODO: Add search for hostId
        some tx

/-- The library calls of the store over a database state `σ`: `tx.Find` and
`json.Unmarshal` of a match-policy collection (held as the list of its policies). -/
structure StoreEnv (σ : Type) where
  /-- Go `tx.Find(&dbFlavorgroups)`: the rows or the error. -/
  Find : DB → σ → Except GoError (List flavorGroup)
  /-- Go `json.Unmarshal(raw, &matchPolicyCollection)`. -/
  jsonUnmarshal : Bytes → Except GoError (List String)

/-- Go `fromDbFlavorGroup(fg)` for a non-nil row: `none` is the nil-pointer dereference of
`fg.FlavorTypeMatchPolicy.RawMessage`. The decoded match policies are not carried by
`hvs.FlavorGroup` here (identity and name). -/
def fromDbFlavorGroup {σ : Type} (env : StoreEnv σ) (fg : flavorGroup) :
    Option (Except GoError hvs.FlavorGroup) :=
  match fg.FlavorTypeMatchPolicy with
  | none => none
  | some raw =>
    match env.jsonUnmarshal raw with
    | .error err =>
      some (.error ("postgres/flavorgroup_store:fromDbFlavorGroup()"
        ++ " Error in unmarshalling the FlavorTypeMatchPolicy" ++ ": " ++ err))
    | .ok _ => some (.ok { ID := fg.ID, Name := fg.Name })

/-- The loop of `fromDbFlavorGroups`, with the collection built so far. -/
def fromDbFlavorGroupsLoop {σ : Type} (env : StoreEnv σ) :
    List flavorGroup → List hvs.FlavorGroup → Option (Except GoError (List hvs.FlavorGroup))
  | [], acc => some (.ok acc)
  | dbFlavorGroup :: rest, acc =>
    match fromDbFlavorGroup env dbFlavorGroup with
    | none => none
    | some (.error err) =>
      some (.error ("postgres/flavorgroup_store:fromDbFlavorGroups() "
        ++ "failed to unmarshal dbFlavorGroup" ++ ": " ++ err))
    | some (.ok flavorgroup) => fromDbFlavorGroupsLoop env rest (acc ++ [flavorgroup])

/-- Go `fromDbFlavorGroups(dbFlavorgroups)`: the `Flavorgroups` of the collection. -/
def fromDbFlavorGroups {σ : Type} (env : StoreEnv σ) (dbFlavorgroups : List flavorGroup) :
    Option (Except GoError (List hvs.FlavorGroup)) :=
  if dbFlavorgroups.length == 0 then some (.ok [])
  else fromDbFlavorGroupsLoop env dbFlavorgroups []

/-- Go `(f *FlavorGroupStore) Search(fgFilter)` with `f.Store.Db = db`: the `Flavorgroups` of
the returned collection, or the error; `none` is a run-time panic. -/
def Search {σ : Type} (env : StoreEnv σ) (db : Option DB)
    (fgFilter : Option FlavorGroupFilterCriteria) (s : σ) :
    Option (Except GoError (List hvs.FlavorGroup)) :=
  match buildFlavorGroupSearchQuery db fgFilter with
  | none =>
    some (.error ("postgres/flavorgroup_store:Search() Unexpected Error. Could not build"
      ++ " a gorm query object in FlavorGroups Search function."))
  | some tx =>
    match env.Find tx s with
    | .error err =>
      some (.error ("postgres/flavorgroup_store:Search() failed to search all "
        ++ "Flavorgroups" ++ ": " ++ err))
    | .ok dbFlavorgroups => fromDbFlavorGroups env dbFlavorgroups

/-! ### An in-memory database -/

/-- Modelled from the spec: the flavor-group table and the many-to-many association of
hosts to flavor groups (§3, §6.1), which are not part of the embedded sources. A row comes
with the text of its ID; `hostGroups` holds (host ID text, group ID) pairs. -/
structure MemDb where
  rows : List (String × flavorGroup)
  hostGroups : List (String × UUID)
  deriving DecidableEq, Repr

/-- Modelled from the spec: what a recorded condition selects, as gorm documents `Where`: a
model value restricts by its non-zero fields only, `name like` with the pattern "%x%"
selects the names containing x. -/
def Condition.holds (c : Condition) (row : String × flavorGroup) : Bool :=
  match c with
  | .query sql arg =>
    if sql == "id = ?" then row.1 == arg
    else if sql == "name = ?" then row.2.Name == arg
    else if sql == "name like ? " then
      host_connector.containsAux (arg.data.drop 1).dropLast row.2.Name.data
    else false
  | .model value =>
    (value.ID == uuidNil || row.2.ID == value.ID) && (value.Name == "" || row.2.Name == value.Name)

/-- The in-memory store: `Find` returns the rows on which every condition holds; every JSON
text decodes, to the empty policy collection. -/
def memStoreEnv : StoreEnv MemDb where
  Find := fun tx s =>
    .ok ((s.rows.filter (fun row => tx.conditions.all (fun c => c.holds row))).map (fun row => row.2))
  jsonUnmarshal := fun _ => .ok []

/-- Whether a flavor group is associated with a host in the in-memory database. -/
def MemDb.associated (s : MemDb) (hostId : String) (fg : hvs.FlavorGroup) : Bool :=
  s.hostGroups.contains (hostId, fg.ID)

/-- A database with the groups 10 ("platform") and 11 ("software"); the host "h1" is
associated with group 10 only. -/
def exDb : MemDb :=
  { rows := [("10", ⟨10, "platform", some []⟩), ("11", ⟨11, "software", some []⟩)]
    hostGroups := [("h1", 10)] }

end postgres

/-! ## pkg/lib/asset-tag -/

namespace asset_tag

/-- The `TagKvAttribute` record, as the test of the package fills it. -/
structure TagKvAttribute where
  Key : String
  Value : String
  deriving DecidableEq, Repr

/-- The `TagCertConfig` record, as the test of the package fills it; `PrivateKey` is a
pointer (`none` is nil), `TagCACert` points to a certificate (the test passes the zero
certificate as the empty one). -/
structure TagCertConfig where
  SubjectUUID : String
  PrivateKey : Option controllers.PrivateKey
  TagCACert : controllers.Certificate
  TagAttributes : List TagKvAttribute
  ValidityInSeconds : Nat
  deriving DecidableEq, Repr

/-- The fields of a parsed asset-tag certificate that the test of the package reads. -/
structure TagCertificate where
  SubjectCommonName : String
  Extensions : List controllers.Extension
  deriving DecidableEq, Repr

/-- The library calls behind `CreateAssetTag`: the OID allocated to the service, the ASN.1
encoding of an attribute, the clock, the serial-number source, X.509 signing and parsing, and
the extensions that `x509.CreateCertificate` builds on its own from the template and the
parent (for example the authority key identifier, taken from the subject key identifier of
the parent). -/
structure AtagEnv where
  /-- The single OID of the attribute extensions. -/
  oid : List Nat
  /-- Go `asn1.Marshal` of a `TagKvAttribute`. -/
  asn1MarshalAttribute : TagKvAttribute → Except GoError Bytes
  /-- Go `asn1.Unmarshal(value, &tagAttr)`. -/
  asn1UnmarshalAttribute : Bytes → Except GoError TagKvAttribute
  /-- Go `time.Now()`, in seconds. -/
  timeNow : Nat
  /-- The serial number drawn for the certificate. -/
  newSerial : Except GoError Nat
  /-- Go `x509.CreateCertificate(rand.Reader, template, parent, pub, priv)`. -/
  CreateCertificate :
    controllers.CertTemplate → controllers.Certificate → controllers.PrivateKey → Except GoError Bytes
  /-- The extensions `x509.CreateCertificate` adds by itself for a template and a parent. -/
  libraryExtensions : controllers.CertTemplate → controllers.Certificate → List controllers.Extension
  /-- Go `x509.ParseCertificate(der)`. -/
  ParseCertificate : Bytes → Except GoError TagCertificate

/-- Modelled from the spec: the extensions of §4.5 and §6.5, one per attribute in order, each
with the single OID of the service, not critical, and the ASN.1 encoding of the (key, value)
pair as value. The package source is not part of the embedded sources. -/
def tagExtensions (env : AtagEnv) : List TagKvAttribute → Except GoError (List controllers.Extension)
  | [] => .ok []
  | attr :: rest =>
    match env.asn1MarshalAttribute attr with
    | .error err => .error err
    | .ok der =>
      match tagExtensions env rest with
      | .error err => .error err
      | .ok extensions => .ok (⟨env.oid, false, der⟩ :: extensions)

/-- Modelled from the spec: `CreateAssetTag(config)` of package asset_tag (§4.5), whose source
is not part of the embedded sources (only its test is). The five inputs are validated in the
order of §4.5, with the messages the test expects; then every attribute becomes an extension,
the subject common name is the subject UUID string, the validity runs for
`ValidityInSeconds` from now, and the certificate is signed with the tag-CA key. -/
def CreateAssetTag (env : AtagEnv) (tagCertConfig : TagCertConfig) : Except GoError Bytes :=
  if tagCertConfig.SubjectUUID == "" then
    .error "Subject UUID is required to be set to create an asset tag certificate"
  else if tagCertConfig.TagAttributes.length == 0 then
    .error "Tag key-value attributes are required to be set to create an asset tag certificate"
  else if tagCertConfig.ValidityInSeconds == 0 then
    .error "Certificate validity in seconds required to be set to create an asset tag certificate"
  else
    match tagCertConfig.PrivateKey with
    | none => .error "Private key is required to be set to create an asset tag certificate"
    | some privateKey =>
      if tagCertConfig.TagCACert.Raw.isEmpty then
        .error ("Tag CA-Certificate is required to be set to fetch issuer configuration "
          ++ "information to create an asset tag certificate")
      else
        match tagExtensions env tagCertConfig.TagAttributes with
        | .error err => .error err
        | .ok extensions =>
          match env.newSerial with
          | .error err => .error err
          | .ok serialNumber =>
            env.CreateCertificate
              { IssuerCommonName := tagCertConfig.TagCACert.Subject.CommonName
                SerialNumber := serialNumber
                SubjectCommonName := tagCertConfig.SubjectUUID
                NotBefore := env.timeNow
                NotAfter := env.timeNow + tagCertConfig.ValidityInSeconds
                Extensions := []
                ExtraExtensions := extensions }
              tagCertConfig.TagCACert privateKey

/-- The contract of the decoding calls: `asn1.Unmarshal` gives back the attribute that
`asn1.Marshal` encoded, and `x509.ParseCertificate` of a certificate that
`x509.CreateCertificate` issued exposes the subject common name of the template and, as
extensions, those the library added by itself followed by the extra extensions of the
template. Nothing is assumed about when encoding or signing succeeds. -/
structure DecodingLaws (env : AtagEnv) : Prop where
  attribute_roundtrip : ∀ a der, env.asn1MarshalAttribute a = .ok der →
    env.asn1UnmarshalAttribute der = .ok a
  parse_created : ∀ template parent key der,
    env.CreateCertificate template parent key = .ok der →
    env.ParseCertificate der =
      .ok ⟨template.SubjectCommonName,
        env.libraryExtensions template parent ++ template.ExtraExtensions⟩

/-! ### An in-memory instance of the library calls -/

/-- A list of numbers, preceded by its length. -/
def encodeNats (l : List Nat) : List Nat := l.length :: l

/-- The list of numbers at the head of an encoding, and what follows it. -/
def decodeNats : List Nat → Option (List Nat × List Nat)
  | [] => none
  | n :: rest => if n ≤ rest.length then some (rest.take n, rest.drop n) else none

/-- The text of a list of character codes. -/
def textOf (l : List Nat) : String := String.mk (l.map Char.ofNat)

/-- The character codes of a text. -/
def codesOf (s : String) : List Nat := s.data.map Char.toNat

/-- The encoding of one extension: OID, critical flag, value. -/
def encodeExtension (e : controllers.Extension) : List Nat :=
  encodeNats e.Id ++ (if e.Critical then 1 else 0) :: encodeNats e.Value

/-- The extension at the head of an encoding, and what follows it. -/
def decodeExtension (l : List Nat) : Option (controllers.Extension × List Nat) :=
  match decodeNats l with
  | none => none
  | some (id, rest) =>
    match rest with
    | [] => none
    | flag :: rest1 =>
      match decodeNats rest1 with
      | none => none
      | some (value, rest2) => some (⟨id, flag == 1, value⟩, rest2)

/-- The given number of extensions at the head of an encoding, and what follows them. -/
def decodeExtensions : Nat → List Nat → Option (List controllers.Extension × List Nat)
  | 0, l => some ([], l)
  | n + 1, l =>
    match decodeExtension l with
    | none => none
    | some (e, rest) =>
      match decodeExtensions n rest with
      | none => none
      | some (es, rest1) => some (e :: es, rest1)

/-- The in-memory certificate: subject common name, number of extensions, extensions. -/
def encodeCertificate (subjectCommonName : String) (extensions : List controllers.Extension) :
    Bytes :=
  encodeNats (codesOf subjectCommonName) ++
    extensions.length :: extensions.flatMap encodeExtension

/-- Parsing the in-memory certificate. -/
def decodeCertificate (der : Bytes) : Except GoError TagCertificate :=
  match decodeNats der with
  | none => .error "x509: malformed certificate"
  | some (cn, rest) =>
    match rest with
    | [] => .error "x509: malformed certificate"
    | count :: rest1 =>
      match decodeExtensions count rest1 with
      | some (extensions, []) => .ok ⟨textOf cn, extensions⟩
      | _ => .error "x509: trailing data"

/-- The authority key identifier extension (OID 2.5.29.35, not critical) that
`x509.CreateCertificate` adds for a parent with the given subject key identifier: a SEQUENCE
(tag 48) holding the key identifier under the context tag 128. -/
def authorityKeyIdExtension (keyId : Bytes) : controllers.Extension :=
  ⟨[2, 5, 29, 35], false, 48 :: (keyId.length + 2) :: 128 :: keyId.length :: keyId⟩

/-- An in-memory instance of the library calls. An attribute is encoded as the tag 48
followed by key and value with their lengths, a certificate as above; the OID is
2.16.840.1.113741.1.5.2.1 and the serial number 1. `keyIds` gives the subject key identifier
of the CA certificates that have one (by their DER): for such a parent the issued certificate
gets the authority key identifier extension in front of the extra extensions of the
template. -/
def memAtagEnvWith (keyIds : List (Bytes × Bytes)) : AtagEnv where
  oid := [2, 16, 840, 1, 113741, 1, 5, 2, 1]
  asn1MarshalAttribute := fun a => .ok (48 :: (encodeNats (codesOf a.Key) ++ encodeNats (codesOf a.Value)))
  asn1UnmarshalAttribute := fun der =>
    match der with
    | 48 :: rest =>
      match decodeNats rest with
      | none => .error "asn1: syntax error"
      | some (key, rest1) =>
        match decodeNats rest1 with
        | some (value, []) => .ok ⟨textOf key, textOf value⟩
        | _ => .error "asn1: syntax error"
    | _ => .error "asn1: structure error"
  timeNow := 100
  newSerial := .ok 1
  libraryExtensions := fun _ parent =>
    match keyIds.lookup parent.Raw with
    | some keyId => [authorityKeyIdExtension keyId]
    | none => []
  CreateCertificate := fun template parent _ =>
    .ok (encodeCertificate template.SubjectCommonName
      ((match keyIds.lookup parent.Raw with
        | some keyId => [authorityKeyIdExtension keyId]
        | none => []) ++ template.ExtraExtensions))
  ParseCertificate := decodeCertificate

/-- The in-memory library calls when no CA certificate has a subject key identifier. -/
def memAtagEnv : AtagEnv := memAtagEnvWith []

/-- The in-memory library calls with a signer that refuses every key. -/
def memAtagEnvNoSigner : AtagEnv :=
  { memAtagEnv with
    CreateCertificate := fun _ _ _ =>
      .error "x509: provided PrivateKey does not match the PublicKey of the parent" }

/-- The configuration of the test of the package: two attributes with the key "Country",
validity 1000 seconds, and a tag-CA certificate with DER bytes 7. -/
def exTagConfig : TagCertConfig :=
  { SubjectUUID := "803f6068-06da-e811-906e-00163566263e"
    PrivateKey := some [9]
    TagCACert := ⟨[7], ⟨"mtwilson-ca", "CN=mtwilson-ca"⟩, ⟨"mtwilson-ca", "CN=mtwilson-ca"⟩,
      ⟨7, 65537⟩⟩
    TagAttributes := [⟨"Country", "US"⟩, ⟨"Country", "India"⟩]
    ValidityInSeconds := 1000 }

end asset_tag

/-! ## Theorems: trust report -/

open hvs hosttrust controllers host_connector postgres asset_tag

/-- The loop of `isTrustedForResults` computes the conjunction of `IsTrusted` over the list. -/
theorem foldl_IsTrusted_eq_all (l : List RuleResult) (b : Bool) :
    l.foldl (fun trusted result => trusted && result.IsTrusted) b
      = (b && l.all RuleResult.IsTrusted) := by
  induction l generalizing b with
  | nil => simp
  | cons x xs ih => simp [List.foldl, ih, Bool.and_assoc]

/-- A rule result is trusted exactly when its fault list is empty. -/
theorem RuleResult_IsTrusted_iff (r : RuleResult) : r.IsTrusted = true ↔ r.Faults = [] := by
  unfold RuleResult.IsTrusted
  cases h : r.Faults <;> simp

/-- C1: a trust report is trusted if and only if its results are non-empty and every rule
result in them has an empty fault list. -/
theorem TrustReport_IsTrusted_iff (t : TrustReport) :
    t.IsTrusted = true ↔ (t.Results ≠ [] ∧ ∀ r ∈ t.Results, r.Faults = []) := by
  unfold TrustReport.IsTrusted TrustReport.isTrustedForResults
  cases h : t.Results with
  | nil => simp
  | cons x xs =>
    simp only [foldl_IsTrusted_eq_all, List.length_cons]
    simp [RuleResult_IsTrusted_iff]

/-! ## Theorems: host-trust verifier -/

/-- C2: `Verify` on the nil manifest returns `ErrInvalidHostManiFest`, and on a manifest whose
hardware UUID does not parse or parses to the all-zero UUID it returns
`ErrManifestMissingHwUUID`; in both cases the store state and the call trace are returned as
they were, so no store operation is invoked. -/
theorem Verify_rejects_invalid_manifest {σ ρ : Type} (env : Env σ ρ) (hostId : UUID)
    (newData : Bool) (w : World σ ρ) :
    Verify env hostId none newData w = (some ErrInvalidHostManiFest, w) ∧
    ∀ hostData : HostManifest,
      ((∃ e, env.uuidParse hostData.HostInfo.HardwareUUID = .error e) ∨
        env.uuidParse hostData.HostInfo.HardwareUUID = .ok uuidNil) →
      Verify env hostId (some hostData) newData w = (some ErrManifestMissingHwUUID, w) := by
  refine ⟨rfl, ?_⟩
  intro hostData h
  rcases h with ⟨e, he⟩ | h0
  · simp [Verify, he]
  · simp [Verify, h0]

/-- Witness of C2: in the in-memory instance, where the empty string is no UUID and
"zero" parses to the all-zero UUID, both manifests are refused with the stores untouched. -/
theorem Verify_rejects_invalid_manifest_witness :
    Verify (memEnv [("zero", 0), ("hw-1", 5)] [] []) 1 (some ⟨⟨""⟩⟩) true
        ⟨⟨[(1, ⟨10, "g"⟩)], [(1, 10, 7)], [], [], false, false, false, false⟩, []⟩
      = (some ErrManifestMissingHwUUID,
        ⟨⟨[(1, ⟨10, "g"⟩)], [(1, 10, 7)], [], [], false, false, false, false⟩, []⟩) ∧
    Verify (memEnv [("zero", 0), ("hw-1", 5)] [] []) 1 (some ⟨⟨"zero"⟩⟩) true
        ⟨⟨[(1, ⟨10, "g"⟩)], [(1, 10, 7)], [], [], false, false, false, false⟩, []⟩
      = (some ErrManifestMissingHwUUID,
        ⟨⟨[(1, ⟨10, "g"⟩)], [(1, 10, 7)], [], [], false, false, false, false⟩, []⟩) :=
  ⟨(Verify_rejects_invalid_manifest (memEnv [("zero", 0), ("hw-1", 5)] [] []) 1 true _).2
      ⟨⟨""⟩⟩ (Or.inl ⟨"invalid UUID", rfl⟩),
    (Verify_rejects_invalid_manifest (memEnv [("zero", 0), ("hw-1", 5)] [] []) 1 true _).2
      ⟨⟨"zero"⟩⟩ (Or.inr rfl)⟩

/-- The loop of `validateCachedFlavors`, when the flavor verifier fails on no flavor: trusted
flavors and their results are appended in order, the IDs of the others are collected. -/
theorem validateLoop_ok {σ ρ : Type} (env : Env σ ρ) (hostData : HostManifest)
    (l : List SignedFlavor) (vars : ValidateVars) (calls : List (Call ρ))
    (h : ∀ f ∈ l, ∃ rep, env.flavorVerify hostData f true = .ok rep) :
    validateLoop env hostData l vars calls =
      (.ok
        { htc := { vars.htc with
            trustedFlavors := vars.htc.trustedFlavors ++
              (l.filter (reportTrusted env hostData)).map (fun f => f.Flavor) }
          collectiveReport := { vars.collectiveReport with
            Results := vars.collectiveReport.Results ++
              (l.filter (reportTrusted env hostData)).flatMap (reportResults env hostData) }
          trustCachesToDelete := vars.trustCachesToDelete ++
            (l.filter (fun f => !reportTrusted env hostData f)).map (fun f => f.Flavor.Meta.ID) },
        calls ++ l.map Call.flavorVerify) := by
  induction l generalizing vars calls with
  | nil => simp [validateLoop]
  | cons f rest ih =>
    obtain ⟨rep, hrep⟩ := h f (List.mem_cons_self f rest)
    have hrest : ∀ g ∈ rest, ∃ rep, env.flavorVerify hostData g true = .ok rep :=
      fun g hg => h g (List.mem_cons_of_mem f hg)
    unfold validateLoop
    simp only [hrep]
    cases htr : rep.Trusted with
    | true =>
      have ht : reportTrusted env hostData f = true := by simp [reportTrusted, hrep, htr]
      have hr : reportResults env hostData f = rep.Results := by simp [reportResults, hrep]
      simp [ih _ _ hrest, ht, hr, List.filter_cons, List.append_assoc]
    | false =>
      have ht : reportTrusted env hostData f = false := by simp [reportTrusted, hrep, htr]
      simp [ih _ _ hrest, ht, List.filter_cons, List.append_assoc]

/-- The result of `validateCachedFlavors`, when the flavor verifier fails on no flavor. -/
theorem validateCachedFlavors_ok {σ ρ : Type} (env : Env σ ρ) (hostId : UUID)
    (hostData : HostManifest) (cachedFlavors : List SignedFlavor) (w : World σ ρ)
    (h : ∀ f ∈ cachedFlavors, ∃ rep, env.flavorVerify hostData f true = .ok rep) :
    validateCachedFlavors env hostId hostData cachedFlavors w =
      (.ok
        { hostID := hostId
          trustedFlavors :=
            (cachedFlavors.filter (reportTrusted env hostData)).map (fun f => f.Flavor)
          trustReport := { TrustReport.zero with
            Results := (cachedFlavors.filter (reportTrusted env hostData)).flatMap
              (reportResults env hostData) } },
        { state := (env.RemoveTrustCacheFlavors hostId
            ((cachedFlavors.filter (fun f => !reportTrusted env hostData f)).map
              (fun f => f.Flavor.Meta.ID)) w.state).2
          calls := w.calls ++ cachedFlavors.map Call.flavorVerify ++
            [Call.RemoveTrustCacheFlavors hostId
              ((cachedFlavors.filter (fun f => !reportTrusted env hostData f)).map
                (fun f => f.Flavor.Meta.ID))] }) := by
  simp [validateCachedFlavors, validateLoop_ok env hostData cachedFlavors _ _ h,
    hostTrustCache.zero, TrustReport.zero]

/-- C4: when the flavor verifier fails on no cached flavor, `validateCachedFlavors` returns the
host's cache whose trusted flavors are the flavors with a Trusted report, in input order, and
whose report holds the concatenation of those flavors' rule results; it calls
`RemoveTrustCacheFlavors` once, for the host, with the `Meta.ID` of each flavor whose report
is not Trusted; with distinct flavor IDs no trusted flavor's ID is among them. -/
theorem validateCachedFlavors_partitions {σ ρ : Type} (env : Env σ ρ) (hostId : UUID)
    (hostData : HostManifest) (cachedFlavors : List SignedFlavor) (w : World σ ρ)
    (h : ∀ f ∈ cachedFlavors, ∃ rep, env.flavorVerify hostData f true = .ok rep) :
    ∃ htc : hostTrustCache,
      (validateCachedFlavors env hostId hostData cachedFlavors w).1 = .ok htc ∧
      htc.hostID = hostId ∧
      htc.trustedFlavors =
        (cachedFlavors.filter (reportTrusted env hostData)).map (fun f => f.Flavor) ∧
      htc.trustReport.Results =
        (cachedFlavors.filter (reportTrusted env hostData)).flatMap (reportResults env hostData) ∧
      (validateCachedFlavors env hostId hostData cachedFlavors w).2.calls =
        w.calls ++ cachedFlavors.map Call.flavorVerify ++
          [Call.RemoveTrustCacheFlavors hostId
            ((cachedFlavors.filter (fun f => !reportTrusted env hostData f)).map
              (fun f => f.Flavor.Meta.ID))] ∧
      (validateCachedFlavors env hostId hostData cachedFlavors w).2.state =
        (env.RemoveTrustCacheFlavors hostId
          ((cachedFlavors.filter (fun f => !reportTrusted env hostData f)).map
            (fun f => f.Flavor.Meta.ID)) w.state).2 ∧
      ((cachedFlavors.map (fun f => f.Flavor.Meta.ID)).Nodup →
        ∀ f ∈ cachedFlavors, reportTrusted env hostData f = true →
          f.Flavor.Meta.ID ∉
            (cachedFlavors.filter (fun f => !reportTrusted env hostData f)).map
              (fun f => f.Flavor.Meta.ID)) := by
  rw [validateCachedFlavors_ok env hostId hostData cachedFlavors w h]
  refine ⟨_, rfl, rfl, rfl, rfl, rfl, rfl, ?_⟩
  intro hnd f hf ht hmem
  obtain ⟨g, hg, hid⟩ := List.mem_map.mp hmem
  have hgl : g ∈ cachedFlavors := (List.mem_filter.mp hg).1
  have hgt : (!reportTrusted env hostData g) = true := (List.mem_filter.mp hg).2
  have : g = f := List.inj_on_of_nodup_map hnd hgl hf hid
  subst this
  simp [ht] at hgt

/-- Witness of C4: host 1 with the cached flavors 7 (trusted) and 8 (not trusted): flavor 7
and its result are kept, and `RemoveTrustCacheFlavors` is called with the ID 8. -/
theorem validateCachedFlavors_partitions_witness :
    ∃ htc : hostTrustCache,
      (validateCachedFlavors exEnv 1 exManifest [exFlavorA, exFlavorB]
        ⟨exStore [(1, 10, 7), (1, 10, 8)], []⟩).1 = .ok htc ∧
      htc.trustedFlavors = [exFlavorA.Flavor] ∧
      htc.trustReport.Results = [exResultA] ∧
      (validateCachedFlavors exEnv 1 exManifest [exFlavorA, exFlavorB]
        ⟨exStore [(1, 10, 7), (1, 10, 8)], []⟩).2.calls =
        [Call.flavorVerify exFlavorA, Call.flavorVerify exFlavorB,
          Call.RemoveTrustCacheFlavors 1 [8]] := by
  obtain ⟨htc, h1, _, h3, h4, h5, _⟩ :=
    validateCachedFlavors_partitions exEnv 1 exManifest [exFlavorA, exFlavorB]
      ⟨exStore [(1, 10, 7), (1, 10, 8)], []⟩
      (by
        intro f hf
        simp only [List.mem_cons, List.mem_singleton, List.not_mem_nil, or_false] at hf
        rcases hf with rfl | rfl <;> exact ⟨_, rfl⟩)
  exact ⟨htc, h1, h3.trans (by decide), h4.trans (by decide), h5.trans (by decide)⟩

/-- The loop of `getCachedFlavors` over the cached IDs: the retrieved flavors are appended in
order, one `Retrieve` call is made per ID, and the store state is not changed. -/
theorem getCachedFlavors_loop {σ ρ : Type} (env : Env σ ρ) (flIds : List UUID)
    (acc : List SignedFlavor × World σ ρ) :
    flIds.foldl
      (fun (acc : List SignedFlavor × World σ ρ) flvId =>
        match env.flavorRetrieve flvId acc.2.state with
        | .ok flv => (acc.1 ++ [flv], acc.2.record (.flavorRetrieve flvId))
        | .error _ => (acc.1, acc.2.record (.flavorRetrieve flvId)))
      acc
    = (acc.1 ++ retrievedFlavors env flIds acc.2.state,
        { state := acc.2.state, calls := acc.2.calls ++ flIds.map Call.flavorRetrieve }) := by
  induction flIds generalizing acc with
  | nil => simp [retrievedFlavors]
  | cons id rest ih =>
    simp only [List.foldl_cons]
    rw [ih]
    cases hr : env.flavorRetrieve id acc.2.state with
    | error e => simp [retrievedFlavors, hr, World.record, Except.toOption]
    | ok flv => simp [retrievedFlavors, hr, World.record, Except.toOption]

/-- The result of `getCachedFlavors` when the host store returns the cached IDs `flIds`. -/
theorem getCachedFlavors_ok {σ ρ : Type} (env : Env σ ρ) (hostId flavGrpId : UUID)
    (w : World σ ρ) (flIds : List UUID)
    (h : env.RetrieveTrustCacheFlavors hostId flavGrpId w.state = .ok flIds) :
    getCachedFlavors env hostId flavGrpId w =
      (.ok (retrievedFlavors env flIds w.state),
        { state := w.state
          calls := w.calls ++ [Call.RetrieveTrustCacheFlavors hostId flavGrpId] ++
            flIds.map Call.flavorRetrieve }) := by
  unfold getCachedFlavors
  simp only [h]
  rw [getCachedFlavors_loop]
  simp [World.record]

/-- The result of `getCachedFlavors` when reading the trust cache fails. -/
theorem getCachedFlavors_error {σ ρ : Type} (env : Env σ ρ) (hostId flavGrpId : UUID)
    (w : World σ ρ) (e : GoError)
    (h : env.RetrieveTrustCacheFlavors hostId flavGrpId w.state = .error e) :
    sliceOrNil (getCachedFlavors env hostId flavGrpId w).1 = [] ∧
    (getCachedFlavors env hostId flavGrpId w).2 =
      w.record (Call.RetrieveTrustCacheFlavors hostId flavGrpId) := by
  simp [getCachedFlavors, h, sliceOrNil]

/-- The function `getCachedFlavors` only adds loop calls to the trace and leaves the store state as it is. -/
theorem getCachedFlavors_calls {σ ρ : Type} (env : Env σ ρ) (hostId flavGrpId : UUID)
    (w : World σ ρ) :
    (getCachedFlavors env hostId flavGrpId w).2.state = w.state ∧
    ∃ extra, (getCachedFlavors env hostId flavGrpId w).2.calls = w.calls ++ extra ∧
      ∀ c ∈ extra, c.isLoopCall = true := by
  cases h : env.RetrieveTrustCacheFlavors hostId flavGrpId w.state with
  | error e =>
    rw [(getCachedFlavors_error env hostId flavGrpId w e h).2]
    exact ⟨rfl, [_], rfl, by simp [Call.isLoopCall]⟩
  | ok flIds =>
    rw [getCachedFlavors_ok env hostId flavGrpId w flIds h]
    refine ⟨rfl, [Call.RetrieveTrustCacheFlavors hostId flavGrpId] ++
      flIds.map Call.flavorRetrieve, by simp, ?_⟩
    intro c hc
    simp at hc
    rcases hc with rfl | ⟨id, _, rfl⟩ <;> rfl

/-- The loop of `validateCachedFlavors` only adds `flavorVerify` calls to the trace. -/
theorem validateLoop_calls {σ ρ : Type} (env : Env σ ρ) (hostData : HostManifest)
    (l : List SignedFlavor) (vars : ValidateVars) (calls : List (Call ρ)) :
    ∃ extra, (validateLoop env hostData l vars calls).2 = calls ++ extra ∧
      ∀ c ∈ extra, c.isLoopCall = true := by
  induction l generalizing vars calls with
  | nil => exact ⟨[], by simp [validateLoop], by simp⟩
  | cons f rest ih =>
    unfold validateLoop
    cases hv : env.flavorVerify hostData f true with
    | error e => exact ⟨[Call.flavorVerify f], rfl, by simp [Call.isLoopCall]⟩
    | ok rep =>
      simp only []
      split
      · obtain ⟨extra, he, hall⟩ := ih
          { vars with
            htc := { vars.htc with trustedFlavors := vars.htc.trustedFlavors ++ [f.Flavor] }
            collectiveReport := { vars.collectiveReport with
              Results := vars.collectiveReport.Results ++ rep.Results } }
          (calls ++ [Call.flavorVerify f])
        refine ⟨Call.flavorVerify f :: extra, by simp [he], ?_⟩
        intro c hc
        rcases List.mem_cons.mp hc with rfl | hc
        · rfl
        · exact hall c hc
      · obtain ⟨extra, he, hall⟩ := ih
          { vars with
            trustCachesToDelete := vars.trustCachesToDelete ++ [f.Flavor.Meta.ID] }
          (calls ++ [Call.flavorVerify f])
        refine ⟨Call.flavorVerify f :: extra, by simp [he], ?_⟩
        intro c hc
        rcases List.mem_cons.mp hc with rfl | hc
        · rfl
        · exact hall c hc

/-- The function `validateCachedFlavors` only adds loop calls to the trace. -/
theorem validateCachedFlavors_calls {σ ρ : Type} (env : Env σ ρ) (hostId : UUID)
    (hostData : HostManifest) (cachedFlavors : List SignedFlavor) (w : World σ ρ) :
    ∃ extra, (validateCachedFlavors env hostId hostData cachedFlavors w).2.calls
        = w.calls ++ extra ∧
      ∀ c ∈ extra, c.isLoopCall = true := by
  obtain ⟨extra, he, hall⟩ := validateLoop_calls env hostData cachedFlavors
    ⟨{ hostTrustCache.zero with hostID := hostId }, TrustReport.zero, []⟩ w.calls
  unfold validateCachedFlavors
  simp only []
  split
  · exact ⟨extra, he, hall⟩
  · rename_i vars _
    refine ⟨extra ++ [Call.RemoveTrustCacheFlavors hostId vars.trustCachesToDelete],
      by simp [he], ?_⟩
    intro c hc
    rcases List.mem_append.mp hc with hc | hc
    · exact hall c hc
    · simp at hc
      subst hc
      rfl

/-- One iteration of the loop of `Verify`: a report already found not valid stays so, the
results of the final report are only extended, and only loop calls are added to the trace. -/
theorem verifyGroup_facts {σ ρ : Type} (env : Env σ ρ) (hostId hwUuid : UUID)
    (hostData : HostManifest) (vars : VerifyVars σ ρ) (fg : FlavorGroup) :
    (vars.finalReportValid = false →
      (verifyGroup env hostId hwUuid hostData vars fg).finalReportValid = false) ∧
    (∃ more, (verifyGroup env hostId hwUuid hostData vars fg).finalTrustReport.Results
      = vars.finalTrustReport.Results ++ more) ∧
    (∃ extra, (verifyGroup env hostId hwUuid hostData vars fg).world.calls
        = vars.world.calls ++ extra ∧ ∀ c ∈ extra, c.isLoopCall = true) := by
  obtain ⟨_, e1, h1, hall1⟩ := getCachedFlavors_calls env hostId fg.ID
    (vars.world.record (Call.NewFlvGrpHostTrustReqs hostId hwUuid fg))
  obtain ⟨e2, h2, hall2⟩ := validateCachedFlavors_calls env hostId hostData
    (fgCachedFlavors env hostId hwUuid vars fg) (fgCached env hostId hwUuid vars fg).2
  have hnew : (Call.NewFlvGrpHostTrustReqs hostId hwUuid fg : Call ρ).isLoopCall = true := rfl
  change (fgCached env hostId hwUuid vars fg).2.calls = _ at h1
  change (fgValidated env hostId hwUuid hostData vars fg).2.calls = _ at h2
  unfold verifyGroup
  split
  · split
    · refine ⟨fun _ => rfl, ⟨_, rfl⟩, ?_⟩
      refine ⟨Call.NewFlvGrpHostTrustReqs hostId hwUuid fg :: (e1 ++ e2) ++
        [Call.createFlavorGroupReport hostId (fgTrustReqs env hostId hwUuid vars fg)
          (fgTrustCache env hostId hwUuid hostData vars fg)], ?_, ?_⟩
      · simp [h2, h1, World.record]
      · intro c hc
        simp only [List.mem_append, List.mem_cons, List.mem_singleton, List.not_mem_nil,
          or_false] at hc
        rcases hc with (rfl | hc | hc) | rfl
        · exact hnew
        · exact hall1 c hc
        · exact hall2 c hc
        · rfl
    · refine ⟨fun h => h, ⟨_, rfl⟩, ?_⟩
      refine ⟨Call.NewFlvGrpHostTrustReqs hostId hwUuid fg :: (e1 ++ e2), ?_, ?_⟩
      · simp [h2, h1, World.record]
      · intro c hc
        simp only [List.mem_append, List.mem_cons] at hc
        rcases hc with rfl | hc | hc
        · exact hnew
        · exact hall1 c hc
        · exact hall2 c hc
  · refine ⟨fun h => h, ⟨[], by simp⟩, ?_⟩
    refine ⟨Call.NewFlvGrpHostTrustReqs hostId hwUuid fg :: e1, ?_, ?_⟩
    · simp [h1, World.record]
    · intro c hc
      simp only [List.mem_cons] at hc
      rcases hc with rfl | hc
      · exact hnew
      · exact hall1 c hc

/-- The loop of `Verify` from any state: a report already found not valid stays so, the
results are only extended, and only loop calls are added to the trace. -/
theorem verifyGroups_facts {σ ρ : Type} (env : Env σ ρ) (hostId hwUuid : UUID)
    (hostData : HostManifest) (groups : List FlavorGroup) (vars : VerifyVars σ ρ) :
    (vars.finalReportValid = false →
      (groups.foldl (verifyGroup env hostId hwUuid hostData) vars).finalReportValid = false) ∧
    (∃ more, (groups.foldl (verifyGroup env hostId hwUuid hostData) vars).finalTrustReport.Results
      = vars.finalTrustReport.Results ++ more) ∧
    (∃ extra, (groups.foldl (verifyGroup env hostId hwUuid hostData) vars).world.calls
        = vars.world.calls ++ extra ∧ ∀ c ∈ extra, c.isLoopCall = true) := by
  induction groups generalizing vars with
  | nil => exact ⟨fun h => h, ⟨[], by simp⟩, ⟨[], by simp, by simp⟩⟩
  | cons g rest ih =>
    obtain ⟨hv, ⟨m1, hm1⟩, ⟨e1, he1, hall1⟩⟩ := verifyGroup_facts env hostId hwUuid hostData vars g
    obtain ⟨hv2, ⟨m2, hm2⟩, ⟨e2, he2, hall2⟩⟩ := ih (verifyGroup env hostId hwUuid hostData vars g)
    simp only [List.foldl_cons]
    refine ⟨fun h => hv2 (hv h), ⟨m1 ++ m2, by rw [hm2, hm1, List.append_assoc]⟩,
      ⟨e1 ++ e2, by rw [he2, he1, List.append_assoc], ?_⟩⟩
    intro c hc
    rcases List.mem_append.mp hc with hc | hc
    · exact hall1 c hc
    · exact hall2 c hc

/-- Loop calls are neither the generation of a SAML report nor `reportStore.Create`. -/
theorem loopCalls_count_zero {ρ : Type} (extra : List (Call ρ))
    (h : ∀ c ∈ extra, c.isLoopCall = true) :
    extra.countP Call.isGenerateSamlReport = 0 ∧ extra.countP Call.isReportCreate = 0 := by
  constructor
  · rw [List.countP_eq_zero]
    intro c hc
    have := h c hc
    cases c <;> simp_all [Call.isLoopCall, Call.isGenerateSamlReport]
  · rw [List.countP_eq_zero]
    intro c hc
    have := h c hc
    cases c <;> simp_all [Call.isLoopCall, Call.isReportCreate]

/-- The loop of `Verify` makes no SAML generation and no `reportStore.Create` call. -/
theorem verifyLoop_counts {σ ρ : Type} (env : Env σ ρ) (hostId hwUuid : UUID)
    (hostData : HostManifest) (groups : List FlavorGroup) (w : World σ ρ) :
    (verifyLoop env hostId hwUuid hostData groups w).world.calls.countP Call.isGenerateSamlReport
      = w.calls.countP Call.isGenerateSamlReport ∧
    (verifyLoop env hostId hwUuid hostData groups w).world.calls.countP Call.isReportCreate
      = w.calls.countP Call.isReportCreate := by
  obtain ⟨_, _, ⟨extra, he, hall⟩⟩ := verifyGroups_facts env hostId hwUuid hostData groups
    { finalReportValid := true
      finalTrustReport := { TrustReport.zero with HostManifest := hostData }
      world := w }
  obtain ⟨h1, h2⟩ := loopCalls_count_zero extra hall
  unfold verifyLoop
  rw [he]
  simp [List.countP_append, h1, h2]

/-- C3 (amended): for a `Verify` call that passes the manifest checks and whose flavor-group
search succeeds, `Verify` returns nil, and it generates one new assertion and hands one
report (the final report with the assertion's times and text) to `reportStore.Create` if and
only if `newData` is true, or `finalReportValid` is false and the final report has at least
one rule result; otherwise it generates no assertion and makes no `Create` call. -/
theorem Verify_new_report_iff {σ ρ : Type} (env : Env σ ρ) (hostId hwUuid : UUID)
    (hostData : HostManifest) (newData : Bool) (w : World σ ρ) (flvGroups : List FlavorGroup)
    (hparse : env.uuidParse hostData.HostInfo.HardwareUUID = .ok hwUuid)
    (hnz : hwUuid ≠ uuidNil)
    (hsearch : env.flavorGroupSearch hostId w.state = .ok flvGroups) :
    (Verify env hostId (some hostData) newData w).1 = none ∧
    (((Verify env hostId (some hostData) newData w).2.calls.countP Call.isGenerateSamlReport
          = w.calls.countP Call.isGenerateSamlReport + 1 ∧
        (Verify env hostId (some hostData) newData w).2.calls.countP Call.isReportCreate
          = w.calls.countP Call.isReportCreate + 1) ↔
      (newData = true ∨
        ((verifyLoop env hostId hwUuid hostData flvGroups
            (w.record (Call.flavorGroupSearch hostId))).finalReportValid = false ∧
          (verifyLoop env hostId hwUuid hostData flvGroups
            (w.record (Call.flavorGroupSearch hostId))).finalTrustReport.Results ≠ []))) ∧
    ((newData = true ∨
        ((verifyLoop env hostId hwUuid hostData flvGroups
            (w.record (Call.flavorGroupSearch hostId))).finalReportValid = false ∧
          (verifyLoop env hostId hwUuid hostData flvGroups
            (w.record (Call.flavorGroupSearch hostId))).finalTrustReport.Results ≠ [])) →
      (Verify env hostId (some hostData) newData w).2.calls =
        (verifyLoop env hostId hwUuid hostData flvGroups
          (w.record (Call.flavorGroupSearch hostId))).world.calls ++
        [Call.GenerateSamlReport (verifyLoop env hostId hwUuid hostData flvGroups
            (w.record (Call.flavorGroupSearch hostId))).finalTrustReport,
          Call.reportCreate
            { HostID := hostId
              TrustReport := (verifyLoop env hostId hwUuid hostData flvGroups
                (w.record (Call.flavorGroupSearch hostId))).finalTrustReport
              CreatedAt := (env.GenerateSamlReport
                (verifyLoop env hostId hwUuid hostData flvGroups
                  (w.record (Call.flavorGroupSearch hostId))).finalTrustReport
                (verifyLoop env hostId hwUuid hostData flvGroups
                  (w.record (Call.flavorGroupSearch hostId))).world.state).CreatedTime
              Expiration := (env.GenerateSamlReport
                (verifyLoop env hostId hwUuid hostData flvGroups
                  (w.record (Call.flavorGroupSearch hostId))).finalTrustReport
                (verifyLoop env hostId hwUuid hostData flvGroups
                  (w.record (Call.flavorGroupSearch hostId))).world.state).ExpiryTime
              Saml := (env.GenerateSamlReport
                (verifyLoop env hostId hwUuid hostData flvGroups
                  (w.record (Call.flavorGroupSearch hostId))).finalTrustReport
                (verifyLoop env hostId hwUuid hostData flvGroups
                  (w.record (Call.flavorGroupSearch hostId))).world.state).Assertion }]) ∧
    (¬ (newData = true ∨
        ((verifyLoop env hostId hwUuid hostData flvGroups
            (w.record (Call.flavorGroupSearch hostId))).finalReportValid = false ∧
          (verifyLoop env hostId hwUuid hostData flvGroups
            (w.record (Call.flavorGroupSearch hostId))).finalTrustReport.Results ≠ [])) →
      (Verify env hostId (some hostData) newData w).2.calls.countP Call.isGenerateSamlReport
          = w.calls.countP Call.isGenerateSamlReport ∧
        (Verify env hostId (some hostData) newData w).2.calls.countP Call.isReportCreate
          = w.calls.countP Call.isReportCreate) := by
  obtain ⟨hc1, hc2⟩ := verifyLoop_counts env hostId hwUuid hostData flvGroups
    (w.record (Call.flavorGroupSearch hostId))
  have hw1 : (w.record (Call.flavorGroupSearch hostId)).calls.countP Call.isGenerateSamlReport
      = w.calls.countP Call.isGenerateSamlReport := by
    simp [World.record, List.countP_append, Call.isGenerateSamlReport]
  have hw2 : (w.record (Call.flavorGroupSearch hostId)).calls.countP Call.isReportCreate
      = w.calls.countP Call.isReportCreate := by
    simp [World.record, List.countP_append, Call.isReportCreate]
  rw [hw1] at hc1
  rw [hw2] at hc2
  generalize hv : verifyLoop env hostId hwUuid hostData flvGroups
    (w.record (Call.flavorGroupSearch hostId)) = vars at *
  have hcond : needsNewReport vars newData = true ↔
      (newData = true ∨ (vars.finalReportValid = false ∧ vars.finalTrustReport.Results ≠ [])) := by
    unfold needsNewReport
    cases newData <;> cases vars.finalReportValid <;>
      cases vars.finalTrustReport.Results <;> simp
  have hV : Verify env hostId (some hostData) newData w =
      if needsNewReport vars newData then
        (none, storeTrustReport env hostId vars.finalTrustReport
          (env.GenerateSamlReport vars.finalTrustReport vars.world.state)
          (vars.world.record (Call.GenerateSamlReport vars.finalTrustReport)))
      else (none, vars.world) := by
    simp [Verify, hparse, hnz, hsearch, hv]
  rw [hV]
  by_cases hn : needsNewReport vars newData = true
  · have hcnd := hcond.mp hn
    rw [if_pos hn]
    refine ⟨rfl, ?_, ?_, ?_⟩
    · simp [storeTrustReport, World.record, List.countP_append, hc1, hc2,
        Call.isGenerateSamlReport, Call.isReportCreate, hcnd]
    · intro _
      simp [storeTrustReport, World.record]
    · intro h
      exact absurd hcnd h
  · have hcnd : ¬ (newData = true ∨
        (vars.finalReportValid = false ∧ vars.finalTrustReport.Results ≠ [])) :=
      fun h => hn (hcond.mpr h)
    rw [if_neg hn]
    refine ⟨rfl, ?_, ?_, ?_⟩
    · simp only [hc1, hc2]
      constructor
      · intro h
        omega
      · intro h
        exact absurd h hcnd
    · intro h
      exact absurd h hcnd
    · intro _
      exact ⟨hc1, hc2⟩

/-- Witness of C3 (amended): host 1 with the trusted flavor 7 in its cache and new data: one
assertion is generated and one report is handed to `reportStore.Create`. -/
theorem Verify_new_report_iff_witness :
    exEnv.uuidParse exManifest.HostInfo.HardwareUUID = .ok 5 ∧ (5 : UUID) ≠ uuidNil ∧
    exEnv.flavorGroupSearch 1 (exStore [(1, 10, 7)]) = .ok [exGroup] ∧
    (Verify exEnv 1 (some exManifest) true ⟨exStore [(1, 10, 7)], []⟩).1 = none ∧
    ((Verify exEnv 1 (some exManifest) true
        ⟨exStore [(1, 10, 7)], []⟩).2.calls.countP Call.isGenerateSamlReport
        = ([] : List (Call MemReqs)).countP Call.isGenerateSamlReport + 1 ∧
      (Verify exEnv 1 (some exManifest) true
        ⟨exStore [(1, 10, 7)], []⟩).2.calls.countP Call.isReportCreate
        = ([] : List (Call MemReqs)).countP Call.isReportCreate + 1) :=
  ⟨rfl, by decide, rfl,
    (Verify_new_report_iff exEnv 1 5 exManifest true ⟨exStore [(1, 10, 7)], []⟩ [exGroup]
      rfl (by decide) rfl).1,
    (Verify_new_report_iff exEnv 1 5 exManifest true ⟨exStore [(1, 10, 7)], []⟩ [exGroup]
      rfl (by decide) rfl).2.1.mpr (Or.inl rfl)⟩

/-- Counterexample to C3 as stated: host 1 has the untrusted flavor 8 in its cache for group
10 and no new data; the group's requirements are not met (`finalReportValid` is false), the
final report has no rule result, and `Verify` generates no assertion and hands no report to
`reportStore.Create`. -/
theorem Verify_unmet_group_without_report :
    exEnv.uuidParse exManifest.HostInfo.HardwareUUID = .ok 5 ∧
    exEnv.flavorGroupSearch 1 (exStore [(1, 10, 8)]) = .ok [exGroup] ∧
    (verifyLoop exEnv 1 5 exManifest [exGroup]
      ((⟨exStore [(1, 10, 8)], []⟩ : World MemStore MemReqs).record
        (Call.flavorGroupSearch 1))).finalReportValid = false ∧
    (Verify exEnv 1 (some exManifest) false ⟨exStore [(1, 10, 8)], []⟩).1 = none ∧
    (Verify exEnv 1 (some exManifest) false
      ⟨exStore [(1, 10, 8)], []⟩).2.calls.countP Call.isGenerateSamlReport = 0 ∧
    (Verify exEnv 1 (some exManifest) false
      ⟨exStore [(1, 10, 8)], []⟩).2.calls.countP Call.isReportCreate = 0 ∧
    (Verify exEnv 1 (some exManifest) false ⟨exStore [(1, 10, 8)], []⟩).2.state.reports = [] := by
  decide

/-- The loop of `Verify` over `pre ++ g :: post` is the loop over `post` started from the
iteration for `g` in the state reached after `pre`. -/
theorem verifyLoop_split {σ ρ : Type} (env : Env σ ρ) (hostId hwUuid : UUID)
    (hostData : HostManifest) (pre post : List FlavorGroup) (g : FlavorGroup) (w : World σ ρ) :
    verifyLoop env hostId hwUuid hostData (pre ++ g :: post) w =
      post.foldl (verifyGroup env hostId hwUuid hostData)
        (verifyGroup env hostId hwUuid hostData (verifyLoop env hostId hwUuid hostData pre w) g) := by
  simp [verifyLoop, List.foldl_append]

/-- The iteration of the loop of `Verify` for a group `g` reached after the groups `pre`:
with a retrieved cached flavor and unmet requirements, `createFlavorGroupReport` is invoked,
its results are appended and `finalReportValid` ends false; with no retrieved cached flavor
only the world changes. -/
theorem verifyLoop_unmet_group {σ ρ : Type} (env : Env σ ρ) (hostId hwUuid : UUID)
    (hostData : HostManifest) (pre post : List FlavorGroup) (g : FlavorGroup) (w : World σ ρ) :
    (fgCachedFlavors env hostId hwUuid (verifyLoop env hostId hwUuid hostData pre w) g ≠ [] →
      env.MeetsFlavorGroupReqs
        (fgTrustReqs env hostId hwUuid (verifyLoop env hostId hwUuid hostData pre w) g)
        (fgTrustCache env hostId hwUuid hostData (verifyLoop env hostId hwUuid hostData pre w) g)
        = false →
      (verifyLoop env hostId hwUuid hostData (pre ++ g :: post) w).finalReportValid = false ∧
      Call.createFlavorGroupReport hostId
          (fgTrustReqs env hostId hwUuid (verifyLoop env hostId hwUuid hostData pre w) g)
          (fgTrustCache env hostId hwUuid hostData (verifyLoop env hostId hwUuid hostData pre w) g)
        ∈ (verifyLoop env hostId hwUuid hostData (pre ++ g :: post) w).world.calls ∧
      ∃ later,
        (verifyLoop env hostId hwUuid hostData (pre ++ g :: post) w).finalTrustReport.Results =
          (verifyLoop env hostId hwUuid hostData pre w).finalTrustReport.Results ++
          (fgCreated env hostId hwUuid hostData
            (verifyLoop env hostId hwUuid hostData pre w) g).1.Results ++ later) ∧
    (fgCachedFlavors env hostId hwUuid (verifyLoop env hostId hwUuid hostData pre w) g = [] →
      verifyLoop env hostId hwUuid hostData (pre ++ [g]) w =
        { verifyLoop env hostId hwUuid hostData pre w with
          world := (fgCached env hostId hwUuid
            (verifyLoop env hostId hwUuid hostData pre w) g).2 }) := by
  have hs1 : verifyLoop env hostId hwUuid hostData (pre ++ [g]) w =
      verifyGroup env hostId hwUuid hostData (verifyLoop env hostId hwUuid hostData pre w) g := by
    rw [verifyLoop_split]
    rfl
  rw [verifyLoop_split, hs1]
  generalize verifyLoop env hostId hwUuid hostData pre w = vars
  constructor
  · intro hne hmeets
    have hlen : (fgCachedFlavors env hostId hwUuid vars g).length > 0 :=
      List.length_pos.mpr hne
    obtain ⟨hvalid, ⟨more, hmore⟩, ⟨extra, hextra, _⟩⟩ := verifyGroups_facts env hostId hwUuid
      hostData post (verifyGroup env hostId hwUuid hostData vars g)
    have hg : verifyGroup env hostId hwUuid hostData vars g =
        { finalReportValid := false
          finalTrustReport := { vars.finalTrustReport with
            Results := vars.finalTrustReport.Results ++
              (fgCreated env hostId hwUuid hostData vars g).1.Results }
          world :=
            { state := (fgCreated env hostId hwUuid hostData vars g).2.2
              calls := (fgValidated env hostId hwUuid hostData vars g).2.calls ++
                [Call.createFlavorGroupReport hostId (fgTrustReqs env hostId hwUuid vars g)
                  (fgTrustCache env hostId hwUuid hostData vars g)] } } := by
      unfold verifyGroup
      rw [if_pos hlen]
      simp [hmeets]
    refine ⟨hvalid (by rw [hg]), ?_, ⟨more, ?_⟩⟩
    · rw [hextra, hg]
      simp
    · rw [hmore, hg]
  · intro hnil
    unfold verifyGroup
    simp [hnil]

/-- After the manifest checks and a successful search, the trace of `Verify` extends the
trace of its loop. -/
theorem Verify_calls_extend {σ ρ : Type} (env : Env σ ρ) (hostId hwUuid : UUID)
    (hostData : HostManifest) (newData : Bool) (w : World σ ρ) (flvGroups : List FlavorGroup)
    (hparse : env.uuidParse hostData.HostInfo.HardwareUUID = .ok hwUuid)
    (hnz : hwUuid ≠ uuidNil)
    (hsearch : env.flavorGroupSearch hostId w.state = .ok flvGroups) :
    ∃ extra, (Verify env hostId (some hostData) newData w).2.calls =
      (verifyLoop env hostId hwUuid hostData flvGroups
        (w.record (Call.flavorGroupSearch hostId))).world.calls ++ extra := by
  simp only [Verify, hparse, hnz, hsearch, if_false]
  split
  · simp only [storeTrustReport, World.record, List.append_assoc]
    exact ⟨_, rfl⟩
  · exact ⟨[], by simp⟩

/-- C5 (amended): let `Verify` pass the manifest checks and let the search return the groups
`pre ++ g :: post`. If at least one cached flavor of `g` is retrieved and the trusted flavors
remaining in `g`'s cache do not meet `g`'s trust requirements, then `Verify` invokes
`createFlavorGroupReport` for `g`, appends the rule results it returns to the final report,
and ends its loop with `finalReportValid = false`. If no cached flavor of `g` is retrieved,
the iteration for `g` leaves `finalReportValid` and the final report as they are and invokes
nothing after reading the cache. -/
theorem Verify_unmet_group {σ ρ : Type} (env : Env σ ρ) (hostId hwUuid : UUID)
    (hostData : HostManifest) (newData : Bool) (w : World σ ρ)
    (pre post : List FlavorGroup) (g : FlavorGroup)
    (hparse : env.uuidParse hostData.HostInfo.HardwareUUID = .ok hwUuid)
    (hnz : hwUuid ≠ uuidNil)
    (hsearch : env.flavorGroupSearch hostId w.state = .ok (pre ++ g :: post)) :
    (fgCachedFlavors env hostId hwUuid
        (verifyLoop env hostId hwUuid hostData pre (w.record (Call.flavorGroupSearch hostId))) g
        ≠ [] →
      env.MeetsFlavorGroupReqs
        (fgTrustReqs env hostId hwUuid
          (verifyLoop env hostId hwUuid hostData pre (w.record (Call.flavorGroupSearch hostId))) g)
        (fgTrustCache env hostId hwUuid hostData
          (verifyLoop env hostId hwUuid hostData pre (w.record (Call.flavorGroupSearch hostId))) g)
        = false →
      (verifyLoop env hostId hwUuid hostData (pre ++ g :: post)
        (w.record (Call.flavorGroupSearch hostId))).finalReportValid = false ∧
      Call.createFlavorGroupReport hostId
          (fgTrustReqs env hostId hwUuid
            (verifyLoop env hostId hwUuid hostData pre (w.record (Call.flavorGroupSearch hostId))) g)
          (fgTrustCache env hostId hwUuid hostData
            (verifyLoop env hostId hwUuid hostData pre (w.record (Call.flavorGroupSearch hostId))) g)
        ∈ (Verify env hostId (some hostData) newData w).2.calls ∧
      ∃ later,
        (verifyLoop env hostId hwUuid hostData (pre ++ g :: post)
          (w.record (Call.flavorGroupSearch hostId))).finalTrustReport.Results =
          (verifyLoop env hostId hwUuid hostData pre
            (w.record (Call.flavorGroupSearch hostId))).finalTrustReport.Results ++
          (fgCreated env hostId hwUuid hostData
            (verifyLoop env hostId hwUuid hostData pre
              (w.record (Call.flavorGroupSearch hostId))) g).1.Results ++ later) ∧
    (fgCachedFlavors env hostId hwUuid
        (verifyLoop env hostId hwUuid hostData pre (w.record (Call.flavorGroupSearch hostId))) g
        = [] →
      verifyLoop env hostId hwUuid hostData (pre ++ [g])
          (w.record (Call.flavorGroupSearch hostId)) =
        { verifyLoop env hostId hwUuid hostData pre (w.record (Call.flavorGroupSearch hostId)) with
          world := (fgCached env hostId hwUuid
            (verifyLoop env hostId hwUuid hostData pre
              (w.record (Call.flavorGroupSearch hostId))) g).2 }) := by
  obtain ⟨hmain, hskip⟩ := verifyLoop_unmet_group env hostId hwUuid hostData pre post g
    (w.record (Call.flavorGroupSearch hostId))
  obtain ⟨extra, hextra⟩ := Verify_calls_extend env hostId hwUuid hostData newData w
    (pre ++ g :: post) hparse hnz hsearch
  refine ⟨?_, hskip⟩
  intro hne hmeets
  obtain ⟨h1, h2, h3⟩ := hmain hne hmeets
  refine ⟨h1, ?_, h3⟩
  rw [hextra]
  exact List.mem_append_left _ h2

/-- Witness of C5 (amended): host 1 with the untrusted flavor 8 cached for group 10. -/
theorem Verify_unmet_group_witness :
    fgCachedFlavors exEnv 1 5
        (verifyLoop exEnv 1 5 exManifest []
          ((⟨exStore [(1, 10, 8)], []⟩ : World MemStore MemReqs).record (Call.flavorGroupSearch 1)))
        exGroup ≠ [] ∧
    (verifyLoop exEnv 1 5 exManifest ([] ++ exGroup :: [])
      ((⟨exStore [(1, 10, 8)], []⟩ : World MemStore MemReqs).record
        (Call.flavorGroupSearch 1))).finalReportValid = false ∧
    Call.createFlavorGroupReport 1
        (fgTrustReqs exEnv 1 5
          (verifyLoop exEnv 1 5 exManifest []
            ((⟨exStore [(1, 10, 8)], []⟩ : World MemStore MemReqs).record
              (Call.flavorGroupSearch 1))) exGroup)
        (fgTrustCache exEnv 1 5 exManifest
          (verifyLoop exEnv 1 5 exManifest []
            ((⟨exStore [(1, 10, 8)], []⟩ : World MemStore MemReqs).record
              (Call.flavorGroupSearch 1))) exGroup)
      ∈ (Verify exEnv 1 (some exManifest) false ⟨exStore [(1, 10, 8)], []⟩).2.calls :=
  ⟨by decide,
    ((Verify_unmet_group exEnv 1 5 exManifest false ⟨exStore [(1, 10, 8)], []⟩ [] [] exGroup
      rfl (by decide) rfl).1 (by decide) (by decide)).1,
    ((Verify_unmet_group exEnv 1 5 exManifest false ⟨exStore [(1, 10, 8)], []⟩ [] [] exGroup
      rfl (by decide) rfl).1 (by decide) (by decide)).2.1⟩

/-- Counterexample to C5 as stated: host 1 belongs to group 10 and has no flavor cached for
it; the empty set of trusted flavors does not meet the group's requirements, yet `Verify`
does not invoke `createFlavorGroupReport`, adds no result, and keeps `finalReportValid`
true. -/
theorem Verify_skips_group_with_empty_cache :
    exEnv.flavorGroupSearch 1 (exStore []) = .ok [exGroup] ∧
    exEnv.RetrieveTrustCacheFlavors 1 10 (exStore []) = .ok [] ∧
    exEnv.MeetsFlavorGroupReqs ⟨exGroup, 1⟩ ⟨1, [], TrustReport.zero⟩ = false ∧
    (verifyLoop exEnv 1 5 exManifest [exGroup]
      ((⟨exStore [], []⟩ : World MemStore MemReqs).record
        (Call.flavorGroupSearch 1))).finalReportValid = true ∧
    (verifyLoop exEnv 1 5 exManifest [exGroup]
      ((⟨exStore [], []⟩ : World MemStore MemReqs).record
        (Call.flavorGroupSearch 1))).finalTrustReport.Results = [] ∧
    (Verify exEnv 1 (some exManifest) true
      ⟨exStore [], []⟩).2.calls.countP Call.isCreateFlavorGroupReport = 0 := by
  decide

/-- C6 (amended): if the flavor-group `Search` fails, `Verify` returns a non-nil error (the
store access error), invokes no other operation, and leaves the store state as it was, so no
report is persisted. -/
theorem Verify_search_error {σ ρ : Type} (env : Env σ ρ) (hostId hwUuid : UUID)
    (hostData : HostManifest) (newData : Bool) (w : World σ ρ) (e : GoError)
    (hparse : env.uuidParse hostData.HostInfo.HardwareUUID = .ok hwUuid)
    (hnz : hwUuid ≠ uuidNil)
    (hsearch : env.flavorGroupSearch hostId w.state = .error e) :
    Verify env hostId (some hostData) newData w =
      (some ErrStoreAccess,
        { state := w.state, calls := w.calls ++ [Call.flavorGroupSearch hostId] }) := by
  simp [Verify, hparse, hnz, hsearch, World.record]

/-- Witness of C6 (amended): the in-memory flavor-group store fails. -/
theorem Verify_search_error_witness :
    Verify exEnv 1 (some exManifest) true
        ⟨{ exStore [(1, 10, 7)] with failSearch := true }, []⟩ =
      (some ErrStoreAccess,
        { state := { exStore [(1, 10, 7)] with failSearch := true }
          calls := [] ++ [Call.flavorGroupSearch 1] }) :=
  Verify_search_error exEnv 1 5 exManifest true
    ⟨{ exStore [(1, 10, 7)] with failSearch := true }, []⟩ "flavor group store unavailable"
    rfl (by decide) rfl

/-- Counterexample to C6 as stated: with new data for host 1, a failing
`RetrieveTrustCacheFlavors`, a failing `RemoveTrustCacheFlavors` and a failing
`reportStore.Create` each leave `Verify` returning nil; in the first two cases a report is
persisted as well. -/
theorem Verify_ignores_store_errors :
    ((exEnv.RetrieveTrustCacheFlavors 1 10
          { exStore [(1, 10, 7)] with failRetrieveCache := true } = .error "host store unavailable" ∧
        Call.RetrieveTrustCacheFlavors 1 10 ∈
          (Verify exEnv 1 (some exManifest) true
            ⟨{ exStore [(1, 10, 7)] with failRetrieveCache := true }, []⟩).2.calls) ∧
      (Verify exEnv 1 (some exManifest) true
        ⟨{ exStore [(1, 10, 7)] with failRetrieveCache := true }, []⟩).1 = none ∧
      (Verify exEnv 1 (some exManifest) true
        ⟨{ exStore [(1, 10, 7)] with failRetrieveCache := true }, []⟩).2.state.reports.length = 1) ∧
    (((exEnv.RemoveTrustCacheFlavors 1 [8]
          { exStore [(1, 10, 8)] with failRemove := true }).1 = some "host store unavailable" ∧
        Call.RemoveTrustCacheFlavors 1 [8] ∈
          (Verify exEnv 1 (some exManifest) true
            ⟨{ exStore [(1, 10, 8)] with failRemove := true }, []⟩).2.calls) ∧
      (Verify exEnv 1 (some exManifest) true
        ⟨{ exStore [(1, 10, 8)] with failRemove := true }, []⟩).1 = none ∧
      (Verify exEnv 1 (some exManifest) true
        ⟨{ exStore [(1, 10, 8)] with failRemove := true }, []⟩).2.state.reports.length = 1) ∧
    (((exEnv.reportCreate ⟨1, ⟨"", [exResultA], false, exManifest⟩, 0, 1, "saml"⟩
          { exStore [(1, 10, 7)] with failCreate := true }).1 = some "report store unavailable" ∧
        Call.reportCreate ⟨1, ⟨"", [exResultA], false, exManifest⟩, 0, 1, "saml"⟩ ∈
          (Verify exEnv 1 (some exManifest) true
            ⟨{ exStore [(1, 10, 7)] with failCreate := true }, []⟩).2.calls) ∧
      (Verify exEnv 1 (some exManifest) true
        ⟨{ exStore [(1, 10, 7)] with failCreate := true }, []⟩).1 = none) := by
  decide

/-- The two calls `getCachedFlavors` and `validateCachedFlavors` for a group `g` whose cached
IDs are `flIds`, when the flavor verifier fails on no retrieved flavor: the flavors handed to
validation are those whose `flavorStore.Retrieve` succeeds, `getCachedFlavors` changes no
store state, and the `RemoveTrustCacheFlavors` call of the validation removes exactly the
`Meta.ID`s of retrieved flavors whose verification report is not Trusted. -/
theorem fgValidated_removes_untrusted {σ ρ : Type} (env : Env σ ρ)
    (hostId hwUuid : UUID) (hostData : HostManifest) (vars : VerifyVars σ ρ) (g : FlavorGroup)
    (flIds : List UUID)
    (hIds : env.RetrieveTrustCacheFlavors hostId g.ID vars.world.state = .ok flIds)
    (hver : ∀ f ∈ retrievedFlavors env flIds vars.world.state,
      ∃ rep, env.flavorVerify hostData f true = .ok rep) :
    fgCachedFlavors env hostId hwUuid vars g = retrievedFlavors env flIds vars.world.state ∧
    (fgCached env hostId hwUuid vars g).2.state = vars.world.state ∧
    (fgValidated env hostId hwUuid hostData vars g).2.state =
      (env.RemoveTrustCacheFlavors hostId
        (((retrievedFlavors env flIds vars.world.state).filter
          (fun f => !reportTrusted env hostData f)).map (fun f => f.Flavor.Meta.ID))
        vars.world.state).2 ∧
    (fgValidated env hostId hwUuid hostData vars g).2.calls =
      vars.world.calls ++ [Call.NewFlvGrpHostTrustReqs hostId hwUuid g] ++
        [Call.RetrieveTrustCacheFlavors hostId g.ID] ++ flIds.map Call.flavorRetrieve ++
        (retrievedFlavors env flIds vars.world.state).map Call.flavorVerify ++
        [Call.RemoveTrustCacheFlavors hostId
          (((retrievedFlavors env flIds vars.world.state).filter
            (fun f => !reportTrusted env hostData f)).map (fun f => f.Flavor.Meta.ID))] ∧
    ∀ id ∈ ((retrievedFlavors env flIds vars.world.state).filter
        (fun f => !reportTrusted env hostData f)).map (fun f => f.Flavor.Meta.ID),
      ∃ flvId ∈ flIds, ∃ f, env.flavorRetrieve flvId vars.world.state = .ok f ∧
        f.Flavor.Meta.ID = id ∧ reportTrusted env hostData f = false := by
  have hc : fgCached env hostId hwUuid vars g =
      (.ok (retrievedFlavors env flIds vars.world.state),
        { state := vars.world.state
          calls := vars.world.calls ++ [Call.NewFlvGrpHostTrustReqs hostId hwUuid g] ++
            [Call.RetrieveTrustCacheFlavors hostId g.ID] ++ flIds.map Call.flavorRetrieve }) := by
    unfold fgCached
    rw [getCachedFlavors_ok env hostId g.ID _ flIds (by simpa [World.record] using hIds)]
    simp [World.record]
  have hcf : fgCachedFlavors env hostId hwUuid vars g
      = retrievedFlavors env flIds vars.world.state := by
    simp [fgCachedFlavors, hc, sliceOrNil]
  have hv := validateCachedFlavors_ok env hostId hostData
    (retrievedFlavors env flIds vars.world.state) (fgCached env hostId hwUuid vars g).2 hver
  rw [← hcf] at hv
  change fgValidated env hostId hwUuid hostData vars g = _ at hv
  rw [hcf, hc] at hv
  refine ⟨hcf, by rw [hc], by rw [hv], by rw [hv], ?_⟩
  intro id hid
  obtain ⟨f, hf, rfl⟩ := List.mem_map.mp hid
  obtain ⟨hfr, hft⟩ := List.mem_filter.mp hf
  unfold retrievedFlavors at hfr
  obtain ⟨flvId, hmem, hopt⟩ := List.mem_filterMap.mp hfr
  refine ⟨flvId, hmem, f, ?_, rfl, by simpa using hft⟩
  cases hr : env.flavorRetrieve flvId vars.world.state with
  | error e => simp [hr, Except.toOption] at hopt
  | ok f2 =>
    simp [hr, Except.toOption] at hopt
    rw [hopt]

/-- Counterexample to C7 as stated: host 1 has the ID 9 cached for group 10 and the flavor
store holds no flavor 9; after `Verify` returns, 9 is still in the trust cache of (1, 10) and
still not retrievable. -/
theorem Verify_keeps_unretrievable_cached_id :
    exEnv.flavorGroupSearch 1 (exStore [(1, 10, 9)]) = .ok [exGroup] ∧
    (Verify exEnv 1 (some exManifest) true ⟨exStore [(1, 10, 9)], []⟩).1 = none ∧
    exEnv.RetrieveTrustCacheFlavors 1 10
      (Verify exEnv 1 (some exManifest) true ⟨exStore [(1, 10, 9)], []⟩).2.state = .ok [9] ∧
    exEnv.flavorRetrieve 9
      (Verify exEnv 1 (some exManifest) true ⟨exStore [(1, 10, 9)], []⟩).2.state
      = .error "record not found" := by
  decide

/-! ## Theorems: privacy-CA identity protocol -/

/-- The directory block only extends the trace. -/
theorem mkdirIfNotExist_calls {σ : Type} (env : PcaEnv σ) (dir : String) (perm : Nat)
    (message : String) (w : PcaWorld σ) :
    ∃ extra, (mkdirIfNotExist env dir perm message w).2.calls = w.calls ++ extra := by
  unfold mkdirIfNotExist
  cases h1 : env.Stat dir w.state with
  | none => exact ⟨[], by simp⟩
  | some err =>
    cases h2 : env.IsNotExist err with
    | false => exact ⟨[], by simp [h2]⟩
    | true =>
      cases h3 : (env.MkdirAll dir perm w.state).1 with
      | none => exact ⟨[PcaCall.MkdirAll dir perm], by simp [h2, h3]⟩
      | some e => exact ⟨[PcaCall.MkdirAll dir perm], by simp [h2, h3]⟩

/-- The function `StoreEkCerts` only extends the trace. -/
theorem StoreEkCerts_calls {σ : Type} (env : PcaEnv σ) (c : CertifyHostAiksController)
    (nonce der : Bytes) (payload : IdentityChallengePayload) (w : PcaWorld σ) :
    ∃ extra, (StoreEkCerts env c nonce der payload w).2.calls = w.calls ++ extra := by
  obtain ⟨e0, h0⟩ := mkdirIfNotExist_calls env c.PcaStore.aikRequestsDirPath 0o700
    "controllers/certify_host_aiks_controller:StoreEkCerts() could not create directory " w
  unfold StoreEkCerts
  simp only []
  generalize mkdirIfNotExist env c.PcaStore.aikRequestsDirPath 0o700
    "controllers/certify_host_aiks_controller:StoreEkCerts() could not create directory " w = mk at *
  cases hm : mk.1 with
  | some e => exact ⟨_, h0⟩
  | none =>
    simp only []
    cases hw1 : (env.WriteFile (c.PcaStore.aikRequestsDirPath ++ hexEncodeToString nonce)
      payload.IdentityRequest.AikModulus 0o400 mk.2.state).1 with
    | some e => simp only [h0, List.append_assoc]; exact ⟨_, rfl⟩
    | none =>
      simp only []
      cases hw2 : (env.WriteFile (c.PcaStore.aikRequestsDirPath ++ (hexEncodeToString nonce ++ ".opt"))
        payload.IdentityRequest.AikName 0o400
        (env.WriteFile (c.PcaStore.aikRequestsDirPath ++ hexEncodeToString nonce)
          payload.IdentityRequest.AikModulus 0o400 mk.2.state).2).1 with
      | some e => simp only [h0, List.append_assoc]; exact ⟨_, rfl⟩
      | none =>
        simp only []
        split <;> (simp only [h0, List.append_assoc]; exact ⟨_, rfl⟩)

/-- Round 1 when the EK certificate is refused: the security log entry is written, nothing
else happens, and the function returns the empty proof request with status 400 and the
result of wrapping the nil error, which is nil. -/
theorem getIdentityProofRequest_untrusted {σ : Type} (env : PcaEnv σ)
    (c : CertifyHostAiksController) (payload : IdentityChallengePayload) (w : PcaWorld σ)
    (key : PrivateKey) (der : Bytes) (ekCert : Certificate) (pool : List Certificate)
    (hkey : env.GetPrivateKeyFromPKCS8File c.PcaStore.keyPath w.state = .ok key)
    (hca : env.NewPrivacyCA payload.IdentityRequest = none)
    (hek : env.GetEkCert payload key = .ok der)
    (hparse : env.ParseCertificate der = .ok ekCert)
    (hpool : env.GetSubjectCertsMapFromPemFile c.PcaStore.eCACertPath w.state = .ok pool)
    (hun : ekUntrusted env ekCert pool w.state = true) :
    getIdentityProofRequest env c payload w =
      ((IdentityProofRequest.zero, StatusBadRequest, none),
        { state := w.state
          calls := w.calls ++ [PcaCall.secLog (ecNotTrustedLog env.EndorsementCACertFile)] }) := by
  simp [getIdentityProofRequest, hkey, hca, hek, hparse, hpool, hun, errorsWrap,
    PcaWorld.record]

/-- Round 1 when the EK certificate is accepted: the next effect is the generation of the 32
random bytes of the challenge. -/
theorem getIdentityProofRequest_trusted {σ : Type} (env : PcaEnv σ)
    (c : CertifyHostAiksController) (payload : IdentityChallengePayload) (w : PcaWorld σ)
    (key : PrivateKey) (der : Bytes) (ekCert : Certificate) (pool : List Certificate)
    (hkey : env.GetPrivateKeyFromPKCS8File c.PcaStore.keyPath w.state = .ok key)
    (hca : env.NewPrivacyCA payload.IdentityRequest = none)
    (hek : env.GetEkCert payload key = .ok der)
    (hparse : env.ParseCertificate der = .ok ekCert)
    (hpool : env.GetSubjectCertsMapFromPemFile c.PcaStore.eCACertPath w.state = .ok pool)
    (htr : ekUntrusted env ekCert pool w.state = false) :
    ∃ rest, (getIdentityProofRequest env c payload w).2.calls =
      w.calls ++ PcaCall.GetRandomBytes 32 :: rest := by
  unfold getIdentityProofRequest
  simp only [hkey, hca, hek, hparse, hpool, htr, Bool.false_eq_true, if_false]
  cases hr : (env.GetRandomBytes 32 w.state).1 with
  | error e => exact ⟨[], by simp⟩
  | ok nonce =>
    simp only []
    obtain ⟨e1, h1⟩ := StoreEkCerts_calls env c nonce der payload
      { state := (env.GetRandomBytes 32 w.state).2, calls := w.calls ++ [PcaCall.GetRandomBytes 32] }
    cases hs : (StoreEkCerts env c nonce der payload
      { state := (env.GetRandomBytes 32 w.state).2,
        calls := w.calls ++ [PcaCall.GetRandomBytes 32] }).1 with
    | some e => exact ⟨e1, by simp [h1]⟩
    | none =>
      simp only []
      split <;>
        exact ⟨e1 ++ [PcaCall.ProcessIdentityRequest payload.IdentityRequest ekCert.PublicKey nonce],
          by simp [h1]⟩

/-- C8: in round 1, once the EK certificate has been obtained and the endorsement pool read,
the certificate is treated as untrusted (the security log entry is written and the round
returns with status 400 and no further effect) if and only if all three checks fail: the
name-matched authority does not verify it, no certificate of the pool verifies it, and it is
not registered in the EK store; whenever one check succeeds, the next effect of the round is
the generation of the 32-byte challenge nonce. -/
theorem getIdentityProofRequest_untrusted_iff {σ : Type} (env : PcaEnv σ)
    (c : CertifyHostAiksController) (payload : IdentityChallengePayload) (w : PcaWorld σ)
    (key : PrivateKey) (der : Bytes) (ekCert : Certificate) (pool : List Certificate)
    (hkey : env.GetPrivateKeyFromPKCS8File c.PcaStore.keyPath w.state = .ok key)
    (hca : env.NewPrivacyCA payload.IdentityRequest = none)
    (hek : env.GetEkCert payload key = .ok der)
    (hparse : env.ParseCertificate der = .ok ekCert)
    (hpool : env.GetSubjectCertsMapFromPemFile c.PcaStore.eCACertPath w.state = .ok pool) :
    (((getIdentityProofRequest env c payload w).2 =
          { state := w.state
            calls := w.calls ++ [PcaCall.secLog (ecNotTrustedLog env.EndorsementCACertFile)] } ∧
        (getIdentityProofRequest env c payload w).1.2.1 = StatusBadRequest) ↔
      (isEkCertificateVerifiedByAuthority env ekCert (endorsementCertsToVerify ekCert pool) = false ∧
        isEkCertificateVerifiedByAnyAuthority env ekCert pool = false ∧
        isEkCertRegistered env ekCert w.state = false)) ∧
    ((isEkCertificateVerifiedByAuthority env ekCert (endorsementCertsToVerify ekCert pool) = true ∨
        isEkCertificateVerifiedByAnyAuthority env ekCert pool = true ∨
        isEkCertRegistered env ekCert w.state = true) →
      ∃ rest, (getIdentityProofRequest env c payload w).2.calls =
        w.calls ++ PcaCall.GetRandomBytes 32 :: rest) := by
  have hiff : ekUntrusted env ekCert pool w.state = true ↔
      (isEkCertificateVerifiedByAuthority env ekCert (endorsementCertsToVerify ekCert pool) = false ∧
        isEkCertificateVerifiedByAnyAuthority env ekCert pool = false ∧
        isEkCertRegistered env ekCert w.state = false) := by
    simp [ekUntrusted, and_assoc]
  constructor
  · constructor
    · intro hleft
      by_contra hnot
      have htr : ekUntrusted env ekCert pool w.state = false := by
        cases hu : ekUntrusted env ekCert pool w.state with
        | false => rfl
        | true => exact absurd (hiff.mp hu) hnot
      obtain ⟨rest, hrest⟩ :=
        getIdentityProofRequest_trusted env c payload w key der ekCert pool hkey hca hek hparse
          hpool htr
      have hcalls := congrArg PcaWorld.calls hleft.1
      rw [hrest] at hcalls
      have := List.append_cancel_left hcalls
      simp at this
    · intro hall
      rw [getIdentityProofRequest_untrusted env c payload w key der ekCert pool hkey hca hek
        hparse hpool (hiff.mpr hall)]
      exact ⟨rfl, rfl⟩
  · intro hone
    have htr : ekUntrusted env ekCert pool w.state = false := by
      cases hu : ekUntrusted env ekCert pool w.state with
      | false => rfl
      | true =>
        obtain ⟨h1, h2, h3⟩ := hiff.mp hu
        rcases hone with h | h | h <;> simp_all
    exact getIdentityProofRequest_trusted env c payload w key der ekCert pool hkey hca hek
      hparse hpool htr

/-- Witness of C8: the example EK certificate is verified by the pool, and round 1 goes on to
generate the nonce. -/
theorem getIdentityProofRequest_untrusted_iff_witness :
    isEkCertificateVerifiedByAnyAuthority exPcaEnv exEkCert [exAuthority] = true ∧
    ∃ rest, (getIdentityProofRequest exPcaEnv exController exPayload1
        ⟨exSys [exAuthority] [], []⟩).2.calls = [] ++ PcaCall.GetRandomBytes 32 :: rest :=
  ⟨by decide,
    (getIdentityProofRequest_untrusted_iff exPcaEnv exController exPayload1
      ⟨exSys [exAuthority] [], []⟩ [9] [5, 5] exEkCert [exAuthority] rfl rfl rfl rfl rfl).2
      (Or.inr (Or.inl (by decide)))⟩

/-- C9 (the code at the failing input): with an empty endorsement pool and an empty EK
registry all three checks refuse the example EK certificate; `getIdentityProofRequest` writes
the security log entry, generates no nonce and writes no file, and returns status 400 with
the empty proof request and the nil error; `IdentityRequestGetChallenge` then returns that
empty proof request with status 400 and the nil error. -/
theorem untrusted_ek_round1_returns_nil_error :
    ekUntrusted exPcaEnv exEkCert [] (exSys [] []) = true ∧
    (getIdentityProofRequest exPcaEnv exController exPayload1 ⟨exSys [] [], []⟩).1
      = (IdentityProofRequest.zero, StatusBadRequest, none) ∧
    (getIdentityProofRequest exPcaEnv exController exPayload1 ⟨exSys [] [], []⟩).2.calls
      = [PcaCall.secLog (ecNotTrustedLog exPcaEnv.EndorsementCACertFile)] ∧
    (getIdentityProofRequest exPcaEnv exController exPayload1 ⟨exSys [] [], []⟩).2.state
      = exSys [] [] ∧
    (IdentityRequestGetChallenge exPcaEnv exController (.ok [0]) ⟨exSys [] [], []⟩).1
      = (some IdentityProofRequest.zero, StatusBadRequest, none) :=
  ⟨by decide, by decide, rfl, by decide, by decide⟩

/-- The function `CertifyAik` only extends the trace. -/
theorem CertifyAik_calls {σ : Type} (env : PcaEnv σ) (aikPubKey : rsaPublicKey) (aikName : Bytes)
    (privacycaKey : PrivateKey) (privacycaCert : Certificate) (validity : Int) (w : PcaWorld σ) :
    ∃ extra, (CertifyAik env aikPubKey aikName privacycaKey privacycaCert validity w).2.calls
      = w.calls ++ extra := by
  unfold CertifyAik
  simp only []
  cases h1 : (env.randInt (1 <<< 128) w.state).1 with
  | error e => exact ⟨[], by simp⟩
  | ok serial =>
    simp only []
    split <;> exact ⟨_, rfl⟩

/-- The function `GetEkCerts` on a complete challenge record: the second result is the content of the
`.opt` file and the third the content of the file named by the challenge. -/
theorem GetEkCerts_reads {σ : Type} (env : PcaEnv σ) (c : CertifyHostAiksController)
    (nonce : Bytes) (s : σ) (der optContent challengeContent : Bytes) (ekx : Certificate)
    (hstat : env.Stat (c.PcaStore.aikRequestsDirPath ++ hexEncodeToString nonce) s = none)
    (hek : env.ReadFile (c.PcaStore.aikRequestsDirPath ++ hexEncodeToString nonce ++ ".ekcert") s
      = .ok der)
    (hparse : env.ParseCertificate der = .ok ekx)
    (hch : env.ReadFile (c.PcaStore.aikRequestsDirPath ++ hexEncodeToString nonce) s
      = .ok challengeContent)
    (hopt : env.ReadFile (c.PcaStore.aikRequestsDirPath ++ hexEncodeToString nonce ++ ".opt") s
      = .ok optContent) :
    GetEkCerts env c nonce s = .ok (ekx, optContent, challengeContent) := by
  simp [GetEkCerts, hstat, hek, hparse, hch, hopt]

/-- Round 2 on a complete challenge record whose file named by the nonce holds `M` and whose
`.opt` file holds `A`: `CertifyAik` is called with the key N = value of `A`, E = 65537 and
with `M` as `aikName`. -/
theorem getIdentityProofRequestResponse_certifies {σ : Type} (env : PcaEnv σ)
    (c : CertifyHostAiksController) (payload : IdentityChallengePayload) (w : PcaWorld σ)
    (key : PrivateKey) (pcaCert ekx : Certificate) (nonce der M A : Bytes)
    (hkey : env.GetPrivateKeyFromPKCS8File c.PcaStore.keyPath w.state = .ok key)
    (hcert : env.GetCertFromPemFile c.PcaStore.certPath w.state = .ok pcaCert)
    (hca : env.NewPrivacyCA payload.IdentityRequest = none)
    (hdec : env.GetEkCert payload key = .ok nonce)
    (hdir : env.Stat c.PcaStore.aikRequestsDirPath w.state = none)
    (hstat : env.Stat (c.PcaStore.aikRequestsDirPath ++ hexEncodeToString nonce) w.state = none)
    (hek : env.ReadFile (c.PcaStore.aikRequestsDirPath ++ hexEncodeToString nonce ++ ".ekcert")
      w.state = .ok der)
    (hparse : env.ParseCertificate der = .ok ekx)
    (hch : env.ReadFile (c.PcaStore.aikRequestsDirPath ++ hexEncodeToString nonce) w.state = .ok M)
    (hopt : env.ReadFile (c.PcaStore.aikRequestsDirPath ++ hexEncodeToString nonce ++ ".opt")
      w.state = .ok A) :
    ∃ rest, (getIdentityProofRequestResponse env c payload w).2.calls =
      w.calls ++ PcaCall.CertifyAik ⟨bigIntSetBytes A, 65537⟩ M env.AIKCertValidity :: rest := by
  have hg := GetEkCerts_reads env c nonce w.state der A M ekx hstat hek hparse hch hopt
  have hmk : mkdirIfNotExist env c.PcaStore.aikRequestsDirPath 0o600
      "controllers/certify_host_aiks_controller:getIdentityProofRequestResponse() could not create directory "
      w = (none, w) := by
    simp [mkdirIfNotExist, hdir]
  obtain ⟨e1, h1⟩ := CertifyAik_calls env ⟨bigIntSetBytes A, 65537⟩ M key pcaCert
    env.AIKCertValidity
    (w.record (PcaCall.CertifyAik ⟨bigIntSetBytes A, 65537⟩ M env.AIKCertValidity))
  unfold getIdentityProofRequestResponse
  simp only [hkey, hcert, hca, hdec, hmk, hg]
  simp only [PcaWorld.record] at h1 ⊢
  split
  · exact ⟨e1, by rw [h1]; simp⟩
  · rename_i aikCert _
    split <;>
      exact ⟨e1 ++ [PcaCall.ProcessIdentityRequest payload.IdentityRequest ekx.PublicKey aikCert],
        by rw [h1]; simp⟩

/-- C10 (the code at the failing input): round 1 for the example host writes the AIK modulus
bytes 1 2 under the nonce's name and the AIK name bytes 3 under the `.opt` name; round 2 for
that nonce calls `CertifyAik` with the public key N = 3 (the big-endian value of the AIK
name), E = 65537, and with the bytes 1 2 (the modulus, of value 258) as `aikName`. -/
theorem round2_certifies_swapped_record :
    (getIdentityProofRequest exPcaEnv exController exPayload1
      ⟨exSys [exAuthority] [], []⟩).1.2 = (StatusOK, none) ∧
    MemSys.readFile "/aik/ab"
      (getIdentityProofRequest exPcaEnv exController exPayload1
        ⟨exSys [exAuthority] [], []⟩).2.state = .ok [1, 2] ∧
    MemSys.readFile "/aik/ab.opt"
      (getIdentityProofRequest exPcaEnv exController exPayload1
        ⟨exSys [exAuthority] [], []⟩).2.state = .ok [3] ∧
    (getIdentityProofRequestResponse exPcaEnv exController exPayload2
      ⟨(getIdentityProofRequest exPcaEnv exController exPayload1
        ⟨exSys [exAuthority] [], []⟩).2.state, []⟩).1.2 = (StatusOK, none) ∧
    (getIdentityProofRequestResponse exPcaEnv exController exPayload2
      ⟨(getIdentityProofRequest exPcaEnv exController exPayload1
        ⟨exSys [exAuthority] [], []⟩).2.state, []⟩).2.calls.head?
      = some (PcaCall.CertifyAik ⟨3, 65537⟩ [1, 2] 1) ∧
    bigIntSetBytes [1, 2] = 258 ∧ bigIntSetBytes [3] = 3 := by
  decide

/-! ## Theorems: adding results to a trust report -/

/-- For a result that `CheckResultExists` can find again, the loop over a list ending with the
result itself returns true. -/
theorem checkResultLoop_append_self (names : RuleNames) (r : RuleResult) (l : List RuleResult)
    (hpcr : names.isPcrRule r.Rule.Name = true → r.Rule.ExpectedPcr ≠ none)
    (hfaults : names.isPcrRule r.Rule.Name = false → r.Faults = []) :
    checkResultLoop names r (l ++ [r]) = true := by
  induction l with
  | nil =>
    simp only [List.nil_append, checkResultLoop, RuleResult.equals]
    cases hp : names.isPcrRule r.Rule.Name with
    | true =>
      cases hx : r.Rule.ExpectedPcr with
      | none => exact absurd hx (hpcr hp)
      | some pcr => simp
    | false => simp [hfaults hp]
  | cons e rest ih =>
    simp only [List.cons_append, checkResultLoop]
    split
    · rename_i heq
      have hname : e.Rule.Name = r.Rule.Name := by
        simp only [RuleResult.equals] at heq
        split at heq
        · rename_i h
          simp only [Bool.and_eq_true, beq_iff_eq] at h
          exact h.1
        · simp at heq
      rw [hname]
      cases hp : names.isPcrRule r.Rule.Name with
      | true =>
        cases hx : r.Rule.ExpectedPcr with
        | none => exact absurd hx (hpcr hp)
        | some pcr =>
          simp only [if_true]
          split
          · rfl
          · exact ih
      | false => simp [hfaults hp]
    · exact ih

/-- For a result without expected PCR and with a fault, the loop of `CheckResultExists` returns
false on every list. -/
theorem checkResultLoop_unfindable (names : RuleNames) (r : RuleResult) (l : List RuleResult)
    (h : (names.isPcrRule r.Rule.Name = true ∧ r.Rule.ExpectedPcr = none) ∨
      (names.isPcrRule r.Rule.Name = false ∧ r.Faults ≠ [])) :
    checkResultLoop names r l = false := by
  induction l with
  | nil => rfl
  | cons e rest ih =>
    simp only [checkResultLoop]
    split
    · rename_i heq
      have hname : e.Rule.Name = r.Rule.Name := by
        simp only [RuleResult.equals] at heq
        split at heq
        · rename_i h
          simp only [Bool.and_eq_true, beq_iff_eq] at h
          exact h.1
        · simp at heq
      rw [hname]
      rcases h with ⟨hp, hx⟩ | ⟨hp, hf⟩
      · simp [hp, hx]
      · have : r.Faults.length > 0 := List.length_pos.mpr hf
        simp [hp, this]
    · exact ih

/-- The results carrying the first marker of `r`, after `r` has been appended to the report. -/
theorem GetResultsForMarker_append_self (t : TrustReport) (r : RuleResult) (marker : String)
    (rest : List String) (hm : r.Rule.Markers = marker :: rest) :
    TrustReport.GetResultsForMarker { t with Results := t.Results ++ [r] } marker =
      t.GetResultsForMarker marker ++ [r] := by
  simp [TrustReport.GetResultsForMarker, List.filter_append, hm, find]

/-- C20 (amended): let `r` carry at least one marker. If `r` can be found again by
`CheckResultExists` (its rule is one of the three PCR rules and it has an expected PCR, or its
rule is another one and it has no fault), calling `AddResult(r)` twice leaves the report as
one call does. Otherwise (a PCR rule without expected PCR, or another rule with a fault)
every call appends `r`: one call gives `Results ++ [r]`, two calls give
`Results ++ [r] ++ [r]`. -/
theorem AddResult_twice (names : RuleNames) (t : TrustReport) (r : RuleResult)
    (hm : r.Rule.Markers ≠ []) :
    ((names.isPcrRule r.Rule.Name = true → r.Rule.ExpectedPcr ≠ none) →
      (names.isPcrRule r.Rule.Name = false → r.Faults = []) →
      (t.AddResult names r).bind (fun t1 => t1.AddResult names r) = t.AddResult names r) ∧
    (((names.isPcrRule r.Rule.Name = true ∧ r.Rule.ExpectedPcr = none) ∨
        (names.isPcrRule r.Rule.Name = false ∧ r.Faults ≠ [])) →
      t.AddResult names r = some { t with Results := t.Results ++ [r] } ∧
      (t.AddResult names r).bind (fun t1 => t1.AddResult names r) =
        some { t with Results := t.Results ++ [r] ++ [r] }) := by
  obtain ⟨marker, rest, hmk⟩ : ∃ marker rest, r.Rule.Markers = marker :: rest := by
    cases h : r.Rule.Markers with
    | nil => exact absurd h hm
    | cons a b => exact ⟨a, b, rfl⟩
  have hcheck : ∀ t' : TrustReport, t'.CheckResultExists names r =
      some (checkResultLoop names r (t'.GetResultsForMarker marker)) := by
    intro t'
    simp [TrustReport.CheckResultExists, hmk]
  constructor
  · intro hpcr hfaults
    cases hc : checkResultLoop names r (t.GetResultsForMarker marker) with
    | true => simp [TrustReport.AddResult, hcheck, hc]
    | false =>
      have h2 := checkResultLoop_append_self names r (t.GetResultsForMarker marker) hpcr hfaults
      simp [TrustReport.AddResult, hcheck, hc, GetResultsForMarker_append_self t r marker rest hmk,
        h2]
  · intro hbad
    have h1 := checkResultLoop_unfindable names r (t.GetResultsForMarker marker) hbad
    have h2 := checkResultLoop_unfindable names r (t.GetResultsForMarker marker ++ [r]) hbad
    simp [TrustReport.AddResult, hcheck, h1, GetResultsForMarker_append_self t r marker rest hmk,
      h2]

/-- Witness of C20 (amended): a fault-free result of a rule that is no PCR rule, added twice to
the empty report, and a faulty one. -/
theorem AddResult_twice_witness :
    ((TrustReport.zero.AddResult exRuleNames
          ⟨⟨"AssetTagMatches", ["ASSET_TAG"], none⟩, 7, [], true⟩).bind
        (fun t1 => t1.AddResult exRuleNames ⟨⟨"AssetTagMatches", ["ASSET_TAG"], none⟩, 7, [], true⟩)
      = TrustReport.zero.AddResult exRuleNames
          ⟨⟨"AssetTagMatches", ["ASSET_TAG"], none⟩, 7, [], true⟩) ∧
    TrustReport.zero.AddResult exRuleNames
        ⟨⟨"AssetTagMatches", ["ASSET_TAG"], none⟩, 7, [⟨"fault", "tag"⟩], false⟩
      = some { TrustReport.zero with
          Results := TrustReport.zero.Results ++
            [⟨⟨"AssetTagMatches", ["ASSET_TAG"], none⟩, 7, [⟨"fault", "tag"⟩], false⟩] } :=
  ⟨(AddResult_twice exRuleNames TrustReport.zero
      ⟨⟨"AssetTagMatches", ["ASSET_TAG"], none⟩, 7, [], true⟩ (by decide)).1
      (by decide) (by decide),
    ((AddResult_twice exRuleNames TrustReport.zero
      ⟨⟨"AssetTagMatches", ["ASSET_TAG"], none⟩, 7, [⟨"fault", "tag"⟩], false⟩ (by decide)).2
      (Or.inr (by decide))).1⟩

/-- Counterexample to C20 as stated: a result with the marker ASSET_TAG and one fault, added
to the empty report: the first `AddResult` gives one result, the second gives two. -/
theorem AddResult_not_idempotent_with_fault :
    (TrustReport.zero.AddResult exRuleNames
        ⟨⟨"AssetTagMatches", ["ASSET_TAG"], none⟩, 7, [⟨"fault", "tag"⟩], false⟩).map
      (fun t => t.Results.length) = some 1 ∧
    ((TrustReport.zero.AddResult exRuleNames
          ⟨⟨"AssetTagMatches", ["ASSET_TAG"], none⟩, 7, [⟨"fault", "tag"⟩], false⟩).bind
        (fun t1 => t1.AddResult exRuleNames
          ⟨⟨"AssetTagMatches", ["ASSET_TAG"], none⟩, 7, [⟨"fault", "tag"⟩], false⟩)).map
      (fun t => t.Results.length) = some 2 ∧
    (TrustReport.zero.AddResult exRuleNames
          ⟨⟨"AssetTagMatches", ["ASSET_TAG"], none⟩, 7, [⟨"fault", "tag"⟩], false⟩).bind
        (fun t1 => t1.AddResult exRuleNames
          ⟨⟨"AssetTagMatches", ["ASSET_TAG"], none⟩, 7, [⟨"fault", "tag"⟩], false⟩)
      ≠ TrustReport.zero.AddResult exRuleNames
          ⟨⟨"AssetTagMatches", ["ASSET_TAG"], none⟩, 7, [⟨"fault", "tag"⟩], false⟩ := by
  decide

/-! ## Theorems: the challenge record -/

/-- Appending a non-empty string changes a string. -/
theorem append_ne_self (a b : String) (hb : b.length ≠ 0) : a ++ b ≠ a := by
  intro h
  have := congrArg String.length h
  rw [String.length_append] at this
  omega

/-- Appending strings of different lengths gives different strings. -/
theorem append_ne_append (a b c : String) (h : b.length ≠ c.length) : a ++ b ≠ a ++ c := by
  intro he
  have := congrArg String.length he
  rw [String.length_append, String.length_append] at this
  omega

/-- What a successful `StoreEkCerts` has done: the directory block and the three writes
returned no error, and the final state is the one after the third write. -/
theorem StoreEkCerts_success {σ : Type} (env : PcaEnv σ) (c : CertifyHostAiksController)
    (nonce der : Bytes) (payload : IdentityChallengePayload) (w : PcaWorld σ)
    (h : (StoreEkCerts env c nonce der payload w).1 = none) :
    ∃ s0 : σ,
      (env.WriteFile (c.PcaStore.aikRequestsDirPath ++ hexEncodeToString nonce)
        payload.IdentityRequest.AikModulus 0o400 s0).1 = none ∧
      (env.WriteFile (c.PcaStore.aikRequestsDirPath ++ (hexEncodeToString nonce ++ ".opt"))
        payload.IdentityRequest.AikName 0o400
        (env.WriteFile (c.PcaStore.aikRequestsDirPath ++ hexEncodeToString nonce)
          payload.IdentityRequest.AikModulus 0o400 s0).2).1 = none ∧
      (env.WriteFile (c.PcaStore.aikRequestsDirPath ++ (hexEncodeToString nonce ++ ".ekcert"))
        der 0o400
        (env.WriteFile (c.PcaStore.aikRequestsDirPath ++ (hexEncodeToString nonce ++ ".opt"))
          payload.IdentityRequest.AikName 0o400
          (env.WriteFile (c.PcaStore.aikRequestsDirPath ++ hexEncodeToString nonce)
            payload.IdentityRequest.AikModulus 0o400 s0).2).2).1 = none ∧
      (StoreEkCerts env c nonce der payload w).2.state =
        (env.WriteFile (c.PcaStore.aikRequestsDirPath ++ (hexEncodeToString nonce ++ ".ekcert"))
          der 0o400
          (env.WriteFile (c.PcaStore.aikRequestsDirPath ++ (hexEncodeToString nonce ++ ".opt"))
            payload.IdentityRequest.AikName 0o400
            (env.WriteFile (c.PcaStore.aikRequestsDirPath ++ hexEncodeToString nonce)
              payload.IdentityRequest.AikModulus 0o400 s0).2).2).2 := by
  unfold StoreEkCerts at h ⊢
  simp only [] at h ⊢
  generalize mkdirIfNotExist env c.PcaStore.aikRequestsDirPath 0o700
    "controllers/certify_host_aiks_controller:StoreEkCerts() could not create directory " w = mk at *
  refine ⟨mk.2.state, ?_⟩
  cases hm : mk.1 with
  | some e => simp [hm] at h
  | none =>
    simp only [hm] at h ⊢
    cases h1 : (env.WriteFile (c.PcaStore.aikRequestsDirPath ++ hexEncodeToString nonce)
      payload.IdentityRequest.AikModulus 0o400 mk.2.state).1 with
    | some e => simp [h1] at h
    | none =>
      simp only [h1] at h ⊢
      cases h2 : (env.WriteFile (c.PcaStore.aikRequestsDirPath ++ (hexEncodeToString nonce ++ ".opt"))
        payload.IdentityRequest.AikName 0o400
        (env.WriteFile (c.PcaStore.aikRequestsDirPath ++ hexEncodeToString nonce)
          payload.IdentityRequest.AikModulus 0o400 mk.2.state).2).1 with
      | some e => simp [h2] at h
      | none =>
        simp only [h2] at h ⊢
        cases h3 : (env.WriteFile
          (c.PcaStore.aikRequestsDirPath ++ (hexEncodeToString nonce ++ ".ekcert")) der 0o400
          (env.WriteFile (c.PcaStore.aikRequestsDirPath ++ (hexEncodeToString nonce ++ ".opt"))
            payload.IdentityRequest.AikName 0o400
            (env.WriteFile (c.PcaStore.aikRequestsDirPath ++ hexEncodeToString nonce)
              payload.IdentityRequest.AikModulus 0o400 mk.2.state).2).2).1 with
        | some e => simp [h3] at h
        | none => simp [h3]

/-- C11: on a file system that keeps what is written, for every nonce, every EK certificate
DER that parses and every payload, a `StoreEkCerts` that returns no error followed by
`GetEkCerts` for the same nonce succeeds and returns the certificate parsed from the DER, the
payload's `AikName` as the AIK name and the payload's `AikModulus` as the modulus: the files
hex(nonce)+".ekcert", hex(nonce)+".opt" and hex(nonce) of the challenge directory hold the
DER, the AIK name and the AIK modulus. -/
theorem StoreEkCerts_GetEkCerts_roundtrip {σ : Type} (env : PcaEnv σ)
    (laws : FileSystemLaws env) (c : CertifyHostAiksController) (nonce ekDer : Bytes)
    (payload : IdentityChallengePayload) (w : PcaWorld σ) (cert : Certificate)
    (hparse : env.ParseCertificate ekDer = .ok cert)
    (hstore : (StoreEkCerts env c nonce ekDer payload w).1 = none) :
    GetEkCerts env c nonce (StoreEkCerts env c nonce ekDer payload w).2.state =
      .ok (cert, payload.IdentityRequest.AikName, payload.IdentityRequest.AikModulus) ∧
    env.ReadFile (c.PcaStore.aikRequestsDirPath ++ hexEncodeToString nonce ++ ".ekcert")
      (StoreEkCerts env c nonce ekDer payload w).2.state = .ok ekDer ∧
    env.ReadFile (c.PcaStore.aikRequestsDirPath ++ hexEncodeToString nonce ++ ".opt")
      (StoreEkCerts env c nonce ekDer payload w).2.state = .ok payload.IdentityRequest.AikName ∧
    env.ReadFile (c.PcaStore.aikRequestsDirPath ++ hexEncodeToString nonce)
      (StoreEkCerts env c nonce ekDer payload w).2.state
        = .ok payload.IdentityRequest.AikModulus := by
  obtain ⟨s0, h1, h2, h3, hstate⟩ := StoreEkCerts_success env c nonce ekDer payload w hstore
  rw [hstate]
  have e1 : c.PcaStore.aikRequestsDirPath ++ (hexEncodeToString nonce ++ ".opt") =
      c.PcaStore.aikRequestsDirPath ++ hexEncodeToString nonce ++ ".opt" :=
    (String.append_assoc _ _ _).symm
  have e2 : c.PcaStore.aikRequestsDirPath ++ (hexEncodeToString nonce ++ ".ekcert") =
      c.PcaStore.aikRequestsDirPath ++ hexEncodeToString nonce ++ ".ekcert" :=
    (String.append_assoc _ _ _).symm
  unfold GetEkCerts
  simp only [e1, e2] at h2 h3 ⊢
  generalize c.PcaStore.aikRequestsDirPath ++ hexEncodeToString nonce = p0 at *
  have n01 : p0 ≠ p0 ++ ".opt" := fun h => append_ne_self p0 ".opt" (by decide) h.symm
  have n02 : p0 ≠ p0 ++ ".ekcert" := fun h => append_ne_self p0 ".ekcert" (by decide) h.symm
  have n12 : p0 ++ ".opt" ≠ p0 ++ ".ekcert" := append_ne_append p0 ".opt" ".ekcert" (by decide)
  -- the file named by the nonce exists and holds the modulus
  have hstat : env.Stat p0 _ = none :=
    (laws.stat_other _ p0 _ _ _ n02 h3).trans
      ((laws.stat_other _ p0 _ _ _ n01 h2).trans (laws.stat_written p0 _ _ _ h1))
  have hmod : env.ReadFile p0 _ = .ok payload.IdentityRequest.AikModulus :=
    (laws.read_other _ p0 _ _ _ n02 h3).trans
      ((laws.read_other _ p0 _ _ _ n01 h2).trans (laws.read_written p0 _ _ _ h1))
  have hname : env.ReadFile (p0 ++ ".opt") _ = .ok payload.IdentityRequest.AikName :=
    (laws.read_other _ (p0 ++ ".opt") _ _ _ n12 h3).trans (laws.read_written _ _ _ _ h2)
  have hder : env.ReadFile (p0 ++ ".ekcert") _ = .ok ekDer := laws.read_written _ _ _ _ h3
  refine ⟨?_, hder, hname, hmod⟩
  simp only [hstat, hder, hparse, hmod, hname]
  simp

/-- The in-memory file system keeps what is written. -/
theorem memPcaEnv_FileSystemLaws (names : List (Bytes × Name × Name))
    (signedBy : List (Bytes × Bytes)) (payloads : List (Bytes × IdentityChallengePayload)) :
    FileSystemLaws (memPcaEnv names signedBy payloads) where
  read_written := by
    intro path data perm s _
    have h0 : List.find? (fun _ : String × Bytes × Nat => false) s.files = none := by simp
    simp [memPcaEnv, MemSys.readFile, List.find?_append, List.find?_filter, h0]
  stat_written := by
    intro path data perm s _
    simp [memPcaEnv]
  read_other := by
    intro path other data perm s hne _
    have hp : (path == other) = false := by
      simp only [beq_eq_false_iff_ne, ne_eq]
      exact fun h => hne h.symm
    have hf : ∀ l : List (String × Bytes × Nat),
        List.find? (fun f => f.1 == other) (l.filter (fun f => !(f.1 == path)))
          = List.find? (fun f => f.1 == other) l := by
      intro l
      induction l with
      | nil => rfl
      | cons x xs ih =>
        by_cases hx : x.1 = path
        · simp [List.filter_cons, hx, List.find?_cons, ih, hp]
        · simp [List.filter_cons, hx, List.find?_cons, ih]
    simp [memPcaEnv, MemSys.readFile, List.find?_append, hf, hp]
  stat_other := by
    intro path other data perm s hne _
    have hp : (path == other) = false := by
      simp only [beq_eq_false_iff_ne, ne_eq]
      exact fun h => hne h.symm
    have hf : ∀ l : List (String × Bytes × Nat),
        (l.filter (fun f => !(f.1 == path))).any (fun f => f.1 == other)
          = l.any (fun f => f.1 == other) := by
      intro l
      induction l with
      | nil => rfl
      | cons x xs ih =>
        by_cases hx : x.1 = path
        · simp only [List.filter_cons, hx, beq_self_eq_true, Bool.not_true, Bool.false_eq_true,
            if_false, ih, List.any_cons, hp, Bool.false_or]
        · have hx2 : (x.1 == path) = false := by simpa using hx
          simp only [List.filter_cons, hx2, Bool.not_false, if_true, List.any_cons, ih]
    simp only [memPcaEnv, List.any_append, hf, List.any_cons, hp, List.any_nil, Bool.or_false]

/-- C11 (witness): on the in-memory file system the DER 5 5 parses, `StoreEkCerts` for the
nonce 171 returns no error, and the record of the example host is read back: the EK
certificate, the AIK name 3 and the AIK modulus 1 2. -/
theorem StoreEkCerts_GetEkCerts_roundtrip_witness :
    exPcaEnv.ParseCertificate [5, 5] = .ok exEkCert ∧
    (StoreEkCerts exPcaEnv exController [171] [5, 5] exPayload1 ⟨exSys [] [], []⟩).1 = none ∧
    GetEkCerts exPcaEnv exController [171]
        (StoreEkCerts exPcaEnv exController [171] [5, 5] exPayload1 ⟨exSys [] [], []⟩).2.state =
      .ok (exEkCert, [3], [1, 2]) :=
  ⟨rfl, rfl,
    (StoreEkCerts_GetEkCerts_roundtrip exPcaEnv (memPcaEnv_FileSystemLaws _ _ _) exController
      [171] [5, 5] exPayload1 ⟨exSys [] [], []⟩ exEkCert rfl rfl).1⟩

/-! ## Theorems: certificate template, directory modes, authority selection -/

/-- The template that a successful `CertifyAik` hands to `x509.CreateCertificate`: the AIK name
is in the single entry of its `Extensions` field, with OID 2.5.29.17 and not critical, and its
`ExtraExtensions` field is empty; the result is what `CreateCertificate` returns for it. -/
theorem CertifyAik_template {σ : Type} (env : PcaEnv σ) (aikPubKey : rsaPublicKey)
    (aikName : Bytes) (privacycaKey : PrivateKey) (privacycaCert : Certificate) (validity : Int)
    (w : PcaWorld σ) (aikCert : Bytes)
    (h : (CertifyAik env aikPubKey aikName privacycaKey privacycaCert validity w).1 = .ok aikCert) :
    ∃ (template : CertTemplate) (s : σ),
      (CertifyAik env aikPubKey aikName privacycaKey privacycaCert validity w).2.calls =
        w.calls ++ [PcaCall.CreateCertificate template aikPubKey] ∧
      template.Extensions = [⟨[2, 5, 29, 17], false, aikName⟩] ∧
      template.ExtraExtensions = [] ∧
      (env.CreateCertificate template privacycaCert aikPubKey privacycaKey s).1 = .ok aikCert := by
  unfold CertifyAik at h ⊢
  simp only [] at h ⊢
  generalize env.randInt _ w.state = sn at h ⊢
  obtain ⟨sn1, sn2⟩ := sn
  cases sn1 with
  | error e => simp at h
  | ok serial =>
    simp only [] at h ⊢
    generalize hcc : env.CreateCertificate _ privacycaCert aikPubKey privacycaKey _ = cc at h ⊢
    obtain ⟨cc1, cc2⟩ := cc
    cases cc1 with
    | error e => simp at h
    | ok cert =>
      simp only [] at h ⊢
      exact ⟨_, _, rfl, rfl, rfl, by rw [hcc]; simpa using h⟩

/-- C12 (the code at the failing input): `CertifyAik` for the key with N = 3 and the AIK name
bytes 1 2 succeeds; the template it hands to `x509.CreateCertificate` carries the AIK name
only in its `Extensions` field and has an empty `ExtraExtensions` field, and the certificate
issued from the template (modulus, serial number, copied extension values) holds none of the
AIK name bytes. -/
theorem CertifyAik_puts_name_in_ignored_field :
    (CertifyAik exPcaEnv ⟨3, 65537⟩ [1, 2] [9] exAuthority 1 ⟨exSys [] [], []⟩).1 = .ok [3, 0] ∧
    (CertifyAik exPcaEnv ⟨3, 65537⟩ [1, 2] [9] exAuthority 1 ⟨exSys [] [], []⟩).2.calls =
      [PcaCall.CreateCertificate
        { IssuerCommonName := "EK CA"
          SerialNumber := 0
          SubjectCommonName := ""
          NotBefore := 0
          NotAfter := 31536001
          Extensions := [⟨[2, 5, 29, 17], false, [1, 2]⟩]
          ExtraExtensions := [] }
        ⟨3, 65537⟩] := by
  decide

/-- C16 (the code at the failing input): with no challenge directory, round 1 creates it with
mode 0700 and writes the three files with mode 0400, but round 2 creates the missing
directory with mode 0600. -/
theorem round2_creates_directory_with_0600 :
    (getIdentityProofRequest exPcaEnv exController exPayload1
      ⟨exSys [exAuthority] [], []⟩).2.calls.take 5 =
      [PcaCall.GetRandomBytes 32, PcaCall.MkdirAll "/aik/" 0o700,
        PcaCall.WriteFile "/aik/ab" [1, 2] 0o400, PcaCall.WriteFile "/aik/ab.opt" [3] 0o400,
        PcaCall.WriteFile "/aik/ab.ekcert" [5, 5] 0o400] ∧
    exPcaEnv.Stat "/aik/" (exSys [] []) = some errNotExist ∧
    (getIdentityProofRequestResponse exPcaEnv exController exPayload2
      ⟨exSys [] [], []⟩).2.calls = [PcaCall.MkdirAll "/aik/" 0o600] ∧
    (getIdentityProofRequestResponse exPcaEnv exController exPayload2
      ⟨exSys [] [], []⟩).2.state.dirs = [("/aik/", 0o600)] ∧
    (0o600 : Nat) ≠ 0o700 := by
  decide

/-- C18 (the code at the failing inputs): the loop of round 1 compares the issuer common name
of each pool certificate, not its subject common name, and removes the four-character text
backslash-x-0-0, not NUL characters. For the EK certificate issued by "EK CA" it selects no
authority from a pool holding the authority with subject "EK CA" and issuer "Root CA", and it
selects a certificate with another subject that was issued by "EK CA". For the issuer common
name "EK CA" followed by NUL it selects no authority from the pool holding "EK CA"; for
"EK CA" followed by the text backslash-x-0-0 it selects that authority. -/
theorem fast_path_matches_issuer_and_literal_escape :
    endorsementCertsToVerify exEkCert [exIntermediate] = Certificate.zero ∧
    exIntermediate.Subject.CommonName = exEkCert.Issuer.CommonName ∧
    endorsementCertsToVerify exEkCert [exSibling] = exSibling ∧
    exSibling.Subject.CommonName ≠ exEkCert.Issuer.CommonName ∧
    endorsementCertsToVerify exEkCertNul [exAuthority] = Certificate.zero ∧
    String.mk (exEkCertNul.Issuer.CommonName.data.filter (fun ch => ch != Char.ofNat 0))
      = exAuthority.Subject.CommonName ∧
    endorsementCertsToVerify exEkCertEscaped [exAuthority] = exAuthority := by
  decide

/-! ## Theorems: the challenge record after round 2 -/

/-- In the in-memory surroundings the directory block never fails, keeps the files, and
leaves the directory present. -/
theorem mem_mkdirIfNotExist (names : List (Bytes × Name × Name)) (signedBy : List (Bytes × Bytes))
    (payloads : List (Bytes × IdentityChallengePayload)) (dir : String) (perm : Nat)
    (msg : String) (w : PcaWorld MemSys) :
    (mkdirIfNotExist (memPcaEnv names signedBy payloads) dir perm msg w).1 = none ∧
    (mkdirIfNotExist (memPcaEnv names signedBy payloads) dir perm msg w).2.state.files
      = w.state.files ∧
    (memPcaEnv names signedBy payloads).Stat dir
      (mkdirIfNotExist (memPcaEnv names signedBy payloads) dir perm msg w).2.state = none := by
  unfold mkdirIfNotExist
  simp only [memPcaEnv]
  by_cases h : (w.state.dirs.any (fun d => d.1 == dir) || w.state.files.any (fun f => f.1 == dir)) = true
  · simp only [h, if_true]
    simp [h]
  · simp only [h]
    simp

/-- In the in-memory surroundings what `GetEkCerts` returns depends only on the directories
and files of the state. -/
theorem mem_GetEkCerts_congr (names : List (Bytes × Name × Name)) (signedBy : List (Bytes × Bytes))
    (payloads : List (Bytes × IdentityChallengePayload)) (c : CertifyHostAiksController)
    (p : Bytes) (s t : MemSys) (hd : t.dirs = s.dirs) (hf : t.files = s.files) :
    GetEkCerts (memPcaEnv names signedBy payloads) c p t
      = GetEkCerts (memPcaEnv names signedBy payloads) c p s := by
  unfold GetEkCerts
  simp only [memPcaEnv, MemSys.readFile, hd, hf]

/-- In the in-memory surroundings `CertifyAik` succeeds and keeps directories and files. -/
theorem mem_CertifyAik (names : List (Bytes × Name × Name)) (signedBy : List (Bytes × Bytes))
    (payloads : List (Bytes × IdentityChallengePayload)) (aikPubKey : rsaPublicKey)
    (aikName : Bytes) (key : PrivateKey) (cert : Certificate) (validity : Int)
    (w : PcaWorld MemSys) :
    (∃ aikCert, (CertifyAik (memPcaEnv names signedBy payloads) aikPubKey aikName key cert
      validity w).1 = .ok aikCert) ∧
    (CertifyAik (memPcaEnv names signedBy payloads) aikPubKey aikName key cert
      validity w).2.state.files = w.state.files ∧
    (CertifyAik (memPcaEnv names signedBy payloads) aikPubKey aikName key cert
      validity w).2.state.dirs = w.state.dirs := by
  unfold CertifyAik
  simp [memPcaEnv]

/-- Round 2 in the in-memory surroundings: it returns 200 exactly when the key and the
certificate of the privacy CA load and `GetEkCerts` accepts the record after the directory
block; it never changes the files, and on success the directories are those after the
directory block. -/
theorem mem_round2 (names : List (Bytes × Name × Name)) (signedBy : List (Bytes × Bytes))
    (payloads : List (Bytes × IdentityChallengePayload)) (c : CertifyHostAiksController)
    (payload : IdentityChallengePayload) (w : PcaWorld MemSys) :
    ((getIdentityProofRequestResponse (memPcaEnv names signedBy payloads) c payload w).1.2
        = (StatusOK, none) ↔
      (∃ key, MemSys.readFile c.PcaStore.keyPath w.state = .ok key) ∧
      (∃ cert, (memPcaEnv names signedBy payloads).GetCertFromPemFile c.PcaStore.certPath w.state
        = .ok cert) ∧
      (∃ r, GetEkCerts (memPcaEnv names signedBy payloads) c payload.SymmetricBlob
        (mkdirIfNotExist (memPcaEnv names signedBy payloads) c.PcaStore.aikRequestsDirPath 0o600
          "controllers/certify_host_aiks_controller:getIdentityProofRequestResponse() could not create directory "
          w).2.state = .ok r)) ∧
    (getIdentityProofRequestResponse (memPcaEnv names signedBy payloads) c payload w).2.state.files
      = w.state.files ∧
    ((getIdentityProofRequestResponse (memPcaEnv names signedBy payloads) c payload w).1.2
        = (StatusOK, none) →
      (getIdentityProofRequestResponse (memPcaEnv names signedBy payloads) c payload w).2.state.dirs
        = (mkdirIfNotExist (memPcaEnv names signedBy payloads) c.PcaStore.aikRequestsDirPath 0o600
          "controllers/certify_host_aiks_controller:getIdentityProofRequestResponse() could not create directory "
          w).2.state.dirs) := by
  have hmk := mem_mkdirIfNotExist names signedBy payloads c.PcaStore.aikRequestsDirPath 0o600
    "controllers/certify_host_aiks_controller:getIdentityProofRequestResponse() could not create directory "
    w
  have hca : (memPcaEnv names signedBy payloads).NewPrivacyCA payload.IdentityRequest = none := rfl
  have hdec : ∀ k, (memPcaEnv names signedBy payloads).GetEkCert payload k
    = .ok payload.SymmetricBlob := fun _ => rfl
  have hkey : (memPcaEnv names signedBy payloads).GetPrivateKeyFromPKCS8File
    = MemSys.readFile := rfl
  unfold getIdentityProofRequestResponse
  simp only [hca, hdec, hkey, hmk.1]
  cases hk : MemSys.readFile c.PcaStore.keyPath w.state with
  | error e => simp [StatusOK, StatusInternalServerError]
  | ok key =>
    simp only []
    cases hc : (memPcaEnv names signedBy payloads).GetCertFromPemFile c.PcaStore.certPath
        w.state with
    | error e => simp [StatusOK, StatusInternalServerError]
    | ok cert =>
      simp only []
      cases hg : GetEkCerts (memPcaEnv names signedBy payloads) c payload.SymmetricBlob
          (mkdirIfNotExist (memPcaEnv names signedBy payloads) c.PcaStore.aikRequestsDirPath 0o600
            "controllers/certify_host_aiks_controller:getIdentityProofRequestResponse() could not create directory "
            w).2.state with
      | error e => simp [StatusOK, StatusBadRequest, hmk.2.1]
      | ok r =>
        obtain ⟨ekx, m, a⟩ := r
        simp only []
        obtain ⟨⟨aikCert, h1⟩, h2, h3⟩ := mem_CertifyAik names signedBy payloads
          ⟨bigIntSetBytes m, 65537⟩ a key cert (memPcaEnv names signedBy payloads).AIKCertValidity
          ((mkdirIfNotExist (memPcaEnv names signedBy payloads) c.PcaStore.aikRequestsDirPath 0o600
            "controllers/certify_host_aiks_controller:getIdentityProofRequestResponse() could not create directory "
            w).2.record (.CertifyAik ⟨bigIntSetBytes m, 65537⟩ a
              (memPcaEnv names signedBy payloads).AIKCertValidity))
        have hpr : ∀ r p d s, (memPcaEnv names signedBy payloads).ProcessIdentityRequest r p d s
          = (.ok ⟨d⟩, s) := fun _ _ _ _ => rfl
        simp only [PcaWorld.record] at h1 h2 h3
        simp [h1, h2, h3, hpr, hmk.2.1, PcaWorld.record]

/-- C13 (amended): round 2 never removes or rewrites the challenge record. In the in-memory
surroundings, for every state and payload: after `getIdentityProofRequestResponse` has
returned 200, the files are those from before the call, `GetEkCerts` still accepts the record
of the nonce, and a second round-2 submission that decrypts to the same nonce returns 200
again. -/
theorem round2_success_keeps_record (names : List (Bytes × Name × Name))
    (signedBy : List (Bytes × Bytes)) (payloads : List (Bytes × IdentityChallengePayload))
    (c : CertifyHostAiksController) (payload second : IdentityChallengePayload) (s : MemSys)
    (calls calls2 : List PcaCall)
    (hsame : second.SymmetricBlob = payload.SymmetricBlob)
    (h : (getIdentityProofRequestResponse (memPcaEnv names signedBy payloads) c payload
      ⟨s, calls⟩).1.2 = (StatusOK, none)) :
    (getIdentityProofRequestResponse (memPcaEnv names signedBy payloads) c payload
      ⟨s, calls⟩).2.state.files = s.files ∧
    (∃ r, GetEkCerts (memPcaEnv names signedBy payloads) c payload.SymmetricBlob
      (getIdentityProofRequestResponse (memPcaEnv names signedBy payloads) c payload
        ⟨s, calls⟩).2.state = .ok r) ∧
    (getIdentityProofRequestResponse (memPcaEnv names signedBy payloads) c second
      ⟨(getIdentityProofRequestResponse (memPcaEnv names signedBy payloads) c payload
        ⟨s, calls⟩).2.state, calls2⟩).1.2 = (StatusOK, none) := by
  obtain ⟨hiff, hfiles, hdirs⟩ := mem_round2 names signedBy payloads c payload ⟨s, calls⟩
  obtain ⟨⟨key, hk⟩, ⟨cert, hc⟩, ⟨r, hg⟩⟩ := hiff.1 h
  have hd := hdirs h
  have hmk := mem_mkdirIfNotExist names signedBy payloads c.PcaStore.aikRequestsDirPath 0o600
    "controllers/certify_host_aiks_controller:getIdentityProofRequestResponse() could not create directory "
    ⟨s, calls⟩
  generalize (getIdentityProofRequestResponse (memPcaEnv names signedBy payloads) c payload
    ⟨s, calls⟩).2.state = t at hfiles hd ⊢
  generalize (mkdirIfNotExist (memPcaEnv names signedBy payloads) c.PcaStore.aikRequestsDirPath
    0o600
    "controllers/certify_host_aiks_controller:getIdentityProofRequestResponse() could not create directory "
    ⟨s, calls⟩).2.state = m at hmk hd hg
  simp only [] at hfiles hk hc
  have hstat : (memPcaEnv names signedBy payloads).Stat c.PcaStore.aikRequestsDirPath t
      = none := by
    have h3 := hmk.2.2
    simp only [memPcaEnv] at h3 ⊢
    rw [hd, hfiles, ← hmk.2.1]
    exact h3
  have hmk2 : mkdirIfNotExist (memPcaEnv names signedBy payloads) c.PcaStore.aikRequestsDirPath
      0o600
      "controllers/certify_host_aiks_controller:getIdentityProofRequestResponse() could not create directory "
      ⟨t, calls2⟩ = (none, ⟨t, calls2⟩) := by
    unfold mkdirIfNotExist
    simp only [hstat]
  have hg2 : GetEkCerts (memPcaEnv names signedBy payloads) c payload.SymmetricBlob t = .ok r := by
    rw [mem_GetEkCerts_congr names signedBy payloads c payload.SymmetricBlob m t hd
      (hfiles.trans hmk.2.1.symm)]
    exact hg
  refine ⟨hfiles, ⟨r, hg2⟩, ?_⟩
  refine (mem_round2 names signedBy payloads c second ⟨t, calls2⟩).1.2 ⟨⟨key, ?_⟩, ⟨cert, ?_⟩, ⟨r, ?_⟩⟩
  · simp only [MemSys.readFile, hfiles] at hk ⊢
    exact hk
  · simp only [memPcaEnv, MemSys.readFile, hfiles] at hc ⊢
    exact hc
  · rw [hmk2, hsame]
    exact hg2

/-- C13 (witness): the example host, whose round 2 for the nonce 171 returns 200. -/
theorem round2_success_keeps_record_witness :
    (getIdentityProofRequestResponse exPcaEnv exController exPayload2
      ⟨(getIdentityProofRequest exPcaEnv exController exPayload1
        ⟨exSys [exAuthority] [], []⟩).2.state, []⟩).1.2 = (StatusOK, none) ∧
    ∃ r, GetEkCerts exPcaEnv exController [171]
      (getIdentityProofRequestResponse exPcaEnv exController exPayload2
        ⟨(getIdentityProofRequest exPcaEnv exController exPayload1
          ⟨exSys [exAuthority] [], []⟩).2.state, []⟩).2.state = .ok r :=
  ⟨by decide,
    (round2_success_keeps_record _ _ _ exController exPayload2 exPayload2
      (getIdentityProofRequest exPcaEnv exController exPayload1
        ⟨exSys [exAuthority] [], []⟩).2.state [] [] rfl (by decide)).2.1⟩

/-- C13 (counterexample): the example host. Round 1 stores the record of the nonce 171;
round 2 for that nonce returns 200; afterwards the three record files are still there, and
the same round-2 submission returns 200 a second time. -/
theorem second_round2_submission_succeeds :
    (getIdentityProofRequestResponse exPcaEnv exController exPayload2
      ⟨(getIdentityProofRequest exPcaEnv exController exPayload1
        ⟨exSys [exAuthority] [], []⟩).2.state, []⟩).1.2 = (StatusOK, none) ∧
    (getIdentityProofRequestResponse exPcaEnv exController exPayload2
      ⟨(getIdentityProofRequest exPcaEnv exController exPayload1
        ⟨exSys [exAuthority] [], []⟩).2.state, []⟩).2.state.files.map (fun f => f.1)
      = ["/key", "/cert", "/aik/ab", "/aik/ab.opt", "/aik/ab.ekcert"] ∧
    (getIdentityProofRequestResponse exPcaEnv exController exPayload2
      ⟨(getIdentityProofRequestResponse exPcaEnv exController exPayload2
        ⟨(getIdentityProofRequest exPcaEnv exController exPayload1
          ⟨exSys [exAuthority] [], []⟩).2.state, []⟩).2.state, []⟩).1.2 = (StatusOK, none) := by
  decide

/-! ## Theorems: unknown challenges -/

/-- The events of the directory block: the trace grows by at most the one `MkdirAll` of the
directory with the given mode. -/
theorem mkdirIfNotExist_events {σ : Type} (env : PcaEnv σ) (dir : String) (perm : Nat)
    (msg : String) (w : PcaWorld σ) :
    ∀ e ∈ (mkdirIfNotExist env dir perm msg w).2.calls,
      e ∈ w.calls ∨ e = PcaCall.MkdirAll dir perm := by
  intro e he
  unfold mkdirIfNotExist at he
  split at he
  · exact Or.inl he
  · split at he
    · simp only [] at he
      split at he <;> simpa using he
    · exact Or.inl he

/-- C14 (amended): for a round-2 payload that decrypts to a plaintext p for which `os.Stat`
reports that the file named hex(p) in the challenge directory does not exist when
`GetEkCerts` runs: `GetEkCerts(p)` returns the error "Invalid Challenge response", and
`getIdentityProofRequestResponse` returns the empty proof request and a non-nil error; the
status is 400, with that error, when the directory block at the start did not fail, and 500
when the missing challenge directory could not be created. The world is the one after the
directory block: the only new event is at most the `MkdirAll`, and `CertifyAik` is not
invoked. -/
theorem round2_unknown_challenge {σ : Type} (env : PcaEnv σ) (c : CertifyHostAiksController)
    (payload : IdentityChallengePayload) (w : PcaWorld σ) (key : PrivateKey) (cert : Certificate)
    (p : Bytes) (errStat : GoError)
    (hkey : env.GetPrivateKeyFromPKCS8File c.PcaStore.keyPath w.state = .ok key)
    (hcert : env.GetCertFromPemFile c.PcaStore.certPath w.state = .ok cert)
    (hca : env.NewPrivacyCA payload.IdentityRequest = none)
    (hdec : env.GetEkCert payload key = .ok p)
    (hstat : env.Stat (c.PcaStore.aikRequestsDirPath ++ hexEncodeToString p)
      (mkdirIfNotExist env c.PcaStore.aikRequestsDirPath 0o600
        "controllers/certify_host_aiks_controller:getIdentityProofRequestResponse() could not create directory "
        w).2.state = some errStat)
    (hmissing : env.IsNotExist errStat = true) :
    GetEkCerts env c p
      (mkdirIfNotExist env c.PcaStore.aikRequestsDirPath 0o600
        "controllers/certify_host_aiks_controller:getIdentityProofRequestResponse() could not create directory "
        w).2.state
      = .error "controllers/certify_host_aiks_controller:GetEkCerts() Invalid Challenge response" ∧
    (getIdentityProofRequestResponse env c payload w).1.1 = IdentityProofRequest.zero ∧
    (getIdentityProofRequestResponse env c payload w).1.2.2 ≠ none ∧
    ((mkdirIfNotExist env c.PcaStore.aikRequestsDirPath 0o600
        "controllers/certify_host_aiks_controller:getIdentityProofRequestResponse() could not create directory "
        w).1 = none →
      (getIdentityProofRequestResponse env c payload w).1.2 = (StatusBadRequest,
        some "controllers/certify_host_aiks_controller:GetEkCerts() Invalid Challenge response")) ∧
    ((mkdirIfNotExist env c.PcaStore.aikRequestsDirPath 0o600
        "controllers/certify_host_aiks_controller:getIdentityProofRequestResponse() could not create directory "
        w).1 ≠ none →
      (getIdentityProofRequestResponse env c payload w).1.2.1 = StatusInternalServerError) ∧
    (getIdentityProofRequestResponse env c payload w).2
      = (mkdirIfNotExist env c.PcaStore.aikRequestsDirPath 0o600
        "controllers/certify_host_aiks_controller:getIdentityProofRequestResponse() could not create directory "
        w).2 ∧
    ∀ e ∈ (getIdentityProofRequestResponse env c payload w).2.calls,
      e ∈ w.calls ∨ e = PcaCall.MkdirAll c.PcaStore.aikRequestsDirPath 0o600 := by
  have hget : GetEkCerts env c p
      (mkdirIfNotExist env c.PcaStore.aikRequestsDirPath 0o600
        "controllers/certify_host_aiks_controller:getIdentityProofRequestResponse() could not create directory "
        w).2.state
      = .error "controllers/certify_host_aiks_controller:GetEkCerts() Invalid Challenge response" := by
    unfold GetEkCerts
    simp [hstat, hmissing]
  have hev := mkdirIfNotExist_events env c.PcaStore.aikRequestsDirPath 0o600
    "controllers/certify_host_aiks_controller:getIdentityProofRequestResponse() could not create directory "
    w
  unfold getIdentityProofRequestResponse
  simp only [hkey, hcert, hca, hdec, hget]
  generalize mkdirIfNotExist env c.PcaStore.aikRequestsDirPath 0o600
    "controllers/certify_host_aiks_controller:getIdentityProofRequestResponse() could not create directory "
    w = mk at hev ⊢
  obtain ⟨mk1, mk2⟩ := mk
  cases mk1 with
  | none => simpa using hev
  | some e => simpa using hev

/-- C14 (witness): the example host sends the round-2 payload for the nonce 171 to a service
that never ran round 1: no file "/aik/ab" exists, and the answer is 400. -/
theorem round2_unknown_challenge_witness :
    exPcaEnv.Stat "/aik/ab"
      (mkdirIfNotExist exPcaEnv "/aik/" 0o600
        "controllers/certify_host_aiks_controller:getIdentityProofRequestResponse() could not create directory "
        ⟨exSys [] [], []⟩).2.state = some errNotExist ∧
    (getIdentityProofRequestResponse exPcaEnv exController exPayload2 ⟨exSys [] [], []⟩).1.2
      = (StatusBadRequest,
        some "controllers/certify_host_aiks_controller:GetEkCerts() Invalid Challenge response") :=
  ⟨by decide,
    (round2_unknown_challenge exPcaEnv exController exPayload2 ⟨exSys [] [], []⟩ [9]
      ⟨[8], ⟨"", ""⟩, ⟨"", ""⟩, ⟨8, 65537⟩⟩ [171] errNotExist (by decide) (by decide) rfl rfl
      (by decide) (by decide)).2.2.2.1 (by decide)⟩

/-- C14 (counterexample): the challenge directory is missing and cannot be created. The
round-2 payload decrypts to the nonce 171, no file "/aik/ab" exists, and
`getIdentityProofRequestResponse` returns status 500, not 400. -/
theorem round2_unknown_challenge_returns_500 :
    exPcaEnvNoMkdir.GetEkCert exPayload2 [9] = .ok [171] ∧
    exPcaEnvNoMkdir.Stat "/aik/ab" (exSys [] []) = some errNotExist ∧
    exPcaEnvNoMkdir.Stat "/aik/ab"
      (getIdentityProofRequestResponse exPcaEnvNoMkdir exController exPayload2
        ⟨exSys [] [], []⟩).2.state = some errNotExist ∧
    (getIdentityProofRequestResponse exPcaEnvNoMkdir exController exPayload2
      ⟨exSys [] [], []⟩).1.1 = IdentityProofRequest.zero ∧
    (getIdentityProofRequestResponse exPcaEnvNoMkdir exController exPayload2
      ⟨exSys [] [], []⟩).1.2.1 = StatusInternalServerError ∧
    StatusInternalServerError ≠ StatusBadRequest := by
  decide

/-! ## Theorems: what GetEkCerts accepts -/

/-- C15 (amended): `GetEkCerts(nonce)` returns the certificate, AIK name and modulus without
error if and only if `os.Stat` does not report the file named hex(nonce) as missing, the three
files hex(nonce)+".ekcert", hex(nonce) and hex(nonce)+".opt" can be read, the `.ekcert`
content parses to the certificate, and the contents of hex(nonce)+".opt" and hex(nonce) are
the AIK name and the modulus. Nothing requires the contents of hex(nonce) and of
hex(nonce)+".opt" to be non-empty. -/
theorem GetEkCerts_accepts_iff {σ : Type} (env : PcaEnv σ) (c : CertifyHostAiksController)
    (nonce : Bytes) (s : σ) (cert : Certificate) (aikName modulus : Bytes) :
    GetEkCerts env c nonce s = .ok (cert, aikName, modulus) ↔
      ((match env.Stat (c.PcaStore.aikRequestsDirPath ++ hexEncodeToString nonce) s with
        | none => false
        | some err => env.IsNotExist err) = false ∧
      (∃ der, env.ReadFile (c.PcaStore.aikRequestsDirPath ++ hexEncodeToString nonce ++ ".ekcert") s
          = .ok der ∧ env.ParseCertificate der = .ok cert) ∧
      env.ReadFile (c.PcaStore.aikRequestsDirPath ++ hexEncodeToString nonce) s = .ok modulus ∧
      env.ReadFile (c.PcaStore.aikRequestsDirPath ++ hexEncodeToString nonce ++ ".opt") s
        = .ok aikName) := by
  unfold GetEkCerts
  simp only []
  generalize (match env.Stat (c.PcaStore.aikRequestsDirPath ++ hexEncodeToString nonce) s with
    | none => false
    | some err => env.IsNotExist err) = notExist
  cases notExist with
  | true => simp
  | false =>
    simp only [Bool.false_eq_true, if_false, true_and]
    cases h1 : env.ReadFile (c.PcaStore.aikRequestsDirPath ++ hexEncodeToString nonce ++ ".ekcert") s with
    | error e => simp
    | ok der =>
      simp only []
      cases h2 : env.ParseCertificate der with
      | error e => simp [h2]
      | ok x =>
        simp only []
        cases h3 : env.ReadFile (c.PcaStore.aikRequestsDirPath ++ hexEncodeToString nonce) s with
        | error e => simp
        | ok m =>
          simp only []
          cases h4 : env.ReadFile
              (c.PcaStore.aikRequestsDirPath ++ hexEncodeToString nonce ++ ".opt") s with
          | error e => simp
          | ok a =>
            simp only [Except.ok.injEq, Prod.mk.injEq, exists_eq_left', h2]
            constructor
            · rintro ⟨rfl, rfl, rfl⟩
              exact ⟨rfl, rfl, rfl⟩
            · rintro ⟨h, rfl, rfl⟩
              exact ⟨h, rfl, rfl⟩

/-- C15 (counterexample): round 1 for a payload with an empty AIK modulus and an empty AIK
name stores the files "/aik/ab" and "/aik/ab.opt" empty, and `GetEkCerts` accepts the record
of the nonce 171. -/
theorem GetEkCerts_accepts_empty_files :
    MemSys.readFile "/aik/ab"
      (StoreEkCerts exPcaEnv exController [171] [5, 5] exPayloadEmpty
        ⟨exSys [] [], []⟩).2.state = .ok [] ∧
    MemSys.readFile "/aik/ab.opt"
      (StoreEkCerts exPcaEnv exController [171] [5, 5] exPayloadEmpty
        ⟨exSys [] [], []⟩).2.state = .ok [] ∧
    GetEkCerts exPcaEnv exController [171]
      (StoreEkCerts exPcaEnv exController [171] [5, 5] exPayloadEmpty
        ⟨exSys [] [], []⟩).2.state = .ok (exEkCert, [], []) := by
  decide

/-! ## Theorems: status of failures -/

/-- C17 (amended): the status of each failure in the two rounds, every one with the empty
proof request and a non-nil error. Round 1: a failure to load the privacy-CA key gives 500;
a failure to construct the activation context, to decrypt the payload, or to parse the EK
certificate gives 400; for a trusted EK certificate a failure to generate the 32 random bytes
or of `StoreEkCerts` (creating the directory, writing the record) gives 500. Round 2: a
failure to load the privacy-CA key or certificate gives 500; a failure to construct the
activation context or to decrypt the payload gives 400; a failure to create the missing
challenge directory gives 500; every failure of `GetEkCerts`, a failure to read one of the
record files included, gives 400. -/
theorem round_failure_status {σ : Type} (env : PcaEnv σ) (c : CertifyHostAiksController)
    (payload : IdentityChallengePayload) (w : PcaWorld σ) :
    (∀ e, env.GetPrivateKeyFromPKCS8File c.PcaStore.keyPath w.state = .error e →
      failsWith (getIdentityProofRequest env c payload w) StatusInternalServerError) ∧
    (∀ key, env.GetPrivateKeyFromPKCS8File c.PcaStore.keyPath w.state = .ok key →
      (∀ e, env.NewPrivacyCA payload.IdentityRequest = some e →
        failsWith (getIdentityProofRequest env c payload w) StatusBadRequest) ∧
      (env.NewPrivacyCA payload.IdentityRequest = none →
        (∀ e, env.GetEkCert payload key = .error e →
          failsWith (getIdentityProofRequest env c payload w) StatusBadRequest) ∧
        (∀ der, env.GetEkCert payload key = .ok der →
          (∀ e, env.ParseCertificate der = .error e →
            failsWith (getIdentityProofRequest env c payload w) StatusBadRequest) ∧
          (∀ ekCert pool, env.ParseCertificate der = .ok ekCert →
            env.GetSubjectCertsMapFromPemFile c.PcaStore.eCACertPath w.state = .ok pool →
            ekUntrusted env ekCert pool w.state = false →
            (∀ e, (env.GetRandomBytes 32 w.state).1 = .error e →
              failsWith (getIdentityProofRequest env c payload w) StatusInternalServerError) ∧
            (∀ nonce, (env.GetRandomBytes 32 w.state).1 = .ok nonce →
              ∀ e, (StoreEkCerts env c nonce der payload
                ⟨(env.GetRandomBytes 32 w.state).2, w.calls ++ [.GetRandomBytes 32]⟩).1 = some e →
              failsWith (getIdentityProofRequest env c payload w)
                StatusInternalServerError))))) ∧
    (∀ e, env.GetPrivateKeyFromPKCS8File c.PcaStore.keyPath w.state = .error e →
      failsWith (getIdentityProofRequestResponse env c payload w) StatusInternalServerError) ∧
    (∀ key, env.GetPrivateKeyFromPKCS8File c.PcaStore.keyPath w.state = .ok key →
      (∀ e, env.GetCertFromPemFile c.PcaStore.certPath w.state = .error e →
        failsWith (getIdentityProofRequestResponse env c payload w) StatusInternalServerError) ∧
      (∀ cert, env.GetCertFromPemFile c.PcaStore.certPath w.state = .ok cert →
        (∀ e, env.NewPrivacyCA payload.IdentityRequest = some e →
          failsWith (getIdentityProofRequestResponse env c payload w) StatusBadRequest) ∧
        (env.NewPrivacyCA payload.IdentityRequest = none →
          (∀ e, env.GetEkCert payload key = .error e →
            failsWith (getIdentityProofRequestResponse env c payload w) StatusBadRequest) ∧
          (∀ p, env.GetEkCert payload key = .ok p →
            (∀ e, (mkdirIfNotExist env c.PcaStore.aikRequestsDirPath 0o600
                "controllers/certify_host_aiks_controller:getIdentityProofRequestResponse() could not create directory "
                w).1 = some e →
              failsWith (getIdentityProofRequestResponse env c payload w)
                StatusInternalServerError) ∧
            ((mkdirIfNotExist env c.PcaStore.aikRequestsDirPath 0o600
                "controllers/certify_host_aiks_controller:getIdentityProofRequestResponse() could not create directory "
                w).1 = none →
              ∀ e, GetEkCerts env c p
                (mkdirIfNotExist env c.PcaStore.aikRequestsDirPath 0o600
                  "controllers/certify_host_aiks_controller:getIdentityProofRequestResponse() could not create directory "
                  w).2.state = .error e →
              failsWith (getIdentityProofRequestResponse env c payload w) StatusBadRequest))))) := by
  refine ⟨?_, ?_, ?_, ?_⟩
  · intro e h
    simp [getIdentityProofRequest, failsWith, h, errorsWrap]
  · intro key hkey
    refine ⟨?_, ?_⟩
    · intro e h
      simp [getIdentityProofRequest, failsWith, hkey, h]
    · intro hca
      refine ⟨?_, ?_⟩
      · intro e h
        simp [getIdentityProofRequest, failsWith, hkey, hca, h, errorsWrap]
      · intro der hdec
        refine ⟨?_, ?_⟩
        · intro e h
          simp [getIdentityProofRequest, failsWith, hkey, hca, hdec, h]
        · intro ekCert pool hparse hpool htrust
          refine ⟨?_, ?_⟩
          · intro e h
            simp [getIdentityProofRequest, failsWith, hkey, hca, hdec, hparse, hpool, htrust, h]
          · intro nonce hrnd e h
            simp [getIdentityProofRequest, failsWith, hkey, hca, hdec, hparse, hpool, htrust,
              hrnd, h]
  · intro e h
    simp [getIdentityProofRequestResponse, failsWith, h]
  · intro key hkey
    refine ⟨?_, ?_⟩
    · intro e h
      simp [getIdentityProofRequestResponse, failsWith, hkey, h]
    · intro cert hcert
      refine ⟨?_, ?_⟩
      · intro e h
        simp [getIdentityProofRequestResponse, failsWith, hkey, hcert, h, errorsWrap]
      · intro hca
        refine ⟨?_, ?_⟩
        · intro e h
          simp [getIdentityProofRequestResponse, failsWith, hkey, hcert, hca, h, errorsWrap]
        · intro p hdec
          refine ⟨?_, ?_⟩
          · intro e h
            simp [getIdentityProofRequestResponse, failsWith, hkey, hcert, hca, hdec, h]
          · intro hmk e h
            simp [getIdentityProofRequestResponse, failsWith, hkey, hcert, hca, hdec, hmk, h]

/-- C17 (witness): round 1 of the example host when the random source is exhausted: the EK
certificate is trusted, `GetRandomBytes(32)` fails, and the round fails with status 500. -/
theorem round_failure_status_witness :
    failsWith (getIdentityProofRequest exPcaEnv exController exPayload1
      ⟨{ exSys [exAuthority] [] with entropy := [] }, []⟩) StatusInternalServerError :=
  ((((round_failure_status exPcaEnv exController exPayload1
      ⟨{ exSys [exAuthority] [] with entropy := [] }, []⟩).2.1 [9] (by decide)).2 rfl).2
      [5, 5] rfl).2 exEkCert [exAuthority] (by decide) (by decide) (by decide)
    |>.1 "no entropy" (by decide)

/-- C17 (counterexample): the record of the nonce 171 lacks its ".opt" file. In round 2
reading "/aik/ab.opt" fails, and `getIdentityProofRequestResponse` returns status 400 with
the read error, not 500. -/
theorem round2_read_failure_returns_400 :
    MemSys.readFile "/aik/ab" exSysPartial = .ok [1, 2] ∧
    MemSys.readFile "/aik/ab.ekcert" exSysPartial = .ok [5, 5] ∧
    MemSys.readFile "/aik/ab.opt" exSysPartial = .error errNotExist ∧
    GetEkCerts exPcaEnv exController [171] exSysPartial = .error errNotExist ∧
    (getIdentityProofRequestResponse exPcaEnv exController exPayload2 ⟨exSysPartial, []⟩).1
      = (IdentityProofRequest.zero, StatusBadRequest, some errNotExist) ∧
    StatusBadRequest ≠ StatusInternalServerError := by
  decide

/-! ## Theorems: the EK registry lookup -/

/-- Removing a one-character string with enough steps keeps exactly the other characters. -/
theorem removeAllAux_single (ch : Char) :
    ∀ (fuel : Nat) (l : List Char), l.length ≤ fuel →
      removeAllAux [ch] fuel l = l.filter (fun x => x != ch) := by
  intro fuel
  induction fuel with
  | zero =>
    intro l hl
    have : l = [] := List.length_eq_zero.mp (Nat.le_zero.mp hl)
    subst this
    rfl
  | succ n ih =>
    intro l hl
    cases l with
    | nil => rfl
    | cons c cs =>
      have hcs : cs.length ≤ n := by simpa using hl
      simp only [removeAllAux, startsWith, Bool.and_true, List.length_singleton, List.drop_succ_cons,
        List.drop_zero]
      by_cases h : ch = c
      · subst h
        simp [ih cs hcs]
      · have h2 : (ch == c) = false := by simpa using h
        have h3 : (c != ch) = true := by simpa using fun e => h e.symm
        simp [h2, h3, ih cs hcs, List.filter_cons]

/-- Go `strings.Replace(s, " ", "", -1)` keeps exactly the characters of `s` that are not the
space character U+0020. -/
theorem stringsRemoveAll_space (s : String) :
    stringsRemoveAll s " " = String.mk (s.data.filter (fun x => x != ' ')) := by
  unfold stringsRemoveAll
  have h : (" " : String).data = [' '] := rfl
  simp only [h, List.isEmpty_cons, Bool.false_eq_true, if_false]
  rw [removeAllAux_single ' ' s.data.length s.data (Nat.le_refl _)]

/-- C19 (amended): `isEkCertRegistered(cert)` returns true if and only if the EK store search
for the issuer string of `cert` with every space character (U+0020) removed, and no other
whitespace, succeeds and at least one returned entry decodes (base64, then PEM, then X.509)
to a certificate whose DER bytes equal those of `cert`; entries that fail a decoding step do
not count, and a store error or an empty result yields false. -/
theorem isEkCertRegistered_iff {σ : Type} (env : PcaEnv σ) (cert : Certificate) (s : σ) :
    isEkCertRegistered env cert s = true ↔
      ∃ entries,
        env.ECStoreSearch (String.mk (cert.Issuer.Str.data.filter (fun x => x != ' '))) s
          = .ok entries ∧
        ∃ entry ∈ entries, ∃ decoded block regCert,
          env.base64Decode entry.Certificate = .ok decoded ∧
          env.pemDecode decoded = some block ∧
          env.ParseCertificate block = .ok regCert ∧
          regCert.Raw = cert.Raw := by
  have hmatch : ∀ entry : TpmEndorsement, registeredCertMatches env cert entry = true ↔
      ∃ decoded block regCert,
        env.base64Decode entry.Certificate = .ok decoded ∧
        env.pemDecode decoded = some block ∧
        env.ParseCertificate block = .ok regCert ∧
        regCert.Raw = cert.Raw := by
    intro entry
    unfold registeredCertMatches
    cases h1 : env.base64Decode entry.Certificate with
    | error e => simp
    | ok decoded =>
      cases h2 : env.pemDecode decoded with
      | none => simp [h2]
      | some block =>
        cases h3 : env.ParseCertificate block with
        | error e => simp [h2, h3]
        | ok regCert =>
          simp only [h2, h3, beq_iff_eq, Except.ok.injEq]
          constructor
          · intro h
            exact ⟨decoded, block, regCert, rfl, h2, h3, h.symm⟩
          · rintro ⟨d, b, r, rfl, hb, hr, hraw⟩
            rw [h2] at hb
            cases hb
            rw [h3] at hr
            cases hr
            exact hraw.symm
  unfold isEkCertRegistered
  simp only [stringsRemoveAll_space]
  cases hs : env.ECStoreSearch (String.mk (cert.Issuer.Str.data.filter (fun x => x != ' '))) s with
  | error e => simp
  | ok entries =>
    simp only [Except.ok.injEq, exists_eq_left']
    cases entries with
    | nil => simp
    | cons e rest =>
      simp only [List.length_cons, Nat.succ_ne_zero, beq_iff_eq, if_false, List.any_eq_true,
        hmatch]

/-- C19 (counterexample): the issuer string of the EK certificate holds a tab, which the code
keeps: the store is searched for "CN=EK", tab, "CA", returns the registered certificate, and
`isEkCertRegistered` is true, while the search for the issuer string with all whitespace
removed, "CN=EKCA", returns no entry. -/
theorem isEkCertRegistered_keeps_tab :
    isEkCertRegistered exPcaEnvTab exEkCertTab (exSys [] [exRegistered]) = true ∧
    stringsRemoveAll exEkCertTab.Issuer.Str " " = "CN=EK\tCA" ∧
    removeWhitespace exEkCertTab.Issuer.Str = "CN=EKCA" ∧
    exPcaEnvTab.ECStoreSearch "CN=EKCA" (exSys [] [exRegistered]) = .ok [] := by
  decide

/-! ## Theorems: modes of the challenge storage -/

/-- The file-system events of `StoreEkCerts`: the directory is created with mode 0700 and
every file is written with mode 0400. -/
theorem StoreEkCerts_modes {σ : Type} (env : PcaEnv σ) (c : CertifyHostAiksController)
    (nonce der : Bytes) (payload : IdentityChallengePayload) (w : PcaWorld σ) :
    ∀ e ∈ (StoreEkCerts env c nonce der payload w).2.calls,
      e ∈ w.calls ∨ e = PcaCall.MkdirAll c.PcaStore.aikRequestsDirPath 0o700 ∨
        ∃ path data, e = PcaCall.WriteFile path data 0o400 := by
  have hev := mkdirIfNotExist_events env c.PcaStore.aikRequestsDirPath 0o700
    "controllers/certify_host_aiks_controller:StoreEkCerts() could not create directory " w
  intro e he
  unfold StoreEkCerts at he
  simp only [] at he
  generalize mkdirIfNotExist env c.PcaStore.aikRequestsDirPath 0o700
    "controllers/certify_host_aiks_controller:StoreEkCerts() could not create directory " w
    = mk at hev he
  have hmk : e ∈ mk.2.calls → e ∈ w.calls ∨ e = PcaCall.MkdirAll c.PcaStore.aikRequestsDirPath 0o700 ∨
      ∃ path data, e = PcaCall.WriteFile path data 0o400 := by
    intro h
    rcases hev e h with h | h
    · exact Or.inl h
    · exact Or.inr (Or.inl h)
  split at he
  · exact hmk he
  · split at he
    · simp only [List.mem_append, List.mem_singleton] at he
      rcases he with he | he
      · exact hmk he
      · exact Or.inr (Or.inr ⟨_, _, he⟩)
    · split at he
      · simp only [List.mem_append, List.mem_singleton] at he
        rcases he with (he | he) | he
        · exact hmk he
        · exact Or.inr (Or.inr ⟨_, _, he⟩)
        · exact Or.inr (Or.inr ⟨_, _, he⟩)
      · split at he <;>
        · simp only [List.mem_append, List.mem_singleton] at he
          rcases he with ((he | he) | he) | he
          · exact hmk he
          · exact Or.inr (Or.inr ⟨_, _, he⟩)
          · exact Or.inr (Or.inr ⟨_, _, he⟩)
          · exact Or.inr (Or.inr ⟨_, _, he⟩)

/-! ## Theorems: looking up results in a trust report -/

/-- Go `equals` holds exactly when the two results share `Rule.Name` and `FlavorId`. -/
theorem RuleResult_equals_iff (a b : RuleResult) :
    a.equals b = true ↔ a.Rule.Name = b.Rule.Name ∧ a.FlavorId = b.FlavorId := by
  unfold RuleResult.equals
  simp only [Bool.and_eq_true, beq_iff_eq]
  constructor
  · intro h
    split at h
    · rename_i hc
      exact ⟨hc.1.symm, hc.2⟩
    · simp at h
  · rintro ⟨h1, h2⟩
    simp [h1, h2]

/-- The loop of `CheckResultExists` for a target whose rule is none of the three PCR rules:
it returns true exactly when the target has no fault and the list holds a result that
`equals` the target. -/
theorem checkResultLoop_other_rule (names : RuleNames) (r : RuleResult)
    (hrule : names.isPcrRule r.Rule.Name = false) (l : List RuleResult) :
    checkResultLoop names r l = true ↔ r.Faults = [] ∧ ∃ e ∈ l, r.equals e = true := by
  induction l with
  | nil => simp [checkResultLoop]
  | cons e rest ih =>
    unfold checkResultLoop
    by_cases heq : r.equals e = true
    · have hname : e.Rule.Name = r.Rule.Name := ((RuleResult_equals_iff r e).1 heq).1.symm
      simp only [heq, if_true, hname, hrule, Bool.false_eq_true, if_false]
      cases hf : r.Faults with
      | nil => simp [heq]
      | cons f fs => simp
    · simp only [heq, Bool.false_eq_true, if_false, ih, List.mem_cons]
      constructor
      · rintro ⟨hf, x, hx, hxe⟩
        exact ⟨hf, x, Or.inr hx, hxe⟩
      · rintro ⟨hf, x, hx | hx, hxe⟩
        · subst hx
          exact absurd hxe heq
        · exact ⟨hf, x, hx, hxe⟩

/-- The loop of `CheckResultExists` for a target whose rule is one of the three PCR rules:
it returns true exactly when the target has an expected PCR and the list holds a result that
`equals` the target and has the same expected PCR. -/
theorem checkResultLoop_pcr_rule (names : RuleNames) (r : RuleResult)
    (hrule : names.isPcrRule r.Rule.Name = true) (l : List RuleResult) :
    checkResultLoop names r l = true ↔
      ∃ pcr, r.Rule.ExpectedPcr = some pcr ∧
        ∃ e ∈ l, r.equals e = true ∧ e.Rule.ExpectedPcr = some pcr := by
  induction l with
  | nil => simp [checkResultLoop]
  | cons e rest ih =>
    unfold checkResultLoop
    by_cases heq : r.equals e = true
    · have hname : e.Rule.Name = r.Rule.Name := ((RuleResult_equals_iff r e).1 heq).1.symm
      simp only [heq, if_true, hname, hrule]
      cases hp : r.Rule.ExpectedPcr with
      | none => simp
      | some pcr =>
        simp only [Option.some.injEq, exists_eq_left', List.mem_cons]
        by_cases hsame : e.Rule.ExpectedPcr = some pcr
        · simp only [hsame, beq_self_eq_true, if_true, true_iff]
          exact ⟨e, Or.inl rfl, heq, hsame⟩
        · have hne : (some pcr == e.Rule.ExpectedPcr) = false := by
            simpa using fun h => hsame h.symm
          simp only [hne, Bool.false_eq_true, if_false, ih, hp, Option.some.injEq,
            exists_eq_left']
          constructor
          · rintro ⟨x, hx, hxe, hxp⟩
            exact ⟨x, Or.inr hx, hxe, hxp⟩
          · rintro ⟨x, hx | hx, hxe, hxp⟩
            · subst hx
              exact absurd hxp hsame
            · exact ⟨x, hx, hxe, hxp⟩
    · simp only [heq, Bool.false_eq_true, if_false, ih, List.mem_cons]
      constructor
      · rintro ⟨pcr, hp, x, hx, hxe, hxp⟩
        exact ⟨pcr, hp, x, Or.inr hx, hxe, hxp⟩
      · rintro ⟨pcr, hp, x, hx | hx, hxe, hxp⟩
        · subst hx
          exact absurd hxe heq
        · exact ⟨pcr, hp, x, hx, hxe, hxp⟩

/-- C21 (amended): for a target `r` with first marker `marker` whose rule is none of the three
PCR rules, `CheckResultExists(r)` returns, and it returns true if and only if `r` has no fault
and the report holds, among the results carrying `marker`, a result with the rule name and the
flavor ID of `r`. Go `equals` holds iff the two results share `Rule.Name` and `FlavorId`. -/
theorem CheckResultExists_other_rule (names : RuleNames) (t : TrustReport) (r : RuleResult)
    (marker : String) (rest : List String) (hm : r.Rule.Markers = marker :: rest)
    (hrule : names.isPcrRule r.Rule.Name = false) :
    (∃ b, t.CheckResultExists names r = some b ∧
      (b = true ↔ r.Faults = [] ∧
        ∃ e ∈ t.GetResultsForMarker marker,
          e.Rule.Name = r.Rule.Name ∧ e.FlavorId = r.FlavorId)) ∧
    ∀ a b : RuleResult, a.equals b = true ↔ a.Rule.Name = b.Rule.Name ∧ a.FlavorId = b.FlavorId := by
  refine ⟨⟨checkResultLoop names r (t.GetResultsForMarker marker), ?_, ?_⟩,
    RuleResult_equals_iff⟩
  · simp [TrustReport.CheckResultExists, hm]
  · rw [checkResultLoop_other_rule names r hrule]
    constructor
    · rintro ⟨hf, e, he, heq⟩
      have h := (RuleResult_equals_iff r e).1 heq
      exact ⟨hf, e, he, h.1.symm, h.2.symm⟩
    · rintro ⟨hf, e, he, h1, h2⟩
      exact ⟨hf, e, he, (RuleResult_equals_iff r e).2 ⟨h1.symm, h2.symm⟩⟩

/-- C21 (witness): the asset-tag result without fault is found in a report that holds it, and
the one with a fault is not. -/
theorem CheckResultExists_other_rule_witness :
    TrustReport.CheckResultExists exRuleNames
        ⟨"", [⟨⟨"AssetTagMatches", ["ASSET_TAG"], none⟩, 7, [], true⟩], false, HostManifest.zero⟩
        ⟨⟨"AssetTagMatches", ["ASSET_TAG"], none⟩, 7, [], true⟩ = some true ∧
    ∃ b, TrustReport.CheckResultExists exRuleNames
        ⟨"", [⟨⟨"AssetTagMatches", ["ASSET_TAG"], none⟩, 7, [], true⟩], false, HostManifest.zero⟩
        ⟨⟨"AssetTagMatches", ["ASSET_TAG"], none⟩, 7, [⟨"fault", "tag"⟩], false⟩ = some b ∧
      (b = true ↔ ([⟨"fault", "tag"⟩] : List Fault) = [] ∧
        ∃ e ∈ TrustReport.GetResultsForMarker
            ⟨"", [⟨⟨"AssetTagMatches", ["ASSET_TAG"], none⟩, 7, [], true⟩], false,
              HostManifest.zero⟩ "ASSET_TAG",
          e.Rule.Name = "AssetTagMatches" ∧ e.FlavorId = 7) :=
  ⟨by decide,
    (CheckResultExists_other_rule exRuleNames
      ⟨"", [⟨⟨"AssetTagMatches", ["ASSET_TAG"], none⟩, 7, [], true⟩], false, HostManifest.zero⟩
      ⟨⟨"AssetTagMatches", ["ASSET_TAG"], none⟩, 7, [⟨"fault", "tag"⟩], false⟩ "ASSET_TAG" []
      rfl (by decide)).1⟩

/-- C21 (counterexample): the report holds one asset-tag result for flavor 7 with the marker
ASSET_TAG; for a target with the same rule name, flavor ID and marker that has one fault,
`CheckResultExists` returns false. -/
theorem CheckResultExists_false_for_faulty_target :
    exRuleNames.isPcrRule "AssetTagMatches" = false ∧
    (TrustReport.GetResultsForMarker
        ⟨"", [⟨⟨"AssetTagMatches", ["ASSET_TAG"], none⟩, 7, [], true⟩], false, HostManifest.zero⟩
        "ASSET_TAG").any (fun e => e.Rule.Name == "AssetTagMatches" && e.FlavorId == 7) = true ∧
    TrustReport.CheckResultExists exRuleNames
        ⟨"", [⟨⟨"AssetTagMatches", ["ASSET_TAG"], none⟩, 7, [], true⟩], false, HostManifest.zero⟩
        ⟨⟨"AssetTagMatches", ["ASSET_TAG"], none⟩, 7, [⟨"fault", "tag"⟩], false⟩ = some false := by
  decide

/-- C22 (amended): for a target `r` with first marker `marker` whose rule is one of the three
PCR rules, `CheckResultExists(r)` returns, and it returns true if and only if `r` has an
expected PCR (it is not nil) and the report holds, among the results carrying `marker`, a
result with the rule name, the flavor ID and the expected PCR of `r`; `AddResult(r)` leaves
the report unchanged exactly in that case and appends `r` otherwise. -/
theorem CheckResultExists_pcr_rule (names : RuleNames) (t : TrustReport) (r : RuleResult)
    (marker : String) (rest : List String) (hm : r.Rule.Markers = marker :: rest)
    (hrule : names.isPcrRule r.Rule.Name = true) :
    ∃ b, t.CheckResultExists names r = some b ∧
      (b = true ↔ ∃ pcr, r.Rule.ExpectedPcr = some pcr ∧
        ∃ e ∈ t.GetResultsForMarker marker,
          e.Rule.Name = r.Rule.Name ∧ e.FlavorId = r.FlavorId ∧
            e.Rule.ExpectedPcr = some pcr) ∧
      t.AddResult names r =
        some (if b = true then t else { t with Results := t.Results ++ [r] }) := by
  refine ⟨checkResultLoop names r (t.GetResultsForMarker marker), ?_, ?_, ?_⟩
  · simp [TrustReport.CheckResultExists, hm]
  · rw [checkResultLoop_pcr_rule names r hrule]
    constructor
    · rintro ⟨pcr, hp, e, he, heq, hep⟩
      have h := (RuleResult_equals_iff r e).1 heq
      exact ⟨pcr, hp, e, he, h.1.symm, h.2.symm, hep⟩
    · rintro ⟨pcr, hp, e, he, h1, h2, hep⟩
      exact ⟨pcr, hp, e, he, (RuleResult_equals_iff r e).2 ⟨h1.symm, h2.symm⟩, hep⟩
  · simp only [TrustReport.AddResult, TrustReport.CheckResultExists, hm]
    cases checkResultLoop names r (t.GetResultsForMarker marker) <;> simp

/-- C22 (witness): a PcrMatchesConstant result with an expected PCR is found in a report
that holds it, and adding it again changes nothing. -/
theorem CheckResultExists_pcr_rule_witness :
    TrustReport.AddResult exRuleNames
        ⟨"", [⟨⟨"PcrMatchesConstant", ["PLATFORM"], some ⟨0, "ab", "SHA256"⟩⟩, 7, [], true⟩],
          false, HostManifest.zero⟩
        ⟨⟨"PcrMatchesConstant", ["PLATFORM"], some ⟨0, "ab", "SHA256"⟩⟩, 7, [], true⟩ =
      some ⟨"", [⟨⟨"PcrMatchesConstant", ["PLATFORM"], some ⟨0, "ab", "SHA256"⟩⟩, 7, [], true⟩],
        false, HostManifest.zero⟩ ∧
    ∃ b, TrustReport.CheckResultExists exRuleNames
        ⟨"", [⟨⟨"PcrMatchesConstant", ["PLATFORM"], some ⟨0, "ab", "SHA256"⟩⟩, 7, [], true⟩],
          false, HostManifest.zero⟩
        ⟨⟨"PcrMatchesConstant", ["PLATFORM"], some ⟨0, "ab", "SHA256"⟩⟩, 7, [], true⟩ = some b :=
  ⟨by decide,
    (CheckResultExists_pcr_rule exRuleNames
      ⟨"", [⟨⟨"PcrMatchesConstant", ["PLATFORM"], some ⟨0, "ab", "SHA256"⟩⟩, 7, [], true⟩],
        false, HostManifest.zero⟩
      ⟨⟨"PcrMatchesConstant", ["PLATFORM"], some ⟨0, "ab", "SHA256"⟩⟩, 7, [], true⟩
      "PLATFORM" [] rfl (by decide)).imp (fun _ h => h.1)⟩

/-- C22 (counterexample): the report holds a PcrMatchesConstant result for flavor 7 whose
expected PCR is nil; for the same result as target (same rule name, flavor ID, and the nil
expected PCR), `CheckResultExists` returns false and `AddResult` appends it again. -/
theorem CheckResultExists_false_for_nil_pcr :
    exRuleNames.isPcrRule "PcrMatchesConstant" = true ∧
    TrustReport.GetResultsForMarker
        ⟨"", [⟨⟨"PcrMatchesConstant", ["PLATFORM"], none⟩, 7, [], true⟩], false,
          HostManifest.zero⟩ "PLATFORM"
      = [⟨⟨"PcrMatchesConstant", ["PLATFORM"], none⟩, 7, [], true⟩] ∧
    TrustReport.CheckResultExists exRuleNames
        ⟨"", [⟨⟨"PcrMatchesConstant", ["PLATFORM"], none⟩, 7, [], true⟩], false,
          HostManifest.zero⟩
        ⟨⟨"PcrMatchesConstant", ["PLATFORM"], none⟩, 7, [], true⟩ = some false ∧
    (TrustReport.AddResult exRuleNames
        ⟨"", [⟨⟨"PcrMatchesConstant", ["PLATFORM"], none⟩, 7, [], true⟩], false,
          HostManifest.zero⟩
        ⟨⟨"PcrMatchesConstant", ["PLATFORM"], none⟩, 7, [], true⟩).map
      (fun t => t.Results.length) = some 2 := by
  decide

/-- C26: `CheckResultExists` and `AddResult` complete (without the out-of-range index of
`Markers[0]`) exactly for the results whose `Rule.Markers` is not empty, whatever the
report. -/
theorem CheckResultExists_AddResult_safe_iff (names : RuleNames) (t : TrustReport)
    (r : RuleResult) :
    ((t.CheckResultExists names r).isSome = true ↔ r.Rule.Markers ≠ []) ∧
    ((t.AddResult names r).isSome = true ↔ r.Rule.Markers ≠ []) ∧
    (r.Rule.Markers = [] → t.CheckResultExists names r = none ∧ t.AddResult names r = none) := by
  unfold TrustReport.AddResult TrustReport.CheckResultExists
  cases hm : r.Rule.Markers with
  | nil => simp
  | cons m ms =>
    simp only [Option.isSome_some, ne_eq, reduceCtorEq, not_false_eq_true, true_iff, false_imp_iff,
      and_true, true_and]
    split <;> simp

/-- C27: for a result `r` with at least one marker, `AddResult(r)` returns a report whose
`Results` are the previous ones or the previous ones followed by `r`: the previous results are
kept in place at the front, the length grows by 0 or 1, and `PolicyName`, `Trusted` and
`HostManifest` are unchanged. -/
theorem AddResult_frame (names : RuleNames) (t : TrustReport) (r : RuleResult)
    (hm : r.Rule.Markers ≠ []) :
    ∃ t1, t.AddResult names r = some t1 ∧
      (t1.Results = t.Results ∨ t1.Results = t.Results ++ [r]) ∧
      t1.Results.take t.Results.length = t.Results ∧
      (t1.Results.length = t.Results.length ∨ t1.Results.length = t.Results.length + 1) ∧
      t1.PolicyName = t.PolicyName ∧ t1.Trusted = t.Trusted ∧
      t1.HostManifest = t.HostManifest := by
  unfold TrustReport.AddResult TrustReport.CheckResultExists
  cases hmk : r.Rule.Markers with
  | nil => exact absurd hmk hm
  | cons m ms =>
    simp only []
    cases checkResultLoop names r (t.GetResultsForMarker m) with
    | true => exact ⟨t, by simp⟩
    | false => exact ⟨{ t with Results := t.Results ++ [r] }, by simp⟩

/-- C27 (witness): adding an asset-tag result to the empty report appends it. -/
theorem AddResult_frame_witness :
    ∃ t1, TrustReport.zero.AddResult exRuleNames
        ⟨⟨"AssetTagMatches", ["ASSET_TAG"], none⟩, 7, [], true⟩ = some t1 ∧
      (t1.Results = TrustReport.zero.Results ∨
        t1.Results = TrustReport.zero.Results ++
          [⟨⟨"AssetTagMatches", ["ASSET_TAG"], none⟩, 7, [], true⟩]) :=
  (AddResult_frame exRuleNames TrustReport.zero
    ⟨⟨"AssetTagMatches", ["ASSET_TAG"], none⟩, 7, [], true⟩ (by decide)).imp
    (fun _ h => ⟨h.1, h.2.1⟩)

/-! ## Theorems: errors of the flavor verifier -/

/-- The loop of `validateCachedFlavors` on a list holding a flavor the verifier fails on: it
stops at the first such flavor with the wrapped error, after one `Verify` call per flavor up
to that one. -/
theorem validateLoop_error {σ ρ : Type} (env : Env σ ρ) (hostData : HostManifest)
    (l : List SignedFlavor) (vars : ValidateVars) (calls : List (Call ρ))
    (h : ∃ f ∈ l, ∃ e, env.flavorVerify hostData f true = .error e) :
    ∃ pre f e post, l = pre ++ f :: post ∧
      (∀ g ∈ pre, ∃ rep, env.flavorVerify hostData g true = .ok rep) ∧
      env.flavorVerify hostData f true = .error e ∧
      validateLoop env hostData l vars calls =
        (.error ("hosttrust/verifier:validateCachedFlavors() Error from flavor verifier" ++ ": "
          ++ e), calls ++ (pre ++ [f]).map Call.flavorVerify) := by
  induction l generalizing vars calls with
  | nil =>
    obtain ⟨f, hf, _⟩ := h
    exact absurd hf (List.not_mem_nil f)
  | cons a rest ih =>
    cases hv : env.flavorVerify hostData a true with
    | error e =>
      refine ⟨[], a, e, rest, rfl, ?_, hv, ?_⟩
      · intro g hg
        exact absurd hg (List.not_mem_nil g)
      · unfold validateLoop
        simp [hv]
    | ok rep =>
      have hrest : ∃ f ∈ rest, ∃ e, env.flavorVerify hostData f true = .error e := by
        obtain ⟨f, hf, e, he⟩ := h
        rcases List.mem_cons.mp hf with rfl | hf
        · rw [hv] at he
          cases he
        · exact ⟨f, hf, e, he⟩
      unfold validateLoop
      simp only [hv]
      split
      · obtain ⟨pre, f, e, post, hl, hpre, hf, hloop⟩ := ih
          { vars with
            htc := { vars.htc with trustedFlavors := vars.htc.trustedFlavors ++ [a.Flavor] }
            collectiveReport := { vars.collectiveReport with
              Results := vars.collectiveReport.Results ++ rep.Results } }
          (calls ++ [Call.flavorVerify a]) hrest
        refine ⟨a :: pre, f, e, post, by simp [hl], ?_, hf, ?_⟩
        · intro g hg
          rcases List.mem_cons.mp hg with rfl | hg
          · exact ⟨rep, hv⟩
          · exact hpre g hg
        · rw [hloop]
          simp
      · obtain ⟨pre, f, e, post, hl, hpre, hf, hloop⟩ := ih
          { vars with
            trustCachesToDelete := vars.trustCachesToDelete ++ [a.Flavor.Meta.ID] }
          (calls ++ [Call.flavorVerify a]) hrest
        refine ⟨a :: pre, f, e, post, by simp [hl], ?_, hf, ?_⟩
        · intro g hg
          rcases List.mem_cons.mp hg with rfl | hg
          · exact ⟨rep, hv⟩
          · exact hpre g hg
        · rw [hloop]
          simp

/-- C28: if the flavor verifier returns an error for a cached flavor, `validateCachedFlavors`
returns the error of the first such flavor (wrapped by `errors.Wrap`) together with the empty
`hostTrustCache{}`: no trusted flavor, no result. The store is left as it was and the only
calls made are the `Verify` calls up to the failing flavor: `RemoveTrustCacheFlavors` is not
called, whatever was found untrusted before. -/
theorem validateCachedFlavors_verifier_error {σ ρ : Type} (env : Env σ ρ) (hostId : UUID)
    (hostData : HostManifest) (cachedFlavors : List SignedFlavor) (w : World σ ρ)
    (h : ∃ f ∈ cachedFlavors, ∃ e, env.flavorVerify hostData f true = .error e) :
    ∃ pre f e post, cachedFlavors = pre ++ f :: post ∧
      (∀ g ∈ pre, ∃ rep, env.flavorVerify hostData g true = .ok rep) ∧
      env.flavorVerify hostData f true = .error e ∧
      (validateCachedFlavors env hostId hostData cachedFlavors w).1 =
        .error ("hosttrust/verifier:validateCachedFlavors() Error from flavor verifier" ++ ": "
          ++ e) ∧
      cacheOrZero (validateCachedFlavors env hostId hostData cachedFlavors w).1
        = hostTrustCache.zero ∧
      hostTrustCache.zero.trustedFlavors = [] ∧
      hostTrustCache.zero.trustReport.Results = [] ∧
      (validateCachedFlavors env hostId hostData cachedFlavors w).2.state = w.state ∧
      (validateCachedFlavors env hostId hostData cachedFlavors w).2.calls =
        w.calls ++ (pre ++ [f]).map Call.flavorVerify ∧
      ∀ ids, Call.RemoveTrustCacheFlavors hostId ids ∉
        (pre ++ [f]).map (Call.flavorVerify : SignedFlavor → Call ρ) := by
  obtain ⟨pre, f, e, post, hl, hpre, hf, hloop⟩ := validateLoop_error env hostData cachedFlavors
    ⟨{ hostTrustCache.zero with hostID := hostId }, TrustReport.zero, []⟩ w.calls h
  refine ⟨pre, f, e, post, hl, hpre, hf, ?_, ?_, rfl, rfl, ?_, ?_, ?_⟩
  · simp [validateCachedFlavors, hloop]
  · simp [validateCachedFlavors, hloop, cacheOrZero]
  · simp [validateCachedFlavors, hloop]
  · simp [validateCachedFlavors, hloop]
  · intro ids hmem
    simp at hmem

/-- C28 (witness): flavor 8 is found untrusted, then the verifier fails on flavor 9: the
error is returned and the only calls are the two `Verify` calls. -/
theorem validateCachedFlavors_verifier_error_witness :
    (validateCachedFlavors exEnv 1 exManifest [exFlavorB, ⟨⟨⟨9⟩⟩, "sigC"⟩]
      ⟨exStore [(1, 10, 8), (1, 10, 9)], []⟩).2.calls =
      [Call.flavorVerify exFlavorB, Call.flavorVerify ⟨⟨⟨9⟩⟩, "sigC"⟩] ∧
    (validateCachedFlavors exEnv 1 exManifest [exFlavorB, ⟨⟨⟨9⟩⟩, "sigC"⟩]
      ⟨exStore [(1, 10, 8), (1, 10, 9)], []⟩).2.state = exStore [(1, 10, 8), (1, 10, 9)] ∧
    cacheOrZero (validateCachedFlavors exEnv 1 exManifest [exFlavorB, ⟨⟨⟨9⟩⟩, "sigC"⟩]
      ⟨exStore [(1, 10, 8), (1, 10, 9)], []⟩).1 = hostTrustCache.zero := by
  obtain ⟨pre, f, e, post, _, _, _, _, h5, _, _, h8, _, _⟩ :=
    validateCachedFlavors_verifier_error exEnv 1 exManifest [exFlavorB, ⟨⟨⟨9⟩⟩, "sigC"⟩]
      ⟨exStore [(1, 10, 8), (1, 10, 9)], []⟩
      ⟨⟨⟨⟨9⟩⟩, "sigC"⟩, by simp, "flavor verifier failed", rfl⟩
  exact ⟨by decide, h8, h5⟩

/-! ## Theorems: the base URL of the host connector -/

/-- A list starts with each of its own initial segments. -/
theorem startsWith_append (p r : List Char) : startsWith p (p ++ r) = true := by
  induction p with
  | nil => cases r <;> rfl
  | cons c cs ih => simp [startsWith, ih]

/-- The scan of `strings.Contains` finds a string at the end of a longer one. -/
theorem containsAux_append_self (sub l : List Char) : containsAux sub (l ++ sub) = true := by
  induction l with
  | nil =>
    cases sub with
    | nil => rfl
    | cons c cs =>
      have h := startsWith_append (c :: cs) []
      simp only [List.append_nil] at h
      simp [containsAux, h]
  | cons a rest ih => simp [containsAux, ih]

/-- C30: the first library call of `GetHostConnector` is `url.Parse` of the base URL, which
is `vendorConnector.Url` when that string contains "/v2" and `vendorConnector.Url + "/v2"`
otherwise; it is the URL handed on to `NewTAClient` when it parses. The base URL always
contains "/v2", and normalising it again leaves it unchanged. -/
theorem GetHostConnector_baseURL {τ : Type} (env : FactoryEnv τ)
    (vendorConnector : VendorConnector) (aasApiUrl trustedCaCerts : String) :
    (∃ rest, (GetHostConnector env vendorConnector aasApiUrl trustedCaCerts).2 =
      FactoryCall.urlParse
        (if stringsContains vendorConnector.Url "/v2" = true then vendorConnector.Url
          else vendorConnector.Url ++ "/v2") :: rest ∧
      ∀ c ∈ rest, ∃ taApiURL,
        env.urlParse (if stringsContains vendorConnector.Url "/v2" = true then vendorConnector.Url
          else vendorConnector.Url ++ "/v2") = .ok taApiURL ∧
        c = FactoryCall.NewTAClient aasApiUrl taApiURL vendorConnector.Configuration.Username
          vendorConnector.Configuration.Password trustedCaCerts) ∧
    baseURL vendorConnector.Url =
      (if stringsContains vendorConnector.Url "/v2" = true then vendorConnector.Url
        else vendorConnector.Url ++ "/v2") ∧
    stringsContains (baseURL vendorConnector.Url) "/v2" = true ∧
    baseURL (baseURL vendorConnector.Url) = baseURL vendorConnector.Url := by
  have hbase : baseURL vendorConnector.Url =
      (if stringsContains vendorConnector.Url "/v2" = true then vendorConnector.Url
        else vendorConnector.Url ++ "/v2") := by
    unfold baseURL
    cases stringsContains vendorConnector.Url "/v2" <;> simp
  have hcontains : stringsContains (baseURL vendorConnector.Url) "/v2" = true := by
    rw [hbase]
    by_cases h : stringsContains vendorConnector.Url "/v2" = true
    · simp only [h, if_true]
    · simp only [h, Bool.false_eq_true, if_false]
      unfold stringsContains
      rw [String.data_append]
      exact containsAux_append_self _ _
  refine ⟨?_, hbase, hcontains, ?_⟩
  · rw [← hbase]
    unfold GetHostConnector
    simp only []
    cases hp : env.urlParse (baseURL vendorConnector.Url) with
    | error e => exact ⟨[], rfl, by simp⟩
    | ok u =>
      simp only []
      split <;> exact ⟨_, rfl, by simp⟩
  · have h2 : baseURL (baseURL vendorConnector.Url) =
        (if !stringsContains (baseURL vendorConnector.Url) "/v2" then
          baseURL vendorConnector.Url ++ "/v2" else baseURL vendorConnector.Url) := rfl
    rw [h2, hcontains]
    rfl

/-! ## Theorems: the flavor-group search query -/

/-- The model condition `flavorGroup{}` selects every row. -/
theorem Condition_model_zero_holds (row : String × flavorGroup) :
    (Condition.model flavorGroup.zero).holds row = true := by
  simp [Condition.holds, flavorGroup.zero]

/-- C29: `buildFlavorGroupSearchQuery` returns nil for a nil query object. For a nil filter it
adds the condition `&flavorGroup{}`, which selects every row (the in-memory `Find` returns
what it returns for the query itself). For a filter it adds at most one condition: `id = ?`
when `Id` is not empty; else `name = ?` when `NameEqualTo` is not empty; else `name like ?`
with "%" + NameContains + "%" when `NameContains` is not empty; and none when the three
fields are empty, leaving the query unchanged. -/
theorem buildFlavorGroupSearchQuery_cases (tx : DB) (f : FlavorGroupFilterCriteria)
    (s : MemDb) :
    (∀ filter, buildFlavorGroupSearchQuery none filter = none) ∧
    buildFlavorGroupSearchQuery (some tx) none = some (tx.Where (.model flavorGroup.zero)) ∧
    memStoreEnv.Find (tx.Where (.model flavorGroup.zero)) s = memStoreEnv.Find tx s ∧
    ∃ extra, buildFlavorGroupSearchQuery (some tx) (some f) = some ⟨tx.conditions ++ extra⟩ ∧
      extra.length ≤ 1 ∧
      (f.Id ≠ "" → extra = [.query "id = ?" f.Id]) ∧
      (f.Id = "" → f.NameEqualTo ≠ "" → extra = [.query "name = ?" f.NameEqualTo]) ∧
      (f.Id = "" → f.NameEqualTo = "" → f.NameContains ≠ "" →
        extra = [.query "name like ? " ("%" ++ f.NameContains ++ "%")]) ∧
      (f.Id = "" → f.NameEqualTo = "" → f.NameContains = "" →
        extra = [] ∧ buildFlavorGroupSearchQuery (some tx) (some f) = some tx) := by
  refine ⟨fun _ => rfl, rfl, ?_, ?_⟩
  · simp only [memStoreEnv, DB.Where, List.all_append, List.all_cons, List.all_nil,
      Bool.and_true, Condition_model_zero_holds]
  · unfold buildFlavorGroupSearchQuery
    simp only [DB.Where]
    by_cases h1 : f.Id = ""
    · by_cases h2 : f.NameEqualTo = ""
      · by_cases h3 : f.NameContains = ""
        · exact ⟨[], by simp [h1, h2, h3]⟩
        · exact ⟨[.query "name like ? " ("%" ++ f.NameContains ++ "%")], by simp [h1, h2, h3]⟩
      · exact ⟨[.query "name = ?" f.NameEqualTo], by simp [h1, h2]⟩
    · exact ⟨[.query "id = ?" f.Id], by simp [h1]⟩

/-- The query built for a filter does not depend on its `HostId`. -/
theorem buildFlavorGroupSearchQuery_ignores_HostId (tx : Option DB)
    (f : FlavorGroupFilterCriteria) (hostId : String) :
    buildFlavorGroupSearchQuery tx (some { f with HostId := hostId }) =
      buildFlavorGroupSearchQuery tx (some f) := by
  cases tx <;> rfl

/-- C25 (the code at the failing input): the filter that `Verify` builds, with only `HostId`
set (here "h1"), leaves the query without any condition, and `Search` on a database in which
"h1" is associated with group 10 only returns the groups 10 and 11. -/
theorem Search_ignores_HostId :
    buildFlavorGroupSearchQuery (some ⟨[]⟩) (some ⟨"", "", "", "h1"⟩) = some ⟨[]⟩ ∧
    Search memStoreEnv (some ⟨[]⟩) (some ⟨"", "", "", "h1"⟩) exDb
      = some (.ok [⟨10, "platform"⟩, ⟨11, "software"⟩]) ∧
    exDb.associated "h1" ⟨10, "platform"⟩ = true ∧
    exDb.associated "h1" ⟨11, "software"⟩ = false := by
  decide

/-! ## Theorems: validation of an asset-tag configuration -/

/-- C23: `CreateAssetTag` checks subject UUID, tag attributes, validity seconds, private key
and tag-CA certificate in this order and returns the error of the first check that fails,
and no certificate. -/
theorem CreateAssetTag_validation_order (env : AtagEnv) (cfg : TagCertConfig) :
    (cfg.SubjectUUID = "" → CreateAssetTag env cfg =
      .error "Subject UUID is required to be set to create an asset tag certificate") ∧
    (cfg.SubjectUUID ≠ "" → cfg.TagAttributes = [] → CreateAssetTag env cfg =
      .error "Tag key-value attributes are required to be set to create an asset tag certificate") ∧
    (cfg.SubjectUUID ≠ "" → cfg.TagAttributes ≠ [] → cfg.ValidityInSeconds = 0 →
      CreateAssetTag env cfg =
        .error "Certificate validity in seconds required to be set to create an asset tag certificate") ∧
    (cfg.SubjectUUID ≠ "" → cfg.TagAttributes ≠ [] → cfg.ValidityInSeconds ≠ 0 →
      cfg.PrivateKey = none → CreateAssetTag env cfg =
        .error "Private key is required to be set to create an asset tag certificate") ∧
    (cfg.SubjectUUID ≠ "" → cfg.TagAttributes ≠ [] → cfg.ValidityInSeconds ≠ 0 →
      cfg.PrivateKey ≠ none → cfg.TagCACert.Raw = [] → CreateAssetTag env cfg =
        .error "Tag CA-Certificate is required to be set to fetch issuer configuration information to create an asset tag certificate") := by
  refine ⟨?_, ?_, ?_, ?_, ?_⟩
  · intro h
    simp [CreateAssetTag, h]
  · intro h1 h2
    simp [CreateAssetTag, h1, h2]
  · intro h1 h2 h3
    simp [CreateAssetTag, h1, h2, h3]
  · intro h1 h2 h3 h4
    simp [CreateAssetTag, h1, h2, h3, h4]
  · intro h1 h2 h3 h4 h5
    cases hk : cfg.PrivateKey with
    | none => exact absurd hk h4
    | some key =>
      simp only [CreateAssetTag, hk, h5, List.isEmpty_nil, if_true]
      simp [h1, h2, h3]

/-- C23 (the five cases of the test): each configuration of the test of the package with one
input unset gives the message the test expects. -/
theorem CreateAssetTag_validation_examples :
    CreateAssetTag memAtagEnv { exTagConfig with SubjectUUID := "" } =
      .error "Subject UUID is required to be set to create an asset tag certificate" ∧
    CreateAssetTag memAtagEnv { exTagConfig with TagAttributes := [] } =
      .error "Tag key-value attributes are required to be set to create an asset tag certificate" ∧
    CreateAssetTag memAtagEnv { exTagConfig with ValidityInSeconds := 0 } =
      .error "Certificate validity in seconds required to be set to create an asset tag certificate" ∧
    CreateAssetTag memAtagEnv { exTagConfig with PrivateKey := none } =
      .error "Private key is required to be set to create an asset tag certificate" ∧
    CreateAssetTag memAtagEnv { exTagConfig with TagCACert := Certificate.zero } =
      .error "Tag CA-Certificate is required to be set to fetch issuer configuration information to create an asset tag certificate" ∧
    CreateAssetTag memAtagEnv ⟨"", none, Certificate.zero, [], 0⟩ =
      .error "Subject UUID is required to be set to create an asset tag certificate" :=
  ⟨rfl, rfl, rfl, rfl, rfl, rfl⟩

/-! ## Theorems: the trust cache in one iteration of Verify -/

/-- Every flavor `getCachedFlavors` returns was retrieved for one of the cached IDs. -/
theorem retrievedFlavors_mem {σ ρ : Type} (env : Env σ ρ) (flIds : List UUID) (s : σ)
    (f : SignedFlavor) (hf : f ∈ retrievedFlavors env flIds s) :
    ∃ flvId ∈ flIds, env.flavorRetrieve flvId s = .ok f := by
  unfold retrievedFlavors at hf
  obtain ⟨flvId, hmem, hopt⟩ := List.mem_filterMap.mp hf
  refine ⟨flvId, hmem, ?_⟩
  cases hr : env.flavorRetrieve flvId s with
  | error e => simp [hr, Except.toOption] at hopt
  | ok f2 =>
    simp [hr, Except.toOption] at hopt
    rw [hopt]

/-- The trace of one iteration of `Verify` after `validateCachedFlavors`: nothing more, or the
one `createFlavorGroupReport` call; without a retrieved flavor the iteration ends after
`getCachedFlavors`. -/
theorem verifyGroup_world {σ ρ : Type} (env : Env σ ρ) (hostId hwUuid : UUID)
    (hostData : HostManifest) (vars : VerifyVars σ ρ) (g : FlavorGroup) :
    (fgCachedFlavors env hostId hwUuid vars g = [] →
      (verifyGroup env hostId hwUuid hostData vars g).world
        = (fgCached env hostId hwUuid vars g).2) ∧
    (fgCachedFlavors env hostId hwUuid vars g ≠ [] →
      ∃ created, (verifyGroup env hostId hwUuid hostData vars g).world.calls =
          (fgValidated env hostId hwUuid hostData vars g).2.calls ++ created ∧
        ∀ c ∈ created, c.isCreateFlavorGroupReport = true) := by
  constructor
  · intro h
    unfold verifyGroup
    simp [h]
  · intro h
    have hlen : (fgCachedFlavors env hostId hwUuid vars g).length > 0 :=
      List.length_pos.mpr h
    unfold verifyGroup
    simp only [hlen, if_true]
    split
    · exact ⟨[_], rfl, by simp [Call.isCreateFlavorGroupReport]⟩
    · exact ⟨[], by simp, by simp⟩

/-- C7 (amended): let `Verify` pass the manifest checks, let the search return the groups
`pre ++ g :: post`, let `V` be the state of the loop when the iteration for `g` starts, and let
the host store return the cached IDs `flIds` of `g`. The trace of that iteration starts the
trace `Verify` ends with. `getCachedFlavors` returns the flavors whose `flavorStore.Retrieve`
succeeds, makes one `Retrieve` call per cached ID and changes no store state: a cached ID
whose `Retrieve` fails is skipped. Then:
* if no cached ID is retrievable, the iteration ends there: the flavor verifier and
  `RemoveTrustCacheFlavors` are not called;
* if some are and the flavor verifier fails on none of them, `RemoveTrustCacheFlavors` is
  called once, with exactly the `Meta.ID`s of the retrieved flavors whose report is not
  Trusted, and only `createFlavorGroupReport` may follow in the iteration;
* if the flavor verifier fails on a retrieved flavor, the iteration makes `Verify` calls up to
  that flavor, leaves the store state as it was, and does not call
  `RemoveTrustCacheFlavors`. -/
theorem Verify_group_cache_removal {σ ρ : Type} (env : Env σ ρ) (hostId hwUuid : UUID)
    (hostData : HostManifest) (newData : Bool) (w : World σ ρ)
    (pre post : List FlavorGroup) (g : FlavorGroup) (flIds : List UUID) (V : VerifyVars σ ρ)
    (hparse : env.uuidParse hostData.HostInfo.HardwareUUID = .ok hwUuid)
    (hnz : hwUuid ≠ uuidNil)
    (hsearch : env.flavorGroupSearch hostId w.state = .ok (pre ++ g :: post))
    (hV : V = verifyLoop env hostId hwUuid hostData pre (w.record (Call.flavorGroupSearch hostId)))
    (hIds : env.RetrieveTrustCacheFlavors hostId g.ID V.world.state = .ok flIds) :
    (∃ later, (Verify env hostId (some hostData) newData w).2.calls =
      (verifyGroup env hostId hwUuid hostData V g).world.calls ++ later) ∧
    fgCachedFlavors env hostId hwUuid V g = retrievedFlavors env flIds V.world.state ∧
    (∀ f ∈ retrievedFlavors env flIds V.world.state,
      ∃ flvId ∈ flIds, env.flavorRetrieve flvId V.world.state = .ok f) ∧
    (fgCached env hostId hwUuid V g).2.state = V.world.state ∧
    (fgCached env hostId hwUuid V g).2.calls =
      V.world.calls ++ [Call.NewFlvGrpHostTrustReqs hostId hwUuid g] ++
        [Call.RetrieveTrustCacheFlavors hostId g.ID] ++ flIds.map Call.flavorRetrieve ∧
    (retrievedFlavors env flIds V.world.state = [] →
      (verifyGroup env hostId hwUuid hostData V g).world = (fgCached env hostId hwUuid V g).2) ∧
    (retrievedFlavors env flIds V.world.state ≠ [] →
      (∀ f ∈ retrievedFlavors env flIds V.world.state,
        ∃ rep, env.flavorVerify hostData f true = .ok rep) →
      (fgValidated env hostId hwUuid hostData V g).2.state =
        (env.RemoveTrustCacheFlavors hostId
          (((retrievedFlavors env flIds V.world.state).filter
            (fun f => !reportTrusted env hostData f)).map (fun f => f.Flavor.Meta.ID))
          V.world.state).2 ∧
      ∃ created, (verifyGroup env hostId hwUuid hostData V g).world.calls =
          (fgCached env hostId hwUuid V g).2.calls ++
            (retrievedFlavors env flIds V.world.state).map Call.flavorVerify ++
            [Call.RemoveTrustCacheFlavors hostId
              (((retrievedFlavors env flIds V.world.state).filter
                (fun f => !reportTrusted env hostData f)).map (fun f => f.Flavor.Meta.ID))] ++
            created ∧
        ∀ c ∈ created, c.isCreateFlavorGroupReport = true) ∧
    (retrievedFlavors env flIds V.world.state ≠ [] →
      (∃ f ∈ retrievedFlavors env flIds V.world.state,
        ∃ e, env.flavorVerify hostData f true = .error e) →
      (fgValidated env hostId hwUuid hostData V g).2.state = V.world.state ∧
      ∃ (verified : List SignedFlavor) (created : List (Call ρ)), (verifyGroup env hostId hwUuid hostData V g).world.calls =
          (fgCached env hostId hwUuid V g).2.calls ++ verified.map Call.flavorVerify ++ created ∧
        (∀ c ∈ created, c.isCreateFlavorGroupReport = true) ∧
        ∀ ids, Call.RemoveTrustCacheFlavors hostId ids ∉
          verified.map (Call.flavorVerify : SignedFlavor → Call ρ) ++ created) := by
  have hc : fgCached env hostId hwUuid V g =
      (.ok (retrievedFlavors env flIds V.world.state),
        { state := V.world.state
          calls := V.world.calls ++ [Call.NewFlvGrpHostTrustReqs hostId hwUuid g] ++
            [Call.RetrieveTrustCacheFlavors hostId g.ID] ++ flIds.map Call.flavorRetrieve }) := by
    unfold fgCached
    rw [getCachedFlavors_ok env hostId g.ID _ flIds (by simpa [World.record] using hIds)]
    simp [World.record]
  have hcf : fgCachedFlavors env hostId hwUuid V g
      = retrievedFlavors env flIds V.world.state := by
    simp [fgCachedFlavors, hc, sliceOrNil]
  obtain ⟨hskip, hrun⟩ := verifyGroup_world env hostId hwUuid hostData V g
  rw [hcf] at hskip hrun
  refine ⟨?_, hcf, retrievedFlavors_mem env flIds V.world.state, by rw [hc], by rw [hc],
    hskip, ?_, ?_⟩
  · obtain ⟨extra, hextra⟩ := Verify_calls_extend env hostId hwUuid hostData newData w
      (pre ++ g :: post) hparse hnz hsearch
    obtain ⟨_, _, ⟨e2, he2, _⟩⟩ := verifyGroups_facts env hostId hwUuid hostData post
      (verifyGroup env hostId hwUuid hostData V g)
    refine ⟨e2 ++ extra, ?_⟩
    rw [hextra, verifyLoop_split, ← hV, he2, List.append_assoc]
  · intro hne hver
    obtain ⟨_, _, hstate, hcalls, _⟩ := fgValidated_removes_untrusted env hostId hwUuid hostData
      V g flIds hIds hver
    obtain ⟨created, hcreated, hall⟩ := hrun hne
    refine ⟨hstate, created, ?_, hall⟩
    rw [hcreated, hcalls, hc]
  · intro hne hfail
    obtain ⟨done0, f, e, rest, _, _, _, hloop⟩ := validateLoop_error env hostData
      (retrievedFlavors env flIds V.world.state)
      ⟨{ hostTrustCache.zero with hostID := hostId }, TrustReport.zero, []⟩
      (fgCached env hostId hwUuid V g).2.calls hfail
    have hval : (fgValidated env hostId hwUuid hostData V g).2 =
        { state := V.world.state
          calls := (fgCached env hostId hwUuid V g).2.calls ++
            (done0 ++ [f]).map Call.flavorVerify } := by
      unfold fgValidated validateCachedFlavors
      rw [hcf]
      simp only [hloop]
      rw [hc]
    obtain ⟨created, hcreated, hall⟩ := hrun hne
    refine ⟨by rw [hval], done0 ++ [f], created, by rw [hcreated, hval], hall, ?_⟩
    intro ids hmem
    rcases List.mem_append.mp hmem with hm | hm
    · simp at hm
    · have := hall _ hm
      simp [Call.isCreateFlavorGroupReport] at this

/-- C7 (witness): host 1 has the flavor 8 (not trusted) and the unknown ID 9 cached for
group 10. The iteration retrieves 8 only and calls `RemoveTrustCacheFlavors` with 8 alone;
afterwards 9 is still cached. -/
theorem Verify_group_cache_removal_witness :
    retrievedFlavors exEnv [8, 9] (exStore [(1, 10, 8), (1, 10, 9)]) = [exFlavorB] ∧
    (fgValidated exEnv 1 5 exManifest
      (verifyLoop exEnv 1 5 exManifest []
        ((⟨exStore [(1, 10, 8), (1, 10, 9)], []⟩ : World MemStore MemReqs).record
          (Call.flavorGroupSearch 1))) exGroup).2.state.trustCache = [(1, 10, 9)] ∧
    ∃ created, (verifyGroup exEnv 1 5 exManifest
      (verifyLoop exEnv 1 5 exManifest []
        ((⟨exStore [(1, 10, 8), (1, 10, 9)], []⟩ : World MemStore MemReqs).record
          (Call.flavorGroupSearch 1))) exGroup).world.calls =
      [Call.flavorGroupSearch 1, Call.NewFlvGrpHostTrustReqs 1 5 exGroup,
        Call.RetrieveTrustCacheFlavors 1 10, Call.flavorRetrieve 8, Call.flavorRetrieve 9,
        Call.flavorVerify exFlavorB, Call.RemoveTrustCacheFlavors 1 [8]] ++ created := by
  have h := (Verify_group_cache_removal exEnv 1 5 exManifest false
    ⟨exStore [(1, 10, 8), (1, 10, 9)], []⟩ [] [] exGroup [8, 9]
    (verifyLoop exEnv 1 5 exManifest []
      ((⟨exStore [(1, 10, 8), (1, 10, 9)], []⟩ : World MemStore MemReqs).record
        (Call.flavorGroupSearch 1)))
    rfl (by decide) rfl rfl rfl).2.2.2.2.2.2.1 (by decide)
    (by
      intro f hf
      have h8 : f = exFlavorB := by
        have hr : retrievedFlavors exEnv [8, 9] (exStore [(1, 10, 8), (1, 10, 9)])
            = [exFlavorB] := by decide
        have hf2 : f ∈ retrievedFlavors exEnv [8, 9] (exStore [(1, 10, 8), (1, 10, 9)]) := hf
        rw [hr] at hf2
        simpa using hf2
      subst h8
      exact ⟨_, rfl⟩)
  obtain ⟨hstate, created, hcalls, _⟩ := h
  refine ⟨by decide, ?_, created, ?_⟩
  · rw [hstate]
    decide
  · rw [hcalls]
    have hpre : (fgCached exEnv 1 5
        (verifyLoop exEnv 1 5 exManifest []
          ((⟨exStore [(1, 10, 8), (1, 10, 9)], []⟩ : World MemStore MemReqs).record
            (Call.flavorGroupSearch 1))) exGroup).2.calls ++
        (retrievedFlavors exEnv [8, 9]
          (verifyLoop exEnv 1 5 exManifest []
            ((⟨exStore [(1, 10, 8), (1, 10, 9)], []⟩ : World MemStore MemReqs).record
              (Call.flavorGroupSearch 1))).world.state).map Call.flavorVerify ++
        [Call.RemoveTrustCacheFlavors 1
          (((retrievedFlavors exEnv [8, 9]
            (verifyLoop exEnv 1 5 exManifest []
              ((⟨exStore [(1, 10, 8), (1, 10, 9)], []⟩ : World MemStore MemReqs).record
                (Call.flavorGroupSearch 1))).world.state).filter
            (fun f => !reportTrusted exEnv exManifest f)).map (fun f => f.Flavor.Meta.ID))] =
        [Call.flavorGroupSearch 1, Call.NewFlvGrpHostTrustReqs 1 5 exGroup,
          Call.RetrieveTrustCacheFlavors 1 10, Call.flavorRetrieve 8, Call.flavorRetrieve 9,
          Call.flavorVerify exFlavorB, Call.RemoveTrustCacheFlavors 1 [8]] := by decide
    rw [hpre]

/-! ## Theorems: the asset-tag certificate -/

/-- The extensions built for the attributes when each attribute can be encoded: there is one
per attribute, in order, each with the OID of the service and not critical, and each value
decodes to its attribute. -/
theorem tagExtensions_ok (env : AtagEnv) (laws : DecodingLaws env) (attrs : List TagKvAttribute)
    (hmarshal : ∀ a ∈ attrs, ∃ der, env.asn1MarshalAttribute a = .ok der) :
    ∃ extensions, tagExtensions env attrs = .ok extensions ∧
      extensions.map (fun e => env.asn1UnmarshalAttribute e.Value) = attrs.map Except.ok ∧
      ∀ e ∈ extensions, e.Id = env.oid ∧ e.Critical = false := by
  induction attrs with
  | nil => exact ⟨[], rfl, rfl, by simp⟩
  | cons a rest ih =>
    obtain ⟨der, hder⟩ := hmarshal a (List.mem_cons_self a rest)
    obtain ⟨exts, hexts, hmap, hall⟩ := ih (fun b hb => hmarshal b (List.mem_cons_of_mem a hb))
    refine ⟨⟨env.oid, false, der⟩ :: exts, ?_, ?_, ?_⟩
    · simp [tagExtensions, hder, hexts]
    · simp [hmap, laws.attribute_roundtrip a der hder]
    · intro e he
      rcases List.mem_cons.mp he with rfl | he
      · exact ⟨rfl, rfl⟩
      · exact hall e he

/-- C24 (amended): let the configuration be valid, and let the encoding of its attributes,
the drawing of the serial number and the signing with its CA and key succeed. Then
`CreateAssetTag` succeeds; it hands `x509.CreateCertificate` a template whose subject common
name is `SubjectUUID` and whose extra extensions are one per attribute of `TagAttributes`, in
order, each with the OID of the service, not critical, and decoding to that attribute. The
certificate parses to one whose subject common name is `SubjectUUID` and whose extensions
are those the library added by itself followed by these: every attribute appears as an
extension, and when the library adds none every extension decodes to an attribute of the
configuration. -/
theorem CreateAssetTag_parsed_certificate (env : AtagEnv) (laws : DecodingLaws env)
    (cfg : TagCertConfig) (key : PrivateKey)
    (hsubject : cfg.SubjectUUID ≠ "") (hattrs : cfg.TagAttributes ≠ [])
    (hvalidity : cfg.ValidityInSeconds ≠ 0) (hkey : cfg.PrivateKey = some key)
    (hca : cfg.TagCACert.Raw ≠ [])
    (hmarshal : ∀ a ∈ cfg.TagAttributes, ∃ der, env.asn1MarshalAttribute a = .ok der)
    (hserial : ∃ n, env.newSerial = .ok n)
    (hsign : ∀ template, ∃ der, env.CreateCertificate template cfg.TagCACert key = .ok der) :
    ∃ der template cert,
      CreateAssetTag env cfg = .ok der ∧
      env.CreateCertificate template cfg.TagCACert key = .ok der ∧
      template.SubjectCommonName = cfg.SubjectUUID ∧
      template.ExtraExtensions.map (fun e => env.asn1UnmarshalAttribute e.Value)
        = cfg.TagAttributes.map Except.ok ∧
      (∀ e ∈ template.ExtraExtensions, e.Id = env.oid ∧ e.Critical = false) ∧
      env.ParseCertificate der = .ok cert ∧
      cert.SubjectCommonName = cfg.SubjectUUID ∧
      cert.Extensions =
        env.libraryExtensions template cfg.TagCACert ++ template.ExtraExtensions ∧
      (∀ a ∈ cfg.TagAttributes,
        ∃ e ∈ cert.Extensions, env.asn1UnmarshalAttribute e.Value = .ok a) ∧
      (env.libraryExtensions template cfg.TagCACert = [] →
        ∀ e ∈ cert.Extensions,
          ∃ a ∈ cfg.TagAttributes, env.asn1UnmarshalAttribute e.Value = .ok a) := by
  obtain ⟨exts, hexts, hmap, hall⟩ := tagExtensions_ok env laws cfg.TagAttributes hmarshal
  obtain ⟨serial, hserial⟩ := hserial
  obtain ⟨der, hder⟩ := hsign
    { IssuerCommonName := cfg.TagCACert.Subject.CommonName
      SerialNumber := serial
      SubjectCommonName := cfg.SubjectUUID
      NotBefore := env.timeNow
      NotAfter := env.timeNow + cfg.ValidityInSeconds
      Extensions := []
      ExtraExtensions := exts }
  have hparse := laws.parse_created _ _ _ _ hder
  have hmem : ∀ e ∈ exts, ∃ a ∈ cfg.TagAttributes, env.asn1UnmarshalAttribute e.Value = .ok a := by
    intro e he
    have h1 : env.asn1UnmarshalAttribute e.Value ∈
        exts.map (fun e => env.asn1UnmarshalAttribute e.Value) :=
      List.mem_map.mpr ⟨e, he, rfl⟩
    rw [hmap] at h1
    obtain ⟨a, ha, hae⟩ := List.mem_map.mp h1
    exact ⟨a, ha, hae.symm⟩
  have hmem2 : ∀ a ∈ cfg.TagAttributes, ∃ e ∈ exts, env.asn1UnmarshalAttribute e.Value = .ok a := by
    intro a ha
    have h1 : Except.ok a ∈ cfg.TagAttributes.map (Except.ok : _ → Except GoError _) :=
      List.mem_map.mpr ⟨a, ha, rfl⟩
    rw [← hmap] at h1
    obtain ⟨e, he, hea⟩ := List.mem_map.mp h1
    exact ⟨e, he, hea⟩
  have hca2 : cfg.TagCACert.Raw.isEmpty = false := by
    cases h : cfg.TagCACert.Raw with
    | nil => exact absurd h hca
    | cons a b => rfl
  refine ⟨der, _, _, ?_, hder, rfl, hmap, hall, hparse, rfl, rfl, ?_, ?_⟩
  · simp [CreateAssetTag, hsubject, hattrs, hvalidity, hkey, hca2, hexts, hserial, hder]
  · intro a ha
    obtain ⟨e, he, hea⟩ := hmem2 a ha
    exact ⟨e, List.mem_append_right _ he, hea⟩
  · intro hnone e he
    simp only [hnone, List.nil_append] at he
    exact hmem e he

/-- A length-preceded list is read back, whatever follows it. -/
theorem decodeNats_encodeNats (l tail : List Nat) :
    decodeNats (encodeNats l ++ tail) = some (l, tail) := by
  simp [encodeNats, decodeNats]

/-- A text is read back from its character codes. -/
theorem textOf_codesOf (s : String) : textOf (codesOf s) = s := by
  simp [textOf, codesOf, List.map_map, Function.comp_def, Char.ofNat_toNat]

/-- An encoded extension is read back, whatever follows it. -/
theorem decodeExtension_encodeExtension (e : Extension) (tail : List Nat) :
    decodeExtension (encodeExtension e ++ tail) = some (e, tail) := by
  unfold decodeExtension encodeExtension
  rw [List.append_assoc, decodeNats_encodeNats]
  simp only [List.cons_append, decodeNats_encodeNats]
  cases e with
  | mk id crit value => cases crit <;> simp

/-- The encoded extensions are read back in order, whatever follows them. -/
theorem decodeExtensions_encode (l : List Extension) (tail : List Nat) :
    decodeExtensions l.length (l.flatMap encodeExtension ++ tail) = some (l, tail) := by
  induction l with
  | nil => rfl
  | cons e rest ih =>
    simp only [List.length_cons, List.flatMap_cons, List.append_assoc, decodeExtensions,
      decodeExtension_encodeExtension, ih]

/-- Parsing an in-memory certificate gives back its subject common name and extensions. -/
theorem decodeCertificate_encodeCertificate (subjectCommonName : String)
    (extensions : List Extension) :
    decodeCertificate (encodeCertificate subjectCommonName extensions) =
      .ok ⟨subjectCommonName, extensions⟩ := by
  unfold decodeCertificate encodeCertificate
  rw [decodeNats_encodeNats]
  have h := decodeExtensions_encode extensions []
  simp only [List.append_nil] at h
  simp only [h, textOf_codesOf]

/-- The in-memory library calls keep the contract of the decoding calls, whatever subject key
identifiers the CA certificates have. -/
theorem memAtagEnvWith_laws (keyIds : List (Bytes × Bytes)) :
    DecodingLaws (memAtagEnvWith keyIds) where
  attribute_roundtrip := by
    intro a der h
    simp only [memAtagEnvWith, Except.ok.injEq] at h
    subst h
    have h2 := decodeNats_encodeNats (codesOf a.Value) []
    simp only [List.append_nil] at h2
    simp only [memAtagEnvWith, decodeNats_encodeNats, h2, textOf_codesOf]
  parse_created := by
    intro template parent key der h
    simp only [memAtagEnvWith, Except.ok.injEq] at h
    subst h
    exact decodeCertificate_encodeCertificate _ _

/-- C24 (witness): the configuration of the test of the package with the in-memory library
calls and a CA certificate without subject key identifier: the certificate parses, its
subject common name is the subject UUID, and its two extensions decode to ("Country", "US")
and ("Country", "India"). -/
theorem CreateAssetTag_parsed_certificate_witness :
    ∃ der cert, CreateAssetTag memAtagEnv exTagConfig = .ok der ∧
      memAtagEnv.ParseCertificate der = .ok cert ∧
      cert.SubjectCommonName = "803f6068-06da-e811-906e-00163566263e" ∧
      cert.Extensions.map (fun e => memAtagEnv.asn1UnmarshalAttribute e.Value)
        = [.ok ⟨"Country", "US"⟩, .ok ⟨"Country", "India"⟩] := by
  obtain ⟨der, template, cert, h1, _, _, h4, _, h6, h7, h8, _, _⟩ :=
    CreateAssetTag_parsed_certificate memAtagEnv (memAtagEnvWith_laws []) exTagConfig [9]
      (by decide) (by decide) (by decide) rfl (by decide)
      (fun _ _ => ⟨_, rfl⟩) ⟨1, rfl⟩ (fun _ => ⟨_, rfl⟩)
  refine ⟨der, cert, h1, h6, h7, ?_⟩
  rw [h8]
  have hnone : memAtagEnv.libraryExtensions template exTagConfig.TagCACert = [] := rfl
  rw [hnone, List.nil_append, h4]
  rfl

/-- C24 (counterexample): the configuration of the test of the package is valid. With a tag-CA
certificate that has the subject key identifier 1 2 3, the certificate that `CreateAssetTag`
returns parses to one with three extensions, the first of which is the authority key
identifier added by the library: it does not decode to a `TagKvAttribute`. With a signer that
refuses the key, `CreateAssetTag` returns an error for the same configuration. -/
theorem CreateAssetTag_extension_not_an_attribute :
    (CreateAssetTag (memAtagEnvWith [([7], [1, 2, 3])]) exTagConfig).toOption.map
        (fun der => ((memAtagEnvWith [([7], [1, 2, 3])]).ParseCertificate der).toOption.map
          (fun cert => cert.Extensions.map
            (fun e => (memAtagEnvWith [([7], [1, 2, 3])]).asn1UnmarshalAttribute e.Value)))
      = some (some [.error "asn1: syntax error", .ok ⟨"Country", "US"⟩,
          .ok ⟨"Country", "India"⟩]) ∧
    (CreateAssetTag (memAtagEnvWith [([7], [1, 2, 3])]) exTagConfig).toOption.map
        (fun der => ((memAtagEnvWith [([7], [1, 2, 3])]).ParseCertificate der).toOption.map
          (fun cert => cert.Extensions.head?))
      = some (some (some ⟨[2, 5, 29, 35], false, [48, 5, 128, 3, 1, 2, 3]⟩)) ∧
    CreateAssetTag memAtagEnvNoSigner exTagConfig =
      .error "x509: provided PrivateKey does not match the PublicKey of the parent" := by
  decide

/-! ## Theorems: an iteration of Verify in which the flavor verifier fails -/

/-- The iteration of `Verify` when the flavor verifier fails, at an example: host 1 has the
flavors 8 (not trusted) and 9 cached for group 10, both are retrievable, and the verifier
fails on 9. `Verify` makes the two `Verify` calls and no `RemoveTrustCacheFlavors` call, and
both IDs are still cached afterwards. -/
theorem Verify_verifier_error_removes_nothing :
    (Verify exEnv 1 (some exManifest) false
      ⟨{ exStore [(1, 10, 8), (1, 10, 9)] with flavors := [exFlavorB, ⟨⟨⟨9⟩⟩, "sigC"⟩] },
        []⟩).2.calls.take 7 =
      [Call.flavorGroupSearch 1, Call.NewFlvGrpHostTrustReqs 1 5 exGroup,
        Call.RetrieveTrustCacheFlavors 1 10, Call.flavorRetrieve 8, Call.flavorRetrieve 9,
        Call.flavorVerify exFlavorB, Call.flavorVerify ⟨⟨⟨9⟩⟩, "sigC"⟩] ∧
    ((Verify exEnv 1 (some exManifest) false
      ⟨{ exStore [(1, 10, 8), (1, 10, 9)] with flavors := [exFlavorB, ⟨⟨⟨9⟩⟩, "sigC"⟩] },
        []⟩).2.calls.drop 7).filter (fun c => !c.isCreateFlavorGroupReport) = [] ∧
    (Verify exEnv 1 (some exManifest) false
      ⟨{ exStore [(1, 10, 8), (1, 10, 9)] with flavors := [exFlavorB, ⟨⟨⟨9⟩⟩, "sigC"⟩] },
        []⟩).2.state.trustCache = [(1, 10, 8), (1, 10, 9)] := by
  decide

end IntelSecl
